import Mathlib

/-!
# agri-connect: orders, accounts, products, cart and messages

A shallow embedding of
* the order routes of `routes/orders.js` (`POST /api/orders`, `PUT /api/orders/:id/status`,
  `POST /api/orders/:id/cancel`, `POST /api/orders/:id/rate`) over an explicit store holding
  the `Product` and `Order` collections;
* the registration and login routes of `routes/auth.js` over the `User` collection, and the
  `auth` middlewares of `routes/orders.js`, `routes/products.js`, `routes/messages.js` and
  `routes/users.js`;
* the product listing pagination and the product update route of `routes/products.js`;
* the client cart of `js/cart.js` and the checkout totals of `js/checkout.js`;
* the message routes of `routes/messages.js` over the two in-memory maps of the module.

Conventions of the embedding:
* JavaScript numbers are exact rationals (`ℚ`); the properties below are statements over exact
  arithmetic, not over IEEE doubles.
* Mongo `ObjectId`s are natural numbers; `findById` returns the first document with the id and
  `findByIdAndUpdate` / `save` rewrite that same document.
* Handlers run one at a time: a handler is a function from the store to the new store and the
  HTTP response.
* `Date.now()`, `new Date()` and `Math.random()` are inputs of the handlers.
* Ids in requests are well-formed `ObjectId`s, and an order document built by a route passes
  the validation of the `Order` schema, so that `save()` stores it. The validation of the
  `User` schema, which is among the sources, is modelled.
-/

namespace AgriConnect

/-! ## Data model -/

/-- The `price` sub-document of `models/Product.js`. -/
structure Price where
  amount : ℚ
  unit : String
  currency : String
deriving DecidableEq

/-- The fields of `models/Product.js` the order routes read or write. -/
structure Product where
  id : Nat
  name : String
  price : Price
  farmer : Nat
  inventory : ℚ
deriving DecidableEq

/-- The authenticated principal `req.user` set by the `auth` middleware. -/
structure User where
  id : Nat
  userType : String
deriving DecidableEq

/-- One element of `req.body.items`. The handler reads `productId` and `quantity`; `price` and
`total` stand for extra fields a client may put in the JSON. -/
structure ItemRequest where
  productId : Nat
  quantity : ℚ
  price : Option ℚ
  total : Option ℚ
deriving DecidableEq

/-- The `shippingAddress` object of the request body (fields the handler reads). -/
structure ShippingAddress where
  address : String
  city : String
  state : String
  pincode : String
deriving DecidableEq

/-- The body of `POST /api/orders`. `subtotal` and `total` stand for extra client-supplied
fields; they are not destructured by the handler. -/
structure OrderRequest where
  items : List ItemRequest
  shippingAddress : Option ShippingAddress
  paymentMethod : Option String
  notes : Option String
  subtotal : Option ℚ
  total : Option ℚ
deriving DecidableEq

/-- An element of `order.items` as pushed by the item loop. -/
structure OrderItem where
  product : Nat
  quantity : ℚ
  unit : String
  price : ℚ
  total : ℚ
deriving DecidableEq

/-- An element of `order.timeline`. -/
structure TimelineEntry where
  status : String
  timestamp : Nat
  notes : String
deriving DecidableEq

/-- The `deliveryAddress` sub-document built by `POST /api/orders`. -/
structure DeliveryAddress where
  type : String
  addressLine1 : String
  city : String
  state : String
  pincode : String
deriving DecidableEq

/-- Modelled from the spec: the `Order` schema (`models/Order.js`) is not among the sources.
An order document has the fields of the specification's data model, under the names the routes
of `routes/orders.js` set or read, with the sub-documents `OrderItem`, `TimelineEntry` and
`DeliveryAddress`. `farmer` is optional because `Array.from(farmers)[0]` is `undefined` on an
empty set. -/
structure Order where
  id : Nat
  orderNumber : String
  customer : Nat
  farmer : Option Nat
  items : List OrderItem
  subtotal : ℚ
  deliveryCharge : ℚ
  total : ℚ
  deliveryAddress : DeliveryAddress
  paymentMethod : String
  customerNotes : Option String
  status : String
  timeline : List TimelineEntry
  rating : Option ℚ
  review : Option String
  ratedAt : Option Nat
deriving DecidableEq

/-- The two collections the order routes touch. -/
structure Store where
  products : List Product
  orders : List Order
deriving DecidableEq

/-- The responses of the order routes: `created` is 201, `ok` is 200, the others are the
error replies, with the data their message is built from. -/
inductive Response where
  | created (order : Order)
  | ok (order : Order)
  | validationErrors
  | productNotFound (productId : Nat)
  | insufficientInventory (name : String) (available : ℚ)
  | orderNotFound
  | forbidden (message : String)
  | cannotCancel
  | notDelivered
  | serverError
deriving DecidableEq

/-- HTTP status code of a response. -/
def Response.code : Response → Nat
  | .created _ => 201
  | .ok _ => 200
  | .validationErrors => 400
  | .productNotFound _ => 404
  | .insufficientInventory _ _ => 400
  | .orderNotFound => 404
  | .forbidden _ => 403
  | .cannotCancel => 400
  | .notDelivered => 400
  | .serverError => 500

/-! ## Collections -/

/-- Mongoose `Product.findById`. -/
def findById (cat : List Product) (id : Nat) : Option Product :=
  cat.find? (fun p => p.id == id)

/-- Mongoose `Product.findByIdAndUpdate(id, { $inc: { inventory: d } })`: adds `d` to the inventory of
the document with that id; nothing happens when there is none. -/
def incInventory : List Product → Nat → ℚ → List Product
  | [], _, _ => []
  | p :: ps, id, d =>
    if p.id = id then { p with inventory := p.inventory + d } :: ps
    else p :: incInventory ps id d

/-- Mongoose `Order.findById`. -/
def findOrder (orders : List Order) (id : Nat) : Option Order :=
  orders.find? (fun o => o.id == id)

/-- Mongoose `order.save()` on a document loaded by `findById`: rewrites the stored document of that
id. -/
def saveOrder : List Order → Order → List Order
  | [], _ => []
  | o :: os, o' => if o.id = o'.id then o' :: os else o :: saveOrder os o'

/-- The `_id` given to a new order document: an id no stored order has. -/
def freshOrderId (orders : List Order) : Nat :=
  (orders.map (fun o => o.id + 1)).foldr max 0

/-- The inventory of the product with the given id, when it exists. -/
def inventoryOf (cat : List Product) (id : Nat) : Option ℚ :=
  (findById cat id).map (fun p => p.inventory)

/-- JavaScript `s || d` on an optional string: `undefined` and `''` are falsy. -/
def strOr (s : Option String) (d : String) : String :=
  match s with
  | none => d
  | some v => if v = "" then d else v

/-- JavaScript `String.prototype.toLowerCase`, character by character. -/
def toLowerCase (s : String) : String :=
  ⟨s.data.map Char.toLower⟩

/-- JavaScript `farmers.add(x)` on a `Set`, kept in insertion order. -/
def setAdd (farmers : List Nat) (x : Nat) : List Nat :=
  if x ∈ farmers then farmers else farmers ++ [x]

/-! ## POST /api/orders -/

/-- The local variables of the item loop: `subtotal`, `orderItems`, `farmers`. -/
structure LoopState where
  subtotal : ℚ
  orderItems : List OrderItem
  farmers : List Nat
deriving DecidableEq

/-- The `for (const item of items)` loop of `POST /api/orders` (lines 55-83), started on the
catalog `cat` with loop variables `acc`. Returns the catalog as left by the loop, and either the
reply of an early `return` or the final loop variables. -/
def processItems : List ItemRequest → List Product → LoopState →
    List Product × Except Response LoopState
  | [], cat, acc => (cat, .ok acc)
  | item :: rest, cat, acc =>
    match findById cat item.productId with
    | none => (cat, .error (.productNotFound item.productId))
    | some product =>
      if product.inventory < item.quantity then
        (cat, .error (.insufficientInventory product.name product.inventory))
      else
        let itemTotal := product.price.amount * item.quantity
        processItems rest (incInventory cat item.productId (-item.quantity))
          { subtotal := acc.subtotal + itemTotal
            orderItems := acc.orderItems ++
              [{ product := item.productId, quantity := item.quantity,
                 unit := product.price.unit, price := product.price.amount,
                 total := itemTotal }]
            farmers := setAdd acc.farmers product.farmer }

/-- The validators of `POST /api/orders`: `items` is an array of at least one element and
`shippingAddress` is present. (`productId` and `quantity` are typed here, so `notEmpty` and
`isNumeric` hold of them; `isNumeric` has no `min` option.) -/
def validOrderRequest (req : OrderRequest) : Bool :=
  !req.items.isEmpty && req.shippingAddress.isSome

/-- Fixed delivery charge, `const deliveryFee = 50`. -/
def deliveryFee : ℚ := 50

/-- The tax rate `0.05` of `const tax = subtotal * 0.05`. -/
def taxRate : ℚ := 5 / 100

/-- The handler of `POST /api/orders` after `auth`. `orderNumber` is the string built from
`Date.now()` and `Math.random()`. The new document is built as the route builds it: the route
passes no timeline and no rating, they start empty. -/
def createOrder (s : Store) (user : User) (req : OrderRequest) (orderNumber : String) :
    Store × Response :=
  if !validOrderRequest req then (s, .validationErrors)
  else
    match req.shippingAddress with
    | none => (s, .validationErrors)
    | some shippingAddress =>
      match processItems req.items s.products
          { subtotal := 0, orderItems := [], farmers := [] } with
      | (cat, .error r) => ({ s with products := cat }, r)
      | (cat, .ok acc) =>
        let tax := acc.subtotal * taxRate
        let total := acc.subtotal + deliveryFee + tax
        let order : Order :=
          { id := freshOrderId s.orders
            orderNumber := orderNumber
            customer := user.id
            farmer := acc.farmers.head?
            items := acc.orderItems
            subtotal := acc.subtotal
            deliveryCharge := deliveryFee
            total := total
            deliveryAddress :=
              { type := "home", addressLine1 := shippingAddress.address,
                city := shippingAddress.city, state := shippingAddress.state,
                pincode := shippingAddress.pincode }
            paymentMethod := toLowerCase (strOr req.paymentMethod "cod")
            customerNotes := req.notes
            status := "pending"
            timeline := []
            rating := none
            review := none
            ratedAt := none }
        ({ products := cat, orders := s.orders ++ [order] }, .created order)

/-! ## PUT /api/orders/:id/status -/

/-- The values accepted by `body('status').isIn([...])`. -/
def validStatuses : List String :=
  ["pending", "confirmed", "preparing", "shipped", "delivered", "cancelled"]

/-- The body of `PUT /api/orders/:id/status`. -/
structure StatusBody where
  status : String
  notes : Option String
deriving DecidableEq

/-- The handler of `PUT /api/orders/:id/status` after `auth`; `now` is `new Date()`. -/
def updateStatus (s : Store) (user : User) (orderId : Nat) (body : StatusBody) (now : Nat) :
    Store × Response :=
  if body.status ∉ validStatuses then (s, .validationErrors)
  else
    match findOrder s.orders orderId with
    | none => (s, .orderNotFound)
    | some order =>
      match order.farmer with
      | none => (s, .serverError)
      | some farmer =>
        if farmer ≠ user.id then (s, .forbidden "Not authorized to update this order")
        else
          let order' : Order :=
            { order with
              status := body.status
              timeline := order.timeline ++
                [{ status := body.status, timestamp := now, notes := strOr body.notes "" }] }
          ({ s with orders := saveOrder s.orders order' }, .ok order')

/-! ## POST /api/orders/:id/cancel -/

/-- The statuses in which an order cannot be cancelled,
`['delivered', 'cancelled'].includes(order.status)`. -/
def terminalStatuses : List String := ["delivered", "cancelled"]

/-- The loop `for (const item of order.items)` restoring the inventory (lines 298-302). -/
def restoreInventory (cat : List Product) (items : List OrderItem) : List Product :=
  items.foldl (fun c item => incInventory c item.product item.quantity) cat

/-- The part of `POST /api/orders/:id/cancel` after the authorization check (lines 284-312). -/
def cancelAuthorized (s : Store) (user : User) (order : Order) (reason : Option String)
    (now : Nat) : Store × Response :=
  if order.status ∈ terminalStatuses then (s, .cannotCancel)
  else
    let order' : Order :=
      { order with
        status := "cancelled"
        timeline := order.timeline ++
          [{ status := "cancelled", timestamp := now,
             notes := strOr reason "Order cancelled by user" }] }
    let products :=
      if order.customer = user.id then restoreInventory s.products order.items
      else s.products
    ({ products := products, orders := saveOrder s.orders order' }, .ok order')

/-- The handler of `POST /api/orders/:id/cancel` after `auth`; `now` is `new Date()`.
The authorization test is `customer !== user && farmer !== user`, with `&&` short-circuit;
`order.farmer.toString()` throws on an undefined farmer, which the handler answers with 500. -/
def cancelOrder (s : Store) (user : User) (orderId : Nat) (reason : Option String) (now : Nat) :
    Store × Response :=
  match findOrder s.orders orderId with
  | none => (s, .orderNotFound)
  | some order =>
    if order.customer ≠ user.id then
      match order.farmer with
      | none => (s, .serverError)
      | some farmer =>
        if farmer ≠ user.id then (s, .forbidden "Not authorized to cancel this order")
        else cancelAuthorized s user order reason now
    else cancelAuthorized s user order reason now

/-! ## POST /api/orders/:id/rate -/

/-- The body of `POST /api/orders/:id/rate`. -/
structure RateBody where
  rating : ℚ
  review : Option String
deriving DecidableEq

/-- The validators of `POST /api/orders/:id/rate`: `rating` is an integer between 1 and 5 and
`review`, when present, has at most 500 characters. -/
def validRateBody (body : RateBody) : Bool :=
  (body.rating.isInt && decide (1 ≤ body.rating) && decide (body.rating ≤ 5)) &&
    (match body.review with
     | none => true
     | some r => decide (r.length ≤ 500))

/-- The handler of `POST /api/orders/:id/rate` after `auth`; `now` is `new Date()`. -/
def rateOrder (s : Store) (user : User) (orderId : Nat) (body : RateBody) (now : Nat) :
    Store × Response :=
  if !validRateBody body then (s, .validationErrors)
  else
    match findOrder s.orders orderId with
    | none => (s, .orderNotFound)
    | some order =>
      if order.customer ≠ user.id then (s, .forbidden "Not authorized to rate this order")
      else if order.status ≠ "delivered" then (s, .notDelivered)
      else
        let order' : Order :=
          { order with rating := some body.rating, review := body.review, ratedAt := some now }
        ({ s with orders := saveOrder s.orders order' }, .ok order')

/-! ## Sequential executions -/

/-- A request to one of the four mutating order routes. -/
inductive Op where
  | createOrder (user : User) (req : OrderRequest) (orderNumber : String)
  | updateStatus (user : User) (orderId : Nat) (body : StatusBody) (now : Nat)
  | cancelOrder (user : User) (orderId : Nat) (reason : Option String) (now : Nat)
  | rateOrder (user : User) (orderId : Nat) (body : RateBody) (now : Nat)

/-- Runs one request against the store. -/
def step (s : Store) : Op → Store × Response
  | .createOrder user req orderNumber => createOrder s user req orderNumber
  | .updateStatus user orderId body now => updateStatus s user orderId body now
  | .cancelOrder user orderId reason now => cancelOrder s user orderId reason now
  | .rateOrder user orderId body now => rateOrder s user orderId body now

/-- Runs a sequence of requests one after the other and returns the final store. -/
def run (s : Store) (ops : List Op) : Store :=
  ops.foldl (fun st op => (step st op).1) s

/-! ## Vocabulary of the properties -/

/-- The subtotal in the words of the specification: the sum over the requested items of
(stored product price × requested quantity), prices being read in the catalog `cat`. -/
def requestSubtotal (cat : List Product) (items : List ItemRequest) : ℚ :=
  (items.map (fun it =>
    match findById cat it.productId with
    | some p => p.price.amount * it.quantity
    | none => 0)).sum

/-- The request with every client-supplied `price`, `subtotal` and `total` field removed. Two
requests with the same image differ only in those fields. -/
def stripClientFields (req : OrderRequest) : OrderRequest :=
  { req with
    subtotal := none
    total := none
    items := req.items.map (fun it => { it with price := none, total := none }) }

/-! ## Sample data -/

/-- The product of the specification's scenario: tomatoes at 40 per kg, 10 available. -/
def tomatoes : Product :=
  { id := 1, name := "Tomatoes", price := { amount := 40, unit := "kg", currency := "INR" },
    farmer := 7, inventory := 10 }

/-- A consumer account. -/
def buyer : User := { id := 3, userType := "consumer" }

/-- The farmer account owning `tomatoes`. -/
def seller : User := { id := 7, userType := "farmer" }

/-- An account that is neither buyer nor seller of the sample orders. -/
def stranger : User := { id := 9, userType := "consumer" }

/-- A shipping address. -/
def homeAddress : ShippingAddress :=
  { address := "12 Mill Road", city := "Salem", state := "TN", pincode := "636001" }

/-- A request with the given (product id, quantity) lines, without client-side extras. -/
def orderOf (lines : List (Nat × ℚ)) : OrderRequest :=
  { items := lines.map (fun l => { productId := l.1, quantity := l.2, price := none, total := none })
    shippingAddress := some homeAddress
    paymentMethod := none, notes := none, subtotal := none, total := none }

/-- The scenario's request: 3 units of tomatoes, with bogus client-side price and totals. -/
def tomatoRequest : OrderRequest :=
  { items := [{ productId := 1, quantity := 3, price := some 1, total := some 1 }],
    shippingAddress := some homeAddress,
    paymentMethod := none, notes := none, subtotal := some 1, total := some 1 }

/-- A store holding the tomatoes and no order. -/
def tomatoStore : Store := { products := [tomatoes], orders := [] }

/-- The order document the scenario's request produces. -/
def tomatoOrder : Order :=
  { id := 0, orderNumber := "ORD1", customer := 3, farmer := some 7,
    items := [{ product := 1, quantity := 3, unit := "kg", price := 40, total := 120 }],
    subtotal := 120, deliveryCharge := 50, total := 176,
    deliveryAddress :=
      { type := "home", addressLine1 := "12 Mill Road", city := "Salem", state := "TN",
        pincode := "636001" },
    paymentMethod := "cod", customerNotes := none, status := "pending", timeline := [],
    rating := none, review := none, ratedAt := none }

/-- The store after the scenario's request. -/
def tomatoStoreAfter : Store :=
  { products := [{ tomatoes with inventory := 7 }], orders := [tomatoOrder] }

/-- The responses of a sequence of requests run one after the other. -/
def runResponses (s : Store) : List Op → List Response
  | [] => []
  | op :: ops => (step s op).2 :: runResponses (step s op).1 ops

/-- The total quantity the line items of a request ask of product `p`. -/
def requestedQuantity (p : Nat) (items : List ItemRequest) : ℚ :=
  ((items.filter (fun it => it.productId == p)).map (fun it => it.quantity)).sum

/-- A `createOrder` request all of whose line items are for product `p`. -/
def ordersOnly (p : Nat) : Op → Bool
  | .createOrder _ req _ => req.items.all (fun it => it.productId == p)
  | _ => false

/-- The quantity a `createOrder` request asks for, all line items together. -/
def orderedQuantity : Op → ℚ
  | .createOrder _ req _ => (req.items.map (fun it => it.quantity)).sum
  | _ => 0

/-- Every line item of a `createOrder` request has a positive quantity (no condition on the
other requests). -/
def positiveQuantities : Op → Prop
  | .createOrder _ req _ => ∀ it ∈ req.items, 0 < it.quantity
  | _ => True

/-- The invariant of the order workflow: no product has a negative inventory and no stored
line item has a negative quantity. -/
def StoreInv (s : Store) : Prop :=
  (∀ p ∈ s.products, 0 ≤ p.inventory) ∧ (∀ o ∈ s.orders, ∀ it ∈ o.items, 0 ≤ it.quantity)

/-- A sample session on `tomatoStore`: the scenario's order, its confirmation by the seller,
its cancellation by the buyer and an attempt to rate it. -/
def sampleSession : List Op :=
  [.createOrder buyer tomatoRequest "ORD1",
   .updateStatus seller 0 { status := "confirmed", notes := none } 1,
   .cancelOrder buyer 0 none 2,
   .rateOrder buyer 0 { rating := 5, review := none } 3]

/-- A second product, of another farmer: onions at 30 per kg, 1 available. -/
def onions : Product :=
  { id := 2, name := "Onions", price := { amount := 30, unit := "kg", currency := "INR" },
    farmer := 8, inventory := 1 }

/-- A store holding tomatoes and onions and no order. -/
def marketStore : Store := { products := [tomatoes, onions], orders := [] }

/-- The scenario's order once delivered. -/
def tomatoDelivered : Order :=
  { tomatoOrder with
    status := "delivered"
    timeline := [{ status := "delivered", timestamp := 1, notes := "" }] }

/-- The store holding the delivered order. -/
def deliveredStore : Store :=
  { products := [{ tomatoes with inventory := 7 }], orders := [tomatoDelivered] }

/-- The scenario's order once cancelled at time 2 without a reason. -/
def tomatoCancelled : Order :=
  { tomatoOrder with
    status := "cancelled"
    timeline := [{ status := "cancelled", timestamp := 2, notes := "Order cancelled by user" }] }

/-- A session on `tomatoStore`: the scenario's order is cancelled by the buyer, set back to
`pending` by the seller, and cancelled by the buyer again. -/
def reopenSession : List Op :=
  [.createOrder buyer tomatoRequest "ORD1",
   .cancelOrder buyer 0 none 2,
   .updateStatus seller 0 { status := "pending", notes := none } 3,
   .cancelOrder buyer 0 none 4]

/-- The transition table in the words of the specification: pending → confirmed → preparing →
shipped → delivered, plus any non-terminal status → cancelled. -/
def tableAllows (current next : String) : Bool :=
  decide ((current, next) ∈
    [("pending", "confirmed"), ("confirmed", "preparing"), ("preparing", "shipped"),
     ("shipped", "delivered")]) ||
  (decide (next = "cancelled") && decide (current ∉ terminalStatuses))

/-- The rating is an integer between 1 and 5, the condition of
`body('rating').isInt({ min: 1, max: 5 })`. -/
def ratingInRange (rating : ℚ) : Prop :=
  rating.isInt = true ∧ 1 ≤ rating ∧ rating ≤ 5

/-- The stored line item `oi` is the one the specification describes for the requested item
`it`, the product being read in the catalog `cat`: same product, the requested quantity, the
product's stored unit and price amount, and total = price × quantity. -/
def lineMatches (cat : List Product) (it : ItemRequest) (oi : OrderItem) : Prop :=
  ∃ p, findById cat it.productId = some p ∧
    oi.product = it.productId ∧ oi.quantity = it.quantity ∧
    oi.unit = p.price.unit ∧ oi.price = p.price.amount ∧ oi.total = oi.price * oi.quantity

/-- The order the two-producer request `[2 tomatoes, 1 onion]` produces on `marketStore`. -/
def mixedOrder : Order :=
  { id := 0, orderNumber := "ORD5", customer := 3, farmer := some 7,
    items := [{ product := 1, quantity := 2, unit := "kg", price := 40, total := 80 },
              { product := 2, quantity := 1, unit := "kg", price := 30, total := 30 }],
    subtotal := 110, deliveryCharge := 50, total := 331 / 2,
    deliveryAddress :=
      { type := "home", addressLine1 := "12 Mill Road", city := "Salem", state := "TN",
        pincode := "636001" },
    paymentMethod := "cod", customerNotes := none, status := "pending", timeline := [],
    rating := none, review := none, ratedAt := none }

/-- The store after the two-producer request: 8 tomatoes, no onion, one order. -/
def marketStoreAfter : Store :=
  { products := [{ tomatoes with inventory := 8 }, { onions with inventory := 0 }],
    orders := [mixedOrder] }

/-- The scenario's order once confirmed by the seller at time 4 with the note `packed`. -/
def tomatoConfirmed : Order :=
  { tomatoOrder with
    status := "confirmed"
    timeline := [{ status := "confirmed", timestamp := 4, notes := "packed" }] }

/-- The store holding the confirmed order. -/
def confirmedStore : Store :=
  { products := [{ tomatoes with inventory := 7 }], orders := [tomatoConfirmed] }

/-! ## Requests in flight

`POST /api/orders` gives the control back at each `await`: `Product.findById`,
`Product.findByIdAndUpdate` and `order.save()`. Between two of them the handler runs without
interruption; at each of them the database operations of other requests may come first. -/

/-- A `POST /api/orders` request in flight: who sent what, the items the loop has still to
process (the head is the current one), the loop variables, whether the `$inc` of the current
item has been issued and is still to be applied, and the reply once sent. -/
structure InFlight where
  user : User
  req : OrderRequest
  orderNumber : String
  items : List ItemRequest
  acc : LoopState
  awaitingInc : Bool
  reply : Option Response
deriving DecidableEq

/-- The handler up to its first `await`: validation, and the loop variables at their initial
values. -/
def startOrder (user : User) (req : OrderRequest) (orderNumber : String) : InFlight :=
  { user := user, req := req, orderNumber := orderNumber, items := req.items,
    acc := { subtotal := 0, orderItems := [], farmers := [] }, awaitingInc := false,
    reply := if validOrderRequest req then none else some .validationErrors }

/-- The code after the loop (lines 85-133): totals, the new document, `order.save()` and the
201 reply. -/
def saveInFlight (s : Store) (t : InFlight) : Store × InFlight :=
  match t.req.shippingAddress with
  | none => (s, { t with reply := some .validationErrors })
  | some shippingAddress =>
    let tax := t.acc.subtotal * taxRate
    let total := t.acc.subtotal + deliveryFee + tax
    let order : Order :=
      { id := freshOrderId s.orders
        orderNumber := t.orderNumber
        customer := t.user.id
        farmer := t.acc.farmers.head?
        items := t.acc.orderItems
        subtotal := t.acc.subtotal
        deliveryCharge := deliveryFee
        total := total
        deliveryAddress :=
          { type := "home", addressLine1 := shippingAddress.address,
            city := shippingAddress.city, state := shippingAddress.state,
            pincode := shippingAddress.pincode }
        paymentMethod := toLowerCase (strOr t.req.paymentMethod "cod")
        customerNotes := t.req.notes
        status := "pending"
        timeline := []
        rating := none
        review := none
        ratedAt := none }
    ({ products := s.products, orders := s.orders ++ [order] },
      { t with reply := some (.created order) })

/-- One database operation of a request in flight together with the handler code that follows
it up to the next `await`:
* `findById` of the current item, then the two checks and the update of the loop variables
  (lines 56-77), the `$inc` being issued;
* the `$inc` of the current item (lines 80-82), which moves the loop to the next item;
* after the last item, `order.save()` and the reply.
A request that has replied does nothing. -/
def stepInFlight (s : Store) (t : InFlight) : Store × InFlight :=
  match t.reply with
  | some _ => (s, t)
  | none =>
    match t.items with
    | [] => saveInFlight s t
    | item :: rest =>
      if t.awaitingInc then
        ({ products := incInventory s.products item.productId (-item.quantity),
           orders := s.orders },
          { t with items := rest, awaitingInc := false })
      else
        match findById s.products item.productId with
        | none => (s, { t with reply := some (.productNotFound item.productId) })
        | some product =>
          if product.inventory < item.quantity then
            (s, { t with
                  reply := some (.insufficientInventory product.name product.inventory) })
          else
            let itemTotal := product.price.amount * item.quantity
            (s, { t with
                  awaitingInc := true
                  acc :=
                    { subtotal := t.acc.subtotal + itemTotal
                      orderItems := t.acc.orderItems ++
                        [{ product := item.productId, quantity := item.quantity,
                           unit := product.price.unit, price := product.price.amount,
                           total := itemTotal }]
                      farmers := setAdd t.acc.farmers product.farmer } })

/-- Two requests in flight run under a schedule: `true` lets the first do its next database
operation, `false` the second. -/
def interleave (s : Store) (a b : InFlight) : List Bool → Store × InFlight × InFlight
  | [] => (s, a, b)
  | true :: rest => interleave (stepInFlight s a).1 (stepInFlight s a).2 b rest
  | false :: rest => interleave (stepInFlight s b).1 a (stepInFlight s b).2 rest

/-- A request in flight run alone for `n` database operations. -/
def runInFlight : Nat → Store → InFlight → Store × InFlight
  | 0, s, t => (s, t)
  | n + 1, s, t => runInFlight n (stepInFlight s t).1 (stepInFlight s t).2

/-! ## Accounts: POST /api/auth/register

The account routes use three libraries that are not part of the sources: `validator` (through
`express-validator`), `bcryptjs` and `jsonwebtoken`. Their functions without a simple closed
form are parameters of the model. -/

/-- The library functions taken as parameters: `isEmail` and `normalizeEmail` of `validator`,
`bcrypt.hash` (with its generated salt) and `bcrypt.compare` (candidate, stored hash). -/
structure AuthLib where
  isEmail : String → Bool
  normalizeEmail : String → String
  hash : String → String
  compare : String → String → Bool

/-- The `location` sub-document of `models/User.js`. -/
structure Location where
  city : String
  state : String
  pincode : String
deriving DecidableEq

/-- A document of `models/User.js`. `password` is absent from a public profile; `crops` is an
array, which Mongoose creates empty when none is given. -/
structure Account where
  id : Nat
  userType : String
  firstName : String
  lastName : String
  email : String
  phone : String
  location : Location
  password : Option String
  farmName : Option String
  farmSize : Option ℚ
  crops : List String
  termsAccepted : Bool
  newsletter : Bool
  isActive : Bool
  createdAt : Nat
  updatedAt : Nat
deriving DecidableEq

/-- The body of `POST /api/auth/register`. The nine validated fields are strings, a missing one
being validated as the empty string; the farmer fields and `addresses` may be absent. -/
structure RegisterRequest where
  firstName : String
  lastName : String
  email : String
  phone : String
  password : String
  userType : String
  location : Location
  farmName : Option String
  farmSize : Option ℚ
  crops : Option (List String)
  addresses : Option (List String)
deriving DecidableEq

/-- A signed JSON web token: its payload, as a list of fields, and the secret it was signed
with (the expiry date is left out). -/
structure Token where
  payload : List (String × Nat)
  secret : String
deriving DecidableEq

/-- The replies of the account routes: `registered` is 201, `loggedIn` is 200, the others are
the error replies. -/
inductive AuthResponse where
  | registered (user : Account) (token : Token)
  | loggedIn (user : Account) (token : Token)
  | validationFailed
  | emailTaken
  | farmFieldsRequired
  | unauthorized (message : String)
  | serverError
deriving DecidableEq

/-- HTTP status code of a reply of the account routes. -/
def AuthResponse.code : AuthResponse → Nat
  | .registered _ _ => 201
  | .loggedIn _ _ => 200
  | .validationFailed => 400
  | .emailTaken => 400
  | .farmFieldsRequired => 400
  | .unauthorized _ => 401
  | .serverError => 500

/-- The characters of the class `\s` of JavaScript regular expressions, which are also the
white space and line terminators `String.prototype.trim` removes: tab, line feed, vertical
tab, form feed, carriage return, space, U+00A0, U+1680, U+2000 to U+200A, U+2028, U+2029,
U+202F, U+205F, U+3000 and U+FEFF. -/
def isJsSpace (c : Char) : Bool :=
  decide (9 ≤ c.toNat ∧ c.toNat ≤ 13) || decide (c.toNat = 32) || decide (c.toNat = 160) ||
  decide (c.toNat = 5760) || decide (8192 ≤ c.toNat ∧ c.toNat ≤ 8202) ||
  decide (c.toNat = 8232) || decide (c.toNat = 8233) || decide (c.toNat = 8239) ||
  decide (c.toNat = 8287) || decide (c.toNat = 12288) || decide (c.toNat = 65279)

/-- The sanitizer `trim()` of the validators (leading `/^\s+/`, trailing `\s` characters) and
the `trim` of the schemas (`String.prototype.trim`): white space removed at both ends. -/
def jsTrim (s : String) : String :=
  ⟨((s.data.dropWhile isJsSpace).reverse.dropWhile isJsSpace).reverse⟩

/-- The validator `isLength({ min, max })`. -/
def lengthBetween (s : String) (min max : Nat) : Bool :=
  decide (min ≤ s.length) && decide (s.length ≤ max)

/-- The validator `matches(/^[0-9]{10}$/)`. -/
def isTenDigits (s : String) : Bool :=
  decide (s.length = 10) && s.data.all Char.isDigit

/-- The user types accepted by the validators of the account routes. -/
def routeUserTypes : List String := ["farmer", "consumer", "retailer"]

/-- The validators of `POST /api/auth/register` (lines 20-28). -/
def validRegisterRequest (lib : AuthLib) (req : RegisterRequest) : Bool :=
  lengthBetween (jsTrim req.firstName) 2 50 &&
  lengthBetween (jsTrim req.lastName) 2 50 &&
  lib.isEmail req.email &&
  isTenDigits req.phone &&
  decide (6 ≤ req.password.length) &&
  decide (req.userType ∈ routeUserTypes) &&
  decide (req.location.city ≠ "") &&
  decide (req.location.state ≠ "") &&
  decide (req.location.pincode ≠ "")

/-- The email as `models/User.js` holds it: the schema options `lowercase` and `trim` are
applied by Mongoose to the value it stores and to the value it looks for. -/
def schemaEmail (email : String) : String :=
  toLowerCase (jsTrim email)

/-- Mongoose `User.findOne({ email })`. -/
def findByEmail (users : List Account) (email : String) : Option Account :=
  users.find? (fun a => a.email == schemaEmail email)

/-- The `_id` given to a new account: an id no stored account has. -/
def freshAccountId (users : List Account) : Nat :=
  (users.map (fun a => a.id + 1)).foldr max 0

/-- JavaScript `!farmName` on an optional string. -/
def noString (s : Option String) : Bool :=
  match s with
  | none => true
  | some v => decide (v = "")

/-- JavaScript `!farmSize` on an optional number. -/
def noNumber (x : Option ℚ) : Bool :=
  match x with
  | none => true
  | some v => decide (v = 0)

/-- The validation `user.save()` runs, from the schema of `models/User.js`: the enum of
`userType`, the required strings, the minimal length of the password, and the farmer fields
required when `userType` is `farmer` (an array, even empty, satisfies `required`). -/
def userSchemaValid (a : Account) : Bool :=
  decide (a.userType ∈ ["farmer", "consumer"]) &&
  decide (a.firstName ≠ "") && decide (a.lastName ≠ "") && decide (a.email ≠ "") &&
  decide (a.phone ≠ "") &&
  decide (a.location.city ≠ "") && decide (a.location.state ≠ "") &&
  decide (a.location.pincode ≠ "") &&
  (match a.password with
   | none => false
   | some p => decide (6 ≤ p.length)) &&
  (decide (a.userType ≠ "farmer") || (!noString a.farmName && a.farmSize.isSome))

/-- The function `generateToken` of `routes/auth.js`: the payload `{ id: userId }` signed with
`process.env.JWT_SECRET || 'fallback-secret'`. -/
def generateToken (jwtSecret : Option String) (userId : Nat) : Token :=
  { payload := [("id", userId)], secret := strOr jwtSecret "fallback-secret" }

/-- The method `getPublicProfile` of `models/User.js`: the document without its password. -/
def getPublicProfile (a : Account) : Account :=
  { a with password := none }

/-- The handler of `POST /api/auth/register`. `jwtSecret` is `process.env.JWT_SECRET` and
`now` is `Date.now()`. The sanitizers `trim()` and `normalizeEmail()` replace the fields of the
body; `addresses` is not a path of the schema and is not stored. -/
def register (lib : AuthLib) (jwtSecret : Option String) (users : List Account)
    (req : RegisterRequest) (now : Nat) : List Account × AuthResponse :=
  if !validRegisterRequest lib req then (users, .validationFailed)
  else
    let email := lib.normalizeEmail req.email
    match findByEmail users email with
    | some _ => (users, .emailTaken)
    | none =>
      if req.userType = "farmer" ∧ (noString req.farmName || noNumber req.farmSize) = true then
        (users, .farmFieldsRequired)
      else
        let user : Account :=
          { id := freshAccountId users
            userType := req.userType
            firstName := jsTrim req.firstName
            lastName := jsTrim req.lastName
            email := schemaEmail email
            phone := req.phone
            location := req.location
            password := some req.password
            farmName := if req.userType = "farmer" then req.farmName else none
            farmSize := if req.userType = "farmer" then req.farmSize else none
            crops := if req.userType = "farmer" then req.crops.getD [] else []
            termsAccepted := false
            newsletter := false
            isActive := true
            createdAt := now
            updatedAt := now }
        if !userSchemaValid user then (users, .serverError)
        else
          let stored : Account := { user with password := some (lib.hash req.password) }
          (users ++ [stored],
            .registered (getPublicProfile stored) (generateToken jwtSecret stored.id))

/-- A stand-in for the libraries, for the sample requests: an email has an `@`, it is
normalized to lower case, and a hash is the password behind a prefix. -/
def sampleLib : AuthLib :=
  { isEmail := fun s => decide ('@' ∈ s.data)
    normalizeEmail := toLowerCase
    hash := fun p => "hash:" ++ p
    compare := fun candidate stored => stored == "hash:" ++ candidate }

/-- The farmer registration of `test-system.js` and `test-manual.js` (`farmerData`): a farm
name, no farm size, no crops. -/
def testFarmerRequest : RegisterRequest :=
  { firstName := "Test", lastName := "Farmer", email := "farmer@test.com",
    password := "password123", phone := "9876543210", userType := "farmer",
    location := { city := "Mumbai", state := "Maharashtra", pincode := "400001" },
    farmName := some "Test Organic Farm", farmSize := none, crops := none, addresses := none }

/-- The consumer registration of the tests (`consumerData`). -/
def testConsumerRequest : RegisterRequest :=
  { firstName := "Test", lastName := "Consumer", email := "consumer@test.com",
    password := "password123", phone := "9876543211", userType := "consumer",
    location := { city := "Mumbai", state := "Maharashtra", pincode := "400002" },
    farmName := none, farmSize := none, crops := none, addresses := none }

/-- A farmer registration with a farm name and a farm size and no crop list. -/
def farmerWithoutCrops : RegisterRequest :=
  { testFarmerRequest with farmSize := some 2 }

/-! ## Accounts: POST /api/auth/login and the `auth` middlewares -/

/-- The body of `POST /api/auth/login`; a missing field is validated as the empty string. -/
structure LoginRequest where
  email : String
  password : String
  userType : String
deriving DecidableEq

/-- The validators of `POST /api/auth/login` (lines 123-125). -/
def validLoginRequest (lib : AuthLib) (req : LoginRequest) : Bool :=
  lib.isEmail req.email &&
  decide (req.password ≠ "") &&
  decide (req.userType ∈ routeUserTypes)

/-- Mongoose `User.findOne({ email, userType, isActive: true })`. -/
def findActiveAccount (users : List Account) (email userType : String) : Option Account :=
  users.find? (fun a => a.email == schemaEmail email && a.userType == userType && a.isActive)

/-- The handler of `POST /api/auth/login`. `user.lastLogin` is not a path of the schema, so
`user.save()` has nothing to write and the collection is as before. `bcrypt.compare` throws on
a document without password, which the handler answers with 500. -/
def login (lib : AuthLib) (jwtSecret : Option String) (users : List Account)
    (req : LoginRequest) : List Account × AuthResponse :=
  if !validLoginRequest lib req then (users, .validationFailed)
  else
    let email := lib.normalizeEmail req.email
    match findActiveAccount users email req.userType with
    | none => (users, .unauthorized "Invalid credentials or user type")
    | some user =>
      match user.password with
      | none => (users, .serverError)
      | some stored =>
        if !lib.compare req.password stored then (users, .unauthorized "Invalid credentials")
        else (users, .loggedIn (getPublicProfile user) (generateToken jwtSecret user.id))

/-- The function `jwt.verify(token, process.env.JWT_SECRET)`: the payload when the token was
signed with that secret; it throws when there is no secret or another one. -/
def jwtVerify (jwtSecret : Option String) (token : Token) : Option (List (String × Nat)) :=
  match jwtSecret with
  | none => none
  | some secret => if secret ≠ "" ∧ secret = token.secret then some token.payload else none

/-- Mongoose `User.findById(id).select('-password')`. -/
def findAccountById (users : List Account) (id : Nat) : Option Account :=
  (users.find? (fun a => a.id == id)).map getPublicProfile

/-- What an `auth` middleware does with a request: it sets `req.user` and calls the handler,
or answers 401 with a message. -/
inductive AuthResult where
  | authenticated (user : Account)
  | denied (message : String)
deriving DecidableEq

/-- The `auth` middleware that the four route files repeat, up to the field of the decoded
payload it reads (`decoded.id` or `decoded.userId`). `header` is the token of the
`Authorization` header. A field the payload does not have is `undefined`, and
`User.findById(undefined)` finds nothing. -/
def authReading (field : String) (jwtSecret : Option String) (users : List Account)
    (header : Option Token) : AuthResult :=
  match header with
  | none => .denied "No token, authorization denied"
  | some token =>
    match jwtVerify jwtSecret token with
    | none => .denied "Token is not valid"
    | some decoded =>
      match decoded.lookup field with
      | none => .denied "Token is not valid"
      | some id =>
        match findAccountById users id with
        | none => .denied "Token is not valid"
        | some user => .authenticated user

/-- The `auth` of `routes/orders.js` (lines 9-30): `User.findById(decoded.id)`. -/
def ordersAuth (jwtSecret : Option String) (users : List Account) (header : Option Token) :
    AuthResult :=
  authReading "id" jwtSecret users header

/-- The `auth` of `routes/products.js` (lines 8-29): `User.findById(decoded.id)`. -/
def productsAuth (jwtSecret : Option String) (users : List Account) (header : Option Token) :
    AuthResult :=
  authReading "id" jwtSecret users header

/-- The `auth` of `routes/messages.js` (lines 7-27): `User.findById(decoded.userId)`. -/
def messagesAuth (jwtSecret : Option String) (users : List Account) (header : Option Token) :
    AuthResult :=
  authReading "userId" jwtSecret users header

/-- The `auth` of `routes/users.js` (lines 9-28): `User.findById(decoded.userId)`. -/
def usersAuth (jwtSecret : Option String) (users : List Account) (header : Option Token) :
    AuthResult :=
  authReading "userId" jwtSecret users header

/-- The user collection after the consumer registration of the tests. -/
def consumerUsers : List Account :=
  (register sampleLib (some "s3cret") [] testConsumerRequest 5).1

/-- The invalid login of `test-enhanced.js` and `test-system.js`. -/
def testInvalidLogin : LoginRequest :=
  { email := "invalid@test.com", password := "wrongpassword", userType := "consumer" }

/-! ## GET /api/orders: pagination -/

/-- The `pagination` object of `GET /api/orders` (lines 175-180). -/
structure Pagination where
  current : ℤ
  total : ℤ
  hasNext : Bool
  hasPrev : Bool
deriving DecidableEq

/-- The pagination block of `GET /api/orders`: `page` and `limit` are `parseInt(page)` and
`parseInt(limit)`, `total` is `Order.countDocuments(filter)`; `Math.ceil(total / limit)` is
taken over exact arithmetic. -/
def pagination (page limit total : ℤ) : Pagination :=
  { current := page
    total := Int.ceil ((total : ℚ) / (limit : ℚ))
    hasNext := decide (page * limit < total)
    hasPrev := decide (page > 1) }

/-! ## The shopping cart of `js/cart.js` and the totals of `js/checkout.js` -/

/-- A product as the pages receive it from `GET /api/products`: the fields of `Product` and
the other fields of `models/Product.js` that the product routes and the cart use. -/
structure ProductDoc extends Product where
  description : String
  category : String
  location : String
  images : List String
deriving DecidableEq

/-- An item of the cart, as `addItem` builds it. -/
structure CartItem where
  productId : Nat
  name : String
  price : ℚ
  unit : String
  image : Option String
  farmer : Nat
  quantity : ℚ
deriving DecidableEq

/-- The assignment `existingItem.quantity += quantity` on the first item of the product. -/
def addQuantity : List CartItem → Nat → ℚ → List CartItem
  | [], _, _ => []
  | item :: rest, productId, quantity =>
    if item.productId = productId then
      { item with quantity := item.quantity + quantity } :: rest
    else item :: addQuantity rest productId quantity

/-- The assignment `item.quantity = quantity` on the first item of the product. -/
def setQuantity : List CartItem → Nat → ℚ → List CartItem
  | [], _, _ => []
  | item :: rest, productId, quantity =>
    if item.productId = productId then { item with quantity := quantity } :: rest
    else item :: setQuantity rest productId quantity

/-- The method `ShoppingCart.addItem(product, quantity)` on `this.items`: the quantity is
added to the first item of that product, or a new item is pushed. -/
def addItem (items : List CartItem) (product : ProductDoc) (quantity : ℚ) : List CartItem :=
  match items.find? (fun item => item.productId == product.id) with
  | some _ => addQuantity items product.id quantity
  | none =>
    items ++
      [{ productId := product.id, name := product.name, price := product.price.amount,
         unit := product.price.unit, image := product.images.head?,
         farmer := product.farmer, quantity := quantity }]

/-- The method `ShoppingCart.removeItem(productId)`. -/
def removeItem (items : List CartItem) (productId : Nat) : List CartItem :=
  items.filter (fun item => item.productId != productId)

/-- The method `ShoppingCart.updateQuantity(productId, quantity)`. -/
def updateQuantity (items : List CartItem) (productId : Nat) (quantity : ℚ) : List CartItem :=
  match items.find? (fun item => item.productId == productId) with
  | some _ =>
    if quantity ≤ 0 then removeItem items productId
    else setQuantity items productId quantity
  | none => items

/-- The method `ShoppingCart.clearCart()`. -/
def clearCart (_ : List CartItem) : List CartItem := []

/-- The method `ShoppingCart.getTotal()`. -/
def getTotal (items : List CartItem) : ℚ :=
  items.foldl (fun total item => total + item.price * item.quantity) 0

/-- The method `ShoppingCart.getCount()`. -/
def getCount (items : List CartItem) : ℚ :=
  items.foldl (fun count item => count + item.quantity) 0

/-- The constant `deliveryFee` of `js/checkout.js`. -/
def checkoutDeliveryFee : ℚ := 50

/-- The constant `taxRate` of `js/checkout.js`, 0.05. -/
def checkoutTaxRate : ℚ := 5 / 100

/-- The three amounts `calculateTotals` computes before it displays them. -/
structure Totals where
  subtotal : ℚ
  tax : ℚ
  total : ℚ
deriving DecidableEq

/-- The function `calculateTotals(cartItems)` of `js/checkout.js` (lines 52-61). -/
def calculateTotals (cartItems : List CartItem) : Totals :=
  let subtotal := cartItems.foldl (fun total item => total + item.price * item.quantity) 0
  let tax := subtotal * checkoutTaxRate
  let total := subtotal + checkoutDeliveryFee + tax
  { subtotal := subtotal, tax := tax, total := total }

/-- The `items` of the order `js/checkout.js` sends for a cart (lines 204-207). -/
def cartOrderItems (cartItems : List CartItem) : List ItemRequest :=
  cartItems.map (fun item =>
    { productId := item.productId, quantity := item.quantity, price := none, total := none })

/-- No two items of the cart have the same productId. -/
def uniqueIds (items : List CartItem) : Prop :=
  (items.map (fun item => item.productId)).Nodup

/-- The tomatoes as the pages receive them. -/
def tomatoDoc : ProductDoc :=
  { tomatoes with
    description := "Vine tomatoes", category := "Vegetables", location := "Salem",
    images := ["tomatoes.jpg"] }

/-- The cart after 3 tomatoes were added to the empty cart. -/
def tomatoCart : List CartItem :=
  [{ productId := 1, name := "Tomatoes", price := 40, unit := "kg",
     image := some "tomatoes.jpg", farmer := 7, quantity := 3 }]

/-- The tomatoes after their price went from 40 to 50. -/
def dearerTomatoDoc : ProductDoc :=
  { tomatoDoc with price := { amount := 50, unit := "kg", currency := "INR" } }

/-- The price `addItem` counts for the added quantity: the price kept in the cart item when
the product is already in the cart, the price of the product otherwise. -/
def cartPrice (items : List CartItem) (product : ProductDoc) : ℚ :=
  match items.find? (fun item => item.productId == product.id) with
  | some item => item.price
  | none => product.price.amount

/-! ## PUT /api/products/:id -/

/-- The body of `PUT /api/products/:id`: the fields the handler reads, each possibly absent.
`specifications` and `deliveryOptions` are not paths of `models/Product.js`. -/
structure ProductUpdate where
  name : Option String
  description : Option String
  category : Option String
  inventory : Option ℚ
  images : Option (List String)
  specifications : Option String
  deliveryOptions : Option String
  price : Option ℚ
deriving DecidableEq

/-- The replies of `PUT /api/products/:id`. -/
inductive ProductResponse where
  | ok (product : ProductDoc)
  | validationErrors
  | notFound
  | forbidden (message : String)
  | serverError
deriving DecidableEq

/-- HTTP status code of a reply of `PUT /api/products/:id`. -/
def ProductResponse.code : ProductResponse → Nat
  | .ok _ => 200
  | .validationErrors => 400
  | .notFound => 404
  | .forbidden _ => 403
  | .serverError => 500

/-- The validators of `PUT /api/products/:id`: a name that is present is not empty (`price`
and `inventory` are typed as numbers here). -/
def validProductUpdate (body : ProductUpdate) : Bool :=
  decide (body.name ≠ some "")

/-- The categories of `models/Product.js`. -/
def productCategories : List String :=
  ["Vegetables", "Fruits", "Grains", "Dairy", "Poultry", "Other"]

/-- The validation `runValidators: true` runs on the paths that are set, from
`models/Product.js`: a required string is not empty (the name after the `trim` of the schema),
the category is in the enum, the inventory and the price amount are not negative. -/
def productUpdateAccepted (body : ProductUpdate) : Bool :=
  decide (body.name.map jsTrim ≠ some "") && decide (body.description ≠ some "") &&
  (match body.category with
   | none => true
   | some c => decide (c ∈ productCategories)) &&
  (match body.inventory with
   | none => true
   | some v => decide (0 ≤ v)) &&
  (match body.price with
   | none => true
   | some v => decide (0 ≤ v))

/-- The document after `$set: updateFields` (lines 167-179): each allowed field present in the
body replaces the stored one, the name after the `trim` of the schema, and `price` replaces
`price.amount`; `specifications` and `deliveryOptions`, which the schema does not have, are not
stored. -/
def applyProductUpdate (p : ProductDoc) (body : ProductUpdate) : ProductDoc :=
  { p with
    name := (body.name.map jsTrim).getD p.name
    description := body.description.getD p.description
    category := body.category.getD p.category
    inventory := body.inventory.getD p.inventory
    images := body.images.getD p.images
    price := { p.price with amount := body.price.getD p.price.amount } }

/-- Mongoose `Product.findById` on full product documents. -/
def findProductDoc (products : List ProductDoc) (id : Nat) : Option ProductDoc :=
  products.find? (fun p => p.id == id)

/-- The stored document of that id rewritten. -/
def replaceProductDoc : List ProductDoc → ProductDoc → List ProductDoc
  | [], _ => []
  | p :: ps, p' => if p.id = p'.id then p' :: ps else p :: replaceProductDoc ps p'

/-- The handler of `PUT /api/products/:id` after `auth`. A `$set` the validators refuse throws,
which the handler answers with 500. -/
def updateProduct (products : List ProductDoc) (user : User) (id : Nat) (body : ProductUpdate) :
    List ProductDoc × ProductResponse :=
  if !validProductUpdate body then (products, .validationErrors)
  else
    match findProductDoc products id with
    | none => (products, .notFound)
    | some product =>
      if product.farmer ≠ user.id then
        (products, .forbidden "Not authorized to update this product")
      else if !productUpdateAccepted body then (products, .serverError)
      else
        let updatedProduct := applyProductUpdate product body
        (replaceProductDoc products updatedProduct, .ok updatedProduct)

/-- A body that changes nothing but the price. -/
def priceUpdate (price : ℚ) : ProductUpdate :=
  { name := none, description := none, category := none, inventory := none, images := none,
    specifications := none, deliveryOptions := none, price := some price }

/-- A body that changes nothing but the name. -/
def nameUpdate (name : String) : ProductUpdate :=
  { name := some name, description := none, category := none, inventory := none,
    images := none, specifications := none, deliveryOptions := none, price := none }

/-- A body with an empty name and nothing else, which the validator of `name` refuses. -/
def emptyNameUpdate : ProductUpdate :=
  { name := some "", description := none, category := none, inventory := none, images := none,
    specifications := none, deliveryOptions := none, price := none }

/-! ## Messages: `routes/messages.js`

The two in-memory maps of the module, `conversations` (user id to the array of the user's
conversations) and `messages` (conversation id to the array of its messages). Ids are the
strings the handlers compare and join. -/

/-- An entry of a user's conversation array. -/
structure Conversation where
  id : String
  otherUserId : String
  lastMessage : String
  timestamp : Nat
  unread : Bool
  messageCount : Nat
deriving DecidableEq

/-- A stored message. -/
structure ChatMessage where
  id : String
  conversationId : String
  sender : String
  recipient : String
  content : String
  timestamp : Nat
  read : Bool
deriving DecidableEq

/-- The module state: the maps `conversations` and `messages`. -/
structure Messaging where
  conversations : List (String × List Conversation)
  messages : List (String × List ChatMessage)
deriving DecidableEq

/-- JavaScript `map.get(key)`. -/
def mapGet {α : Type} (m : List (String × α)) (key : String) : Option α :=
  (m.find? (fun e => e.1 == key)).map (fun e => e.2)

/-- JavaScript `map.set(key, value)`. -/
def mapSet {α : Type} : List (String × α) → String → α → List (String × α)
  | [], key, value => [(key, value)]
  | e :: rest, key, value =>
    if e.1 = key then (key, value) :: rest else e :: mapSet rest key value

/-- The expression `[a, b].sort().join('_')`: the two ids in the order of their code units,
joined by an underscore. -/
def conversationId (a b : String) : String :=
  if b.data < a.data then b ++ "_" ++ a else a ++ "_" ++ b

/-- The in-place update of the first conversation with the given other user. -/
def touchConversation :
    List Conversation → String → (Conversation → Conversation) → List Conversation
  | [], _, _ => []
  | c :: rest, other, f =>
    if c.otherUserId = other then f c :: rest else c :: touchConversation rest other f

/-- The in-place update `unread = false; messageCount = 0` of the first conversation with the
given id. -/
def markRead : List Conversation → String → List Conversation
  | [], _ => []
  | c :: rest, conversationId =>
    if c.id = conversationId then { c with unread := false, messageCount := 0 } :: rest
    else c :: markRead rest conversationId

/-- The replies of the message routes: `created` and `conversationCreated` are 201. -/
inductive MessageResponse where
  | created (message : ChatMessage)
  | conversationCreated (conversationId : String)
  | validationErrors
  | recipientNotFound
  | conversationExists (conversationId : String)
deriving DecidableEq

/-- HTTP status code of a reply of the message routes. -/
def MessageResponse.code : MessageResponse → Nat
  | .created _ => 201
  | .conversationCreated _ => 201
  | .validationErrors => 400
  | .recipientNotFound => 404
  | .conversationExists _ => 400

/-- The messages stored under a conversation id, `messages.get(conversationId) || []`. -/
def messagesOf (st : Messaging) (conversationId : String) : List ChatMessage :=
  (mapGet st.messages conversationId).getD []

/-- The conversations of a user, `conversations.get(userId) || []`. -/
def conversationsOf (st : Messaging) (userId : String) : List Conversation :=
  (mapGet st.conversations userId).getD []

/-- The sender's conversation array after lines 114-131 of `POST /api/messages`. -/
def senderSide (conversations : List Conversation) (cid recipientId content : String)
    (now : Nat) : List Conversation :=
  match conversations.find? (fun c => c.otherUserId == recipientId) with
  | none =>
    conversations ++
      [{ id := cid, otherUserId := recipientId, lastMessage := content, timestamp := now,
         unread := false, messageCount := 0 }]
  | some _ =>
    touchConversation conversations recipientId
      (fun c => { c with lastMessage := content, timestamp := now })

/-- The recipient's conversation array after lines 134-153 of `POST /api/messages`. -/
def recipientSide (conversations : List Conversation) (cid sender content : String)
    (now : Nat) : List Conversation :=
  match conversations.find? (fun c => c.otherUserId == sender) with
  | none =>
    conversations ++
      [{ id := cid, otherUserId := sender, lastMessage := content, timestamp := now,
         unread := true, messageCount := 1 }]
  | some _ =>
    touchConversation conversations sender
      (fun c => { c with lastMessage := content, timestamp := now, unread := true,
                         messageCount := c.messageCount + 1 })

/-- The handler of `POST /api/messages` after `auth` (lines 95-181). `sender` is
`req.user.id`, `userExists` tells whether `User.findById` finds the recipient, `now` is the
clock. -/
def sendMessage (userExists : String → Bool) (st : Messaging) (sender recipientId : String)
    (content : String) (now : Nat) : Messaging × MessageResponse :=
  if recipientId = "" ∨ content = "" then (st, .validationErrors)
  else if !userExists recipientId then (st, .recipientNotFound)
  else
    let cid := conversationId sender recipientId
    let conversations1 := mapSet st.conversations sender
      (senderSide (conversationsOf st sender) cid recipientId content now)
    let conversations2 := mapSet conversations1 recipientId
      (recipientSide ((mapGet conversations1 recipientId).getD []) cid sender content now)
    let message : ChatMessage :=
      { id := toString now, conversationId := cid, sender := sender, recipient := recipientId,
        content := content, timestamp := now, read := false }
    ({ conversations := conversations2
       messages := mapSet st.messages cid (messagesOf st cid ++ [message]) },
      .created message)

/-- The validator `body('initialMessage').optional().isLength({ max: 1000 })`. -/
def validInitialMessage (initialMessage : Option String) : Bool :=
  match initialMessage with
  | none => true
  | some m => decide (m.length ≤ 1000)

/-- The handler of `POST /api/messages/conversations` after `auth` (lines 196-270). -/
def startConversation (userExists : String → Bool) (st : Messaging)
    (sender recipientId : String) (initialMessage : Option String) (now : Nat) :
    Messaging × MessageResponse :=
  if recipientId = "" ∨ validInitialMessage initialMessage = false then
    (st, .validationErrors)
  else if !userExists recipientId then (st, .recipientNotFound)
  else
    match (conversationsOf st sender).find? (fun c => c.otherUserId == recipientId) with
    | some existing => (st, .conversationExists existing.id)
    | none =>
      let cid := conversationId sender recipientId
      let first := strOr initialMessage ""
      let conversations1 := mapSet st.conversations sender
        (conversationsOf st sender ++
          [{ id := cid, otherUserId := recipientId,
             lastMessage := strOr initialMessage "Conversation started", timestamp := now,
             unread := false, messageCount := 0 }])
      let conversations2 := mapSet conversations1 recipientId
        ((mapGet conversations1 recipientId).getD [] ++
          [{ id := cid, otherUserId := sender,
             lastMessage := strOr initialMessage "Conversation started", timestamp := now,
             unread := decide (first ≠ ""), messageCount := if first = "" then 0 else 1 }])
      let messages1 :=
        if first = "" then st.messages
        else
          mapSet st.messages cid
            (messagesOf st cid ++
              [{ id := toString now, conversationId := cid, sender := sender,
                 recipient := recipientId, content := first, timestamp := now,
                 read := false }])
      ({ conversations := conversations2, messages := messages1 }, .conversationCreated cid)

/-- The handler of `GET /api/messages/:conversationId` after `auth` (lines 68-80): the
messages of the conversation, the reader's entry of that conversation being marked read. -/
def getMessages (st : Messaging) (reader conversationId : String) :
    Messaging × List ChatMessage :=
  match mapGet st.conversations reader with
  | none => (st, messagesOf st conversationId)
  | some userConversations =>
    ({ conversations := mapSet st.conversations reader (markRead userConversations conversationId)
       messages := st.messages },
      messagesOf st conversationId)

/-- The handler of `GET /api/messages/unread/count` after `auth` (lines 333-336). -/
def unreadCount (st : Messaging) (userId : String) : Nat :=
  (conversationsOf st userId).foldl (fun total conv => total + conv.messageCount) 0

/-- The empty module state. -/
def noMessages : Messaging := { conversations := [], messages := [] }

/-- A user base in which every id is the id of a user. -/
def everyone : String → Bool := fun _ => true

/-! # Properties -/

/-! ## The catalog under `$inc` -/

theorem findById_incInventory (cat : List Product) (id id' : Nat) (d : ℚ) :
    findById (incInventory cat id d) id' =
      (findById cat id').map
        (fun p => if id' = id then { p with inventory := p.inventory + d } else p) := by
  induction cat with
  | nil => simp [findById, incInventory]
  | cons p ps ih =>
    unfold findById at ih ⊢
    by_cases h : p.id = id
    · by_cases h' : p.id = id'
      · have : id' = id := by omega
        simp [incInventory, h, List.find?_cons, h', this]
      · have : ¬ id = id' := by omega
        have h2 : ¬ id' = id := by omega
        simp [incInventory, h, List.find?_cons, h', this]
        cases hf : List.find? (fun p => p.id == id') ps with
        | none => simp
        | some q => simp [h2]
    · by_cases h' : p.id = id'
      · have h2 : ¬ id' = id := by omega
        simp [incInventory, h, List.find?_cons, h', h2]
      · simp [incInventory, h, List.find?_cons, h', ih]

theorem incInventory_comm (cat : List Product) (a b : Nat) (x y : ℚ) :
    incInventory (incInventory cat a x) b y = incInventory (incInventory cat b y) a x := by
  induction cat with
  | nil => simp [incInventory]
  | cons p ps ih =>
    by_cases ha : p.id = a
    · subst ha
      by_cases hb : p.id = b
      · subst hb; simp [incInventory, add_right_comm]
      · simp [incInventory, hb]
    · by_cases hb : p.id = b
      · subst hb; simp [incInventory, ha]
      · simp [incInventory, ha, hb, ih]

theorem incInventory_add (cat : List Product) (a : Nat) (x y : ℚ) :
    incInventory (incInventory cat a x) a y = incInventory cat a (x + y) := by
  induction cat with
  | nil => simp [incInventory]
  | cons p ps ih =>
    by_cases ha : p.id = a
    · subst ha; simp [incInventory, add_assoc]
    · simp [incInventory, ha, ih]

theorem incInventory_zero (cat : List Product) (a : Nat) :
    incInventory cat a 0 = cat := by
  induction cat with
  | nil => simp [incInventory]
  | cons p ps ih =>
    by_cases ha : p.id = a
    · subst ha; cases p; simp [incInventory]
    · simp [incInventory, ha, ih]

theorem requestSubtotal_incInventory (cat : List Product) (id : Nat) (d : ℚ)
    (items : List ItemRequest) :
    requestSubtotal (incInventory cat id d) items = requestSubtotal cat items := by
  unfold requestSubtotal
  congr 1
  apply List.map_congr_left
  intro it _
  rw [findById_incInventory]
  cases findById cat it.productId with
  | none => rfl
  | some p => by_cases h : it.productId = id <;> simp [h]

theorem findById_incInventory_isSome (cat : List Product) (id id' : Nat) (d : ℚ) :
    (findById (incInventory cat id d) id').isSome = (findById cat id').isSome := by
  rw [findById_incInventory]; simp

theorem processItems_subtotal (items : List ItemRequest) :
    ∀ (cat : List Product) (acc : LoopState) (cat' : List Product) (acc' : LoopState),
      processItems items cat acc = (cat', .ok acc') →
      acc'.subtotal = acc.subtotal + requestSubtotal cat items ∧
        ∀ it ∈ items, (findById cat it.productId).isSome = true := by
  induction items with
  | nil =>
    intro cat acc cat' acc' h
    simp [processItems] at h
    simp [requestSubtotal, h.2]
  | cons item rest ih =>
    intro cat acc cat' acc' h
    unfold processItems at h
    cases hf : findById cat item.productId with
    | none => simp [hf] at h
    | some product =>
      simp only [hf] at h
      split at h
      · simp at h
      · obtain ⟨h1, h2⟩ := ih _ _ _ _ h
        rw [requestSubtotal_incInventory] at h1
        refine ⟨?_, ?_⟩
        · rw [h1]; simp [requestSubtotal, hf]; ring
        · intro it hit
          rcases List.mem_cons.1 hit with rfl | hmem
          · simp [hf]
          · have := h2 it hmem
            rwa [findById_incInventory_isSome] at this

theorem processItems_error (items : List ItemRequest) :
    ∀ (cat : List Product) (acc : LoopState) (cat' : List Product) (r : Response),
      processItems items cat acc = (cat', .error r) →
      (∃ id, r = .productNotFound id) ∨ (∃ name available, r = .insufficientInventory name available) := by
  induction items with
  | nil => intro cat acc cat' r h; simp [processItems] at h
  | cons item rest ih =>
    intro cat acc cat' r h
    unfold processItems at h
    cases hf : findById cat item.productId with
    | none =>
      simp only [hf, Prod.mk.injEq, Except.error.injEq] at h
      exact Or.inl ⟨_, h.2.symm⟩
    | some product =>
      simp only [hf] at h
      split at h
      · simp only [Prod.mk.injEq, Except.error.injEq] at h
        exact Or.inr ⟨_, _, h.2.symm⟩
      · exact ih _ _ _ _ h

theorem processItems_strip (items : List ItemRequest) :
    ∀ (cat : List Product) (acc : LoopState),
      processItems (items.map (fun it => { it with price := none, total := none })) cat acc =
        processItems items cat acc := by
  induction items with
  | nil => intro cat acc; rfl
  | cons item rest ih =>
    intro cat acc
    simp only [List.map_cons, processItems]
    cases findById cat item.productId with
    | none => rfl
    | some product =>
      simp only []
      split
      · rfl
      · exact ih _ _

theorem createOrder_stripClientFields (s : Store) (user : User) (req : OrderRequest)
    (orderNumber : String) :
    createOrder s user (stripClientFields req) orderNumber = createOrder s user req orderNumber := by
  have hempty : ∀ (f : ItemRequest → ItemRequest) (l : List ItemRequest),
      (l.map f).isEmpty = l.isEmpty := by
    intro f l; cases l <;> rfl
  simp only [createOrder, stripClientFields, validOrderRequest, processItems_strip, hempty]

theorem tomato_createOrder :
    createOrder tomatoStore buyer tomatoRequest "ORD1" =
      (tomatoStoreAfter, .created tomatoOrder) := by
  simp [createOrder, validOrderRequest, tomatoRequest, tomatoStore, processItems, findById,
    tomatoes, incInventory, setAdd, freshOrderId, buyer, homeAddress, strOr, tomatoOrder,
    deliveryFee, taxRate, tomatoStoreAfter, toLowerCase]
  norm_num

/-- Claim C1. When `POST /api/orders` answers 201 with order `o`: `o` is stored, every requested
product is in the catalog, the stored subtotal is the sum over the requested items of (stored price ×
requested quantity), the stored total is subtotal + 50 + subtotal × 5/100, and every request
that differs only in client-supplied `price`, `subtotal` or `total` fields gives the same
store and the same order. -/
theorem createOrder_total (s : Store) (user : User) (req : OrderRequest) (orderNumber : String)
    (s' : Store) (o : Order) (h : createOrder s user req orderNumber = (s', .created o)) :
    o ∈ s'.orders ∧
    (∀ it ∈ req.items, (findById s.products it.productId).isSome = true) ∧
    o.subtotal = requestSubtotal s.products req.items ∧
    o.total = requestSubtotal s.products req.items + 50 +
      requestSubtotal s.products req.items * 5 / 100 ∧
    ∀ req' : OrderRequest, stripClientFields req' = stripClientFields req →
      createOrder s user req' orderNumber = (s', .created o) := by
  have hstrip : ∀ req' : OrderRequest, stripClientFields req' = stripClientFields req →
      createOrder s user req' orderNumber = (s', .created o) := by
    intro req' hreq
    rw [← createOrder_stripClientFields, hreq, createOrder_stripClientFields, h]
  unfold createOrder at h
  split at h
  · simp at h
  · split at h
    · simp at h
    · split at h
      · next cat r hp =>
        simp only [Prod.mk.injEq] at h
        obtain ⟨-, rfl⟩ := h
        rcases processItems_error _ _ _ _ _ hp with ⟨id, hr⟩ | ⟨nm, av, hr⟩ <;> simp at hr
      · next cat acc hp =>
        obtain ⟨h1, h2⟩ := processItems_subtotal _ _ _ _ _ hp
        simp only [Prod.mk.injEq, Response.created.injEq] at h
        obtain ⟨rfl, rfl⟩ := h
        simp only [zero_add] at h1
        refine ⟨by simp, h2, h1, ?_, hstrip⟩
        simp only [h1, deliveryFee, taxRate]
        ring


/-- Witness of C1 on the specification's scenario: one item, price 40, quantity 3, gives
total 176. -/
theorem createOrder_total_witness :
    createOrder tomatoStore buyer tomatoRequest "ORD1" = (tomatoStoreAfter, .created tomatoOrder) ∧
    tomatoOrder.total = 176 ∧
    tomatoOrder.total = requestSubtotal tomatoStore.products tomatoRequest.items + 50 +
      requestSubtotal tomatoStore.products tomatoRequest.items * 5 / 100 :=
  ⟨tomato_createOrder, rfl,
    (createOrder_total tomatoStore buyer tomatoRequest "ORD1" tomatoStoreAfter tomatoOrder
      tomato_createOrder).2.2.2.1⟩

/-! ## Inventory after successful orders -/

theorem inventoryOf_incInventory (cat : List Product) (id p : Nat) (d : ℚ) :
    inventoryOf (incInventory cat id d) p =
      (inventoryOf cat p).map (fun v => if p = id then v + d else v) := by
  unfold inventoryOf
  rw [findById_incInventory]
  cases findById cat p with
  | none => rfl
  | some q => by_cases h : p = id <;> simp [h]

theorem processItems_inventoryOf (p : Nat) (items : List ItemRequest) :
    ∀ (cat : List Product) (acc : LoopState) (cat' : List Product) (acc' : LoopState),
      processItems items cat acc = (cat', .ok acc') →
      inventoryOf cat' p = (inventoryOf cat p).map (fun v => v - requestedQuantity p items) := by
  induction items with
  | nil =>
    intro cat acc cat' acc' h
    simp [processItems] at h
    simp [requestedQuantity, h.1]
  | cons item rest ih =>
    intro cat acc cat' acc' h
    unfold processItems at h
    cases hf : findById cat item.productId with
    | none => simp [hf] at h
    | some product =>
      simp only [hf] at h
      split at h
      · simp at h
      · rw [ih _ _ _ _ h, inventoryOf_incInventory]
        cases inventoryOf cat p with
        | none => rfl
        | some v =>
          by_cases hp : item.productId = p
          · simp [requestedQuantity, List.filter_cons, hp]; ring
          · have hp' : ¬ p = item.productId := fun e => hp e.symm
            simp [requestedQuantity, List.filter_cons, hp, hp']

theorem createOrder_inventoryOf (s : Store) (user : User) (req : OrderRequest)
    (orderNumber : String) (s' : Store) (o : Order) (p : Nat)
    (h : createOrder s user req orderNumber = (s', .created o)) :
    inventoryOf s'.products p =
      (inventoryOf s.products p).map (fun v => v - requestedQuantity p req.items) := by
  unfold createOrder at h
  split at h
  · simp at h
  · split at h
    · simp at h
    · split at h
      · next cat r hp =>
        simp only [Prod.mk.injEq] at h
        obtain ⟨-, rfl⟩ := h
        rcases processItems_error _ _ _ _ _ hp with ⟨id, hr⟩ | ⟨nm, av, hr⟩ <;> simp at hr
      · next cat acc hp =>
        simp only [Prod.mk.injEq] at h
        obtain ⟨rfl, -⟩ := h
        exact processItems_inventoryOf p _ _ _ _ _ hp

theorem requestedQuantity_of_all (p : Nat) (items : List ItemRequest)
    (h : items.all (fun it => it.productId == p) = true) :
    requestedQuantity p items = (items.map (fun it => it.quantity)).sum := by
  unfold requestedQuantity
  rw [List.filter_eq_self.2]
  intro a ha
  exact List.all_eq_true.1 h a ha

/-- Claim C4. For a product `p` with inventory `I` and a sequence of `createOrder` requests whose
line items are all for `p`, run one after the other and all answered 201, the inventory of `p`
afterwards is `I` minus the sum of the ordered quantities. -/
theorem sequential_orders_inventory (p : Nat) (ops : List Op) :
    ∀ (s : Store) (I : ℚ), inventoryOf s.products p = some I →
      (∀ op ∈ ops, ordersOnly p op = true) →
      (∀ r ∈ runResponses s ops, r.code = 201) →
      inventoryOf (run s ops).products p = some (I - (ops.map orderedQuantity).sum) := by
  induction ops with
  | nil => intro s I hI _ _; simpa [run] using hI
  | cons op ops ih =>
    intro s I hI hops hsucc
    have hop := hops op (List.mem_cons_self _ _)
    cases op with
    | createOrder user req orderNumber =>
      have hcode := hsucc _ (List.mem_cons_self _ _)
      simp only [step] at hcode
      cases hr : createOrder s user req orderNumber with
      | mk s1 r =>
        rw [hr] at hcode
        cases r <;> simp [Response.code] at hcode
        next o =>
        have hinv := createOrder_inventoryOf s user req orderNumber s1 o p hr
        rw [hI, requestedQuantity_of_all p _ hop] at hinv
        have := ih s1 _ hinv (fun op h => hops op (List.mem_cons_of_mem _ h))
          (fun r h => hsucc r (by
            simp only [runResponses, step, hr]
            exact List.mem_cons_of_mem _ h))
        simp only [run, List.foldl_cons, step, hr, List.map_cons, List.sum_cons,
          orderedQuantity] at this ⊢
        rw [this]; congr 1; ring
    | updateStatus _ _ _ _ => simp [ordersOnly] at hop
    | cancelOrder _ _ _ _ => simp [ordersOnly] at hop
    | rateOrder _ _ _ _ => simp [ordersOnly] at hop

/-- Witness of C4: initial inventory 10, one order of 3 leaves 7. -/
theorem sequential_orders_inventory_witness :
    inventoryOf (run tomatoStore [.createOrder buyer tomatoRequest "ORD1"]).products 1 =
      some (10 - ([Op.createOrder buyer tomatoRequest "ORD1"].map orderedQuantity).sum) ∧
    (10 : ℚ) - ([Op.createOrder buyer tomatoRequest "ORD1"].map orderedQuantity).sum = 7 :=
  ⟨sequential_orders_inventory 1 [.createOrder buyer tomatoRequest "ORD1"] tomatoStore 10
      (by simp [inventoryOf, findById, tomatoStore, tomatoes])
      (by simp [ordersOnly, tomatoRequest])
      (by simp [runResponses, step, tomato_createOrder, Response.code]),
    by norm_num [orderedQuantity, tomatoRequest]⟩

/-! ## Non-negative inventory -/

theorem mem_incInventory (cat : List Product) (id : Nat) (d : ℚ) (q : Product)
    (h : q ∈ incInventory cat id d) :
    q ∈ cat ∨ ∃ p0, findById cat id = some p0 ∧ q = { p0 with inventory := p0.inventory + d } := by
  induction cat with
  | nil => simp [incInventory] at h
  | cons p ps ih =>
    by_cases hp : p.id = id
    · subst hp
      simp only [incInventory, if_true, List.mem_cons] at h
      rcases h with h | h
      · exact Or.inr ⟨p, by simp [findById], h⟩
      · exact Or.inl (List.mem_cons_of_mem _ h)
    · simp only [incInventory, hp, if_false, List.mem_cons] at h
      rcases h with h | h
      · exact Or.inl (h ▸ List.mem_cons_self _ _)
      · rcases ih h with h | ⟨p0, h0, h1⟩
        · exact Or.inl (List.mem_cons_of_mem _ h)
        · exact Or.inr ⟨p0, by simpa [findById, hp] using h0, h1⟩

theorem findById_mem (cat : List Product) (id : Nat) (p : Product)
    (h : findById cat id = some p) : p ∈ cat :=
  List.mem_of_find?_eq_some h

theorem findOrder_mem (orders : List Order) (id : Nat) (o : Order)
    (h : findOrder orders id = some o) : o ∈ orders :=
  List.mem_of_find?_eq_some h

theorem findOrder_id (orders : List Order) (id : Nat) (o : Order)
    (h : findOrder orders id = some o) : o.id = id := by
  have := List.find?_some h
  simpa using this

theorem mem_saveOrder (orders : List Order) (o' o : Order) (h : o ∈ saveOrder orders o') :
    o ∈ orders ∨ o = o' := by
  induction orders with
  | nil => simp [saveOrder] at h
  | cons a as ih =>
    by_cases ha : a.id = o'.id
    · simp only [saveOrder, ha, if_true, List.mem_cons] at h
      rcases h with h | h
      · exact Or.inr h
      · exact Or.inl (List.mem_cons_of_mem _ h)
    · simp only [saveOrder, ha, if_false, List.mem_cons] at h
      rcases h with h | h
      · exact Or.inl (h ▸ List.mem_cons_self _ _)
      · rcases ih h with h | h
        · exact Or.inl (List.mem_cons_of_mem _ h)
        · exact Or.inr h

theorem incInventory_nonneg (cat : List Product) (id : Nat) (d : ℚ)
    (hcat : ∀ p ∈ cat, 0 ≤ p.inventory)
    (hd : ∀ p0, findById cat id = some p0 → 0 ≤ p0.inventory + d) :
    ∀ p ∈ incInventory cat id d, 0 ≤ p.inventory := by
  intro p hp
  rcases mem_incInventory cat id d p hp with h | ⟨p0, h0, rfl⟩
  · exact hcat p h
  · exact hd p0 h0

theorem processItems_nonneg (items : List ItemRequest) :
    ∀ (cat : List Product) (acc : LoopState) (cat' : List Product)
      (r : Except Response LoopState),
      (∀ p ∈ cat, 0 ≤ p.inventory) →
      processItems items cat acc = (cat', r) →
      ∀ p ∈ cat', 0 ≤ p.inventory := by
  induction items with
  | nil =>
    intro cat acc cat' r hcat h
    simp only [processItems, Prod.mk.injEq] at h
    exact h.1 ▸ hcat
  | cons item rest ih =>
    intro cat acc cat' r hcat h
    unfold processItems at h
    cases hf : findById cat item.productId with
    | none =>
      simp only [hf, Prod.mk.injEq] at h
      exact h.1 ▸ hcat
    | some product =>
      simp only [hf] at h
      split at h
      · simp only [Prod.mk.injEq] at h
        exact h.1 ▸ hcat
      · next hlt =>
        refine ih _ _ _ _ ?_ h
        apply incInventory_nonneg _ _ _ hcat
        intro p0 hp0
        rw [hf] at hp0
        cases hp0
        linarith [not_lt.1 hlt]

theorem processItems_orderItems (items : List ItemRequest) :
    ∀ (cat : List Product) (acc : LoopState) (cat' : List Product) (acc' : LoopState),
      processItems items cat acc = (cat', .ok acc') →
      ∀ oi ∈ acc'.orderItems, oi ∈ acc.orderItems ∨ ∃ it ∈ items, oi.quantity = it.quantity := by
  induction items with
  | nil =>
    intro cat acc cat' acc' h oi hoi
    simp only [processItems, Prod.mk.injEq, Except.ok.injEq] at h
    exact Or.inl (h.2 ▸ hoi)
  | cons item rest ih =>
    intro cat acc cat' acc' h oi hoi
    unfold processItems at h
    cases hf : findById cat item.productId with
    | none => simp [hf] at h
    | some product =>
      simp only [hf] at h
      split at h
      · simp at h
      · rcases ih _ _ _ _ h oi hoi with h1 | ⟨it, hit, hq⟩
        · simp only [List.mem_append, List.mem_singleton] at h1
          rcases h1 with h1 | rfl
          · exact Or.inl h1
          · exact Or.inr ⟨item, List.mem_cons_self _ _, rfl⟩
        · exact Or.inr ⟨it, List.mem_cons_of_mem _ hit, hq⟩

theorem restoreInventory_nonneg (items : List OrderItem) :
    ∀ (cat : List Product), (∀ p ∈ cat, 0 ≤ p.inventory) →
      (∀ it ∈ items, 0 ≤ it.quantity) →
      ∀ p ∈ restoreInventory cat items, 0 ≤ p.inventory := by
  induction items with
  | nil => intro cat hcat _; simpa [restoreInventory] using hcat
  | cons item rest ih =>
    intro cat hcat hq
    simp only [restoreInventory, List.foldl_cons]
    apply ih
    · apply incInventory_nonneg _ _ _ hcat
      intro p0 hp0
      have h1 := hcat p0 (findById_mem _ _ _ hp0)
      have h2 := hq item (List.mem_cons_self _ _)
      linarith
    · intro it hit
      exact hq it (List.mem_cons_of_mem _ hit)
theorem saveOrder_items_nonneg (orders : List Order) (o' : Order)
    (h : ∀ o ∈ orders, ∀ it ∈ o.items, 0 ≤ it.quantity)
    (h' : ∀ it ∈ o'.items, 0 ≤ it.quantity) :
    ∀ o ∈ saveOrder orders o', ∀ it ∈ o.items, 0 ≤ it.quantity := by
  intro o ho
  rcases mem_saveOrder orders o' o ho with h1 | rfl
  · exact h o h1
  · exact h'

theorem createOrder_inv (s : Store) (user : User) (req : OrderRequest) (orderNumber : String)
    (hs : StoreInv s) (hq : ∀ it ∈ req.items, 0 < it.quantity) :
    StoreInv (createOrder s user req orderNumber).1 := by
  unfold createOrder
  split
  · exact hs
  · split
    · exact hs
    · split
      · next cat r hp =>
        exact ⟨processItems_nonneg _ _ _ _ _ hs.1 hp, hs.2⟩
      · next cat acc hp =>
        refine ⟨processItems_nonneg _ _ _ _ _ hs.1 hp, ?_⟩
        intro o ho it hit
        simp only [List.mem_append, List.mem_singleton] at ho
        rcases ho with ho | rfl
        · exact hs.2 o ho it hit
        · rcases processItems_orderItems _ _ _ _ _ hp it hit with h1 | ⟨ir, hir, e⟩
          · simp at h1
          · rw [e]; exact le_of_lt (hq ir hir)

theorem updateStatus_inv (s : Store) (user : User) (orderId : Nat) (body : StatusBody)
    (now : Nat) (hs : StoreInv s) : StoreInv (updateStatus s user orderId body now).1 := by
  unfold updateStatus
  split
  · exact hs
  · split
    · exact hs
    · next order hfind =>
      split
      · exact hs
      · split
        · exact hs
        · exact ⟨hs.1, saveOrder_items_nonneg _ _ hs.2 (hs.2 order (findOrder_mem _ _ _ hfind))⟩

theorem cancelAuthorized_inv (s : Store) (user : User) (order : Order) (reason : Option String)
    (now : Nat) (hs : StoreInv s) (ho : order ∈ s.orders) :
    StoreInv (cancelAuthorized s user order reason now).1 := by
  unfold cancelAuthorized
  split
  · exact hs
  · refine ⟨?_, saveOrder_items_nonneg _ _ hs.2 (hs.2 order ho)⟩
    simp only
    split
    · exact restoreInventory_nonneg _ _ hs.1 (hs.2 order ho)
    · exact hs.1

theorem cancelOrder_inv (s : Store) (user : User) (orderId : Nat) (reason : Option String)
    (now : Nat) (hs : StoreInv s) : StoreInv (cancelOrder s user orderId reason now).1 := by
  unfold cancelOrder
  split
  · exact hs
  · next order hfind =>
    have ho := findOrder_mem _ _ _ hfind
    split
    · split
      · exact hs
      · split
        · exact hs
        · exact cancelAuthorized_inv s user order reason now hs ho
    · exact cancelAuthorized_inv s user order reason now hs ho

theorem rateOrder_inv (s : Store) (user : User) (orderId : Nat) (body : RateBody)
    (now : Nat) (hs : StoreInv s) : StoreInv (rateOrder s user orderId body now).1 := by
  unfold rateOrder
  split
  · exact hs
  · split
    · exact hs
    · next order hfind =>
      split
      · exact hs
      · split
        · exact hs
        · exact ⟨hs.1, saveOrder_items_nonneg _ _ hs.2 (hs.2 order (findOrder_mem _ _ _ hfind))⟩

theorem step_inv (s : Store) (op : Op) (hs : StoreInv s) (hop : positiveQuantities op) :
    StoreInv (step s op).1 := by
  cases op with
  | createOrder user req orderNumber => exact createOrder_inv s user req orderNumber hs hop
  | updateStatus user orderId body now => exact updateStatus_inv s user orderId body now hs
  | cancelOrder user orderId reason now => exact cancelOrder_inv s user orderId reason now hs
  | rateOrder user orderId body now => exact rateOrder_inv s user orderId body now hs

theorem run_inv (ops : List Op) :
    ∀ s : Store, StoreInv s → (∀ op ∈ ops, positiveQuantities op) → StoreInv (run s ops) := by
  induction ops with
  | nil => intro s hs _; exact hs
  | cons op ops ih =>
    intro s hs hops
    simp only [run, List.foldl_cons]
    exact ih _ (step_inv s op hs (hops op (List.mem_cons_self _ _)))
      (fun o ho => hops o (List.mem_cons_of_mem _ ho))

/-- Claim C5. Starting from a store in which no product has a negative inventory (and no stored
line item has a negative quantity, as is the case of an empty order collection), after every
sequence of `createOrder` requests with positive quantities, `cancelOrder`, `updateStatus`
and `rateOrder` requests, run one after the other, no product has a negative inventory. -/
theorem inventory_nonneg_invariant (s : Store) (ops : List Op)
    (hproducts : ∀ p ∈ s.products, 0 ≤ p.inventory)
    (horders : ∀ o ∈ s.orders, ∀ it ∈ o.items, 0 ≤ it.quantity)
    (hops : ∀ op ∈ ops, positiveQuantities op) :
    ∀ p ∈ (run s ops).products, 0 ≤ p.inventory :=
  (run_inv ops s ⟨hproducts, horders⟩ hops).1

/-- Witness of C5 on the sample session: every inventory of the final catalog is
non-negative. -/
theorem inventory_nonneg_invariant_witness :
    (run tomatoStore sampleSession).products.all (fun p => decide (0 ≤ p.inventory)) = true :=
  List.all_eq_true.2 (fun p hp => decide_eq_true
    (inventory_nonneg_invariant tomatoStore sampleSession
      (by simp [tomatoStore, tomatoes])
      (by simp [tomatoStore])
      (by simp [sampleSession, positiveQuantities, tomatoRequest]) p hp))

/-! ## Failed orders -/

/-- Claim C2, evaluation at the failing input. On a catalog with 10 tomatoes and 1 onion, the request
`[2 tomatoes, 3 onions]` is answered with the insufficient-inventory error for the onions and
creates no order, and the tomatoes are left at 8: the decrement of the line item before the
failing one is kept. -/
theorem createOrder_failure_keeps_decrement :
    createOrder marketStore buyer (orderOf [(1, 2), (2, 3)]) "ORD2" =
      ({ products := [{ tomatoes with inventory := 8 }, onions], orders := [] },
        .insufficientInventory "Onions" 1) ∧
    inventoryOf marketStore.products 1 = some 10 ∧
    inventoryOf (createOrder marketStore buyer (orderOf [(1, 2), (2, 3)]) "ORD2").1.products 1 =
      some 8 := by
  have h : createOrder marketStore buyer (orderOf [(1, 2), (2, 3)]) "ORD2" =
      ({ products := [{ tomatoes with inventory := 8 }, onions], orders := [] },
        .insufficientInventory "Onions" 1) := by
    simp [createOrder, validOrderRequest, orderOf, marketStore, processItems, findById,
      tomatoes, onions, incInventory, homeAddress]
    norm_num
  refine ⟨h, ?_, ?_⟩
  · simp [inventoryOf, findById, marketStore, tomatoes]
  · rw [h]; simp [inventoryOf, findById, tomatoes]

/-- Claim C3, evaluation at the failing input. On a catalog with 10 tomatoes, the request `[6 tomatoes, 6 tomatoes]`
is answered with the insufficient-inventory error naming the tomatoes and the 4 available when
the second line is processed, no order is created, and the tomatoes are left at 4, not at the
10 available before the request. -/
theorem createOrder_insufficient_after_own_decrement :
    createOrder tomatoStore buyer (orderOf [(1, 6), (1, 6)]) "ORD3" =
      ({ products := [{ tomatoes with inventory := 4 }], orders := [] },
        .insufficientInventory "Tomatoes" 4) ∧
    inventoryOf tomatoStore.products 1 = some 10 ∧
    inventoryOf (createOrder tomatoStore buyer (orderOf [(1, 6), (1, 6)]) "ORD3").1.products 1 =
      some 4 := by
  have h : createOrder tomatoStore buyer (orderOf [(1, 6), (1, 6)]) "ORD3" =
      ({ products := [{ tomatoes with inventory := 4 }], orders := [] },
        .insufficientInventory "Tomatoes" 4) := by
    simp [createOrder, validOrderRequest, orderOf, tomatoStore, processItems, findById,
      tomatoes, incInventory, homeAddress]
    norm_num
  refine ⟨h, ?_, ?_⟩
  · simp [inventoryOf, findById, tomatoStore, tomatoes]
  · rw [h]; simp [inventoryOf, findById, tomatoes]

/-! ## Cancellation -/

theorem findOrder_saveOrder (orders : List Order) (o' : Order) (id : Nat) :
    findOrder (saveOrder orders o') id =
      if id = o'.id then (findOrder orders id).map (fun _ => o') else findOrder orders id := by
  induction orders with
  | nil => simp [findOrder, saveOrder]
  | cons a as ih =>
    unfold findOrder at ih ⊢
    by_cases ha : a.id = o'.id
    · by_cases hid : id = o'.id
      · subst hid; simp [saveOrder, ha]
      · have h1 : ¬ o'.id = id := fun e => hid e.symm
        have h2 : ¬ a.id = id := fun e => hid (e.symm.trans ha)
        simp [saveOrder, ha, hid, h1, h2]
    · by_cases hid : id = o'.id
      · subst hid; simp [saveOrder, ha, ih]
      · by_cases h2 : a.id = id
        · simp [saveOrder, ha, hid, h2]
        · simp [saveOrder, ha, hid, h2, ih]

theorem cancelOrder_of_party (s : Store) (user : User) (orderId : Nat) (reason : Option String)
    (now : Nat) (order : Order) (hfind : findOrder s.orders orderId = some order)
    (hparty : order.customer = user.id ∨ order.farmer = some user.id) :
    cancelOrder s user orderId reason now = cancelAuthorized s user order reason now := by
  unfold cancelOrder
  simp only [hfind]
  by_cases hc : order.customer = user.id
  · simp [hc]
  · rcases hparty with h | h
    · exact absurd h hc
    · simp [hc, h]

theorem cancelOrder_of_stranger (s : Store) (user : User) (orderId : Nat)
    (reason : Option String) (now : Nat) (order : Order)
    (hfind : findOrder s.orders orderId = some order)
    (hparty : ¬ (order.customer = user.id ∨ order.farmer = some user.id)) :
    (cancelOrder s user orderId reason now).1 = s ∧
      ((cancelOrder s user orderId reason now).2 =
          .forbidden "Not authorized to cancel this order" ∨
        (cancelOrder s user orderId reason now).2 = .serverError) := by
  unfold cancelOrder
  simp only [hfind]
  have hc : order.customer ≠ user.id := fun e => hparty (Or.inl e)
  simp only [ne_eq, hc, not_false_eq_true, if_true]
  cases hf : order.farmer with
  | none => simp
  | some f =>
    have : f ≠ user.id := fun e => hparty (Or.inr (by rw [hf, e]))
    simp [this]

theorem cancelAuthorized_terminal (s : Store) (user : User) (order : Order)
    (reason : Option String) (now : Nat) (h : order.status ∈ terminalStatuses) :
    cancelAuthorized s user order reason now = (s, .cannotCancel) := by
  simp [cancelAuthorized, h]

theorem cancelOrder_ok (s : Store) (user : User) (orderId : Nat) (reason : Option String)
    (now : Nat) (s' : Store) (o' : Order)
    (h : cancelOrder s user orderId reason now = (s', .ok o')) :
    ∃ order, findOrder s.orders orderId = some order ∧
      order.status ∉ terminalStatuses ∧
      (order.customer = user.id ∨ order.farmer = some user.id) ∧
      o'.id = order.id ∧ o'.status = "cancelled" ∧
      s'.orders = saveOrder s.orders o' := by
  cases hfind : findOrder s.orders orderId with
  | none => simp [cancelOrder, hfind] at h
  | some order =>
    by_cases hparty : order.customer = user.id ∨ order.farmer = some user.id
    · rw [cancelOrder_of_party s user orderId reason now order hfind hparty] at h
      unfold cancelAuthorized at h
      split at h
      · simp at h
      · next hterm =>
        simp only [Prod.mk.injEq, Response.ok.injEq] at h
        obtain ⟨rfl, rfl⟩ := h
        exact ⟨order, rfl, hterm, hparty, rfl, rfl, rfl⟩
    · obtain ⟨-, h2⟩ := cancelOrder_of_stranger s user orderId reason now order hfind hparty
      rw [h] at h2
      simp at h2

/-- Claim C6, counterexample. An account that is neither buyer nor seller of the delivered
order is answered 403, not 400: the authorization is checked before the status. And when the
seller sets the cancelled order back to `pending` (any status is accepted by `updateStatus`),
the second cancellation of the same order is accepted and restores the inventory a second
time: 13 tomatoes where there were 10 before the order. -/
theorem cancelOrder_forbidden_or_reopened :
    (findOrder deliveredStore.orders 0 = some tomatoDelivered ∧
      tomatoDelivered.status = "delivered" ∧
      cancelOrder deliveredStore stranger 0 none 5 =
        (deliveredStore, .forbidden "Not authorized to cancel this order") ∧
      (cancelOrder deliveredStore stranger 0 none 5).2.code = 403) ∧
    ((runResponses tomatoStore reopenSession).map Response.code = [201, 200, 200, 200] ∧
      inventoryOf tomatoStore.products 1 = some 10 ∧
      inventoryOf (run tomatoStore reopenSession).products 1 = some 13) := by
  refine ⟨⟨?_, rfl, ?_, ?_⟩, ?_, ?_, ?_⟩
  · simp [findOrder, deliveredStore, tomatoDelivered, tomatoOrder]
  · simp [cancelOrder, findOrder, deliveredStore, tomatoDelivered, tomatoOrder, stranger]
  · simp [cancelOrder, findOrder, deliveredStore, tomatoDelivered, tomatoOrder, stranger,
      Response.code]
  · simp +decide [runResponses, reopenSession, step, createOrder, validOrderRequest,
      tomatoRequest, tomatoStore, processItems, findById, tomatoes, incInventory, setAdd, freshOrderId, buyer,
      seller, homeAddress, strOr, deliveryFee, taxRate, toLowerCase, cancelOrder,
      cancelAuthorized, findOrder, terminalStatuses, restoreInventory, saveOrder, updateStatus,
      validStatuses, Response.code]
  · simp [inventoryOf, findById, tomatoStore, tomatoes]
  · simp +decide [run, reopenSession, step, createOrder, validOrderRequest,
      tomatoRequest, tomatoStore, processItems, findById, tomatoes, incInventory, setAdd, freshOrderId, buyer,
      seller, homeAddress, strOr, deliveryFee, taxRate, toLowerCase, cancelOrder,
      cancelAuthorized, findOrder, terminalStatuses, restoreInventory, saveOrder, updateStatus,
      validStatuses, inventoryOf]
    norm_num

/-- Claim C6, amended. `cancelOrder` is accepted only for an order whose status is neither
`delivered` nor `cancelled`. For an order whose status is `delivered` or `cancelled` the request
is never accepted and leaves the whole store (status, timeline, inventories) unchanged; the
reply to the order's buyer or seller is the 400 `Order cannot be cancelled`, and the reply to
an account that is neither is the 403 of the authorization check. After an accepted
cancellation, a further `cancelOrder` of the same order on the store the first one returned
leaves the store unchanged, is not accepted, and is answered to the buyer or seller with that
same 400. -/
theorem cancelOrder_terminal (s : Store) (user : User) (orderId : Nat) (reason : Option String)
    (now : Nat) :
    (∀ s' o', cancelOrder s user orderId reason now = (s', .ok o') →
      ∃ order, findOrder s.orders orderId = some order ∧
        order.status ≠ "delivered" ∧ order.status ≠ "cancelled") ∧
    (∀ order, findOrder s.orders orderId = some order →
      (order.status = "delivered" ∨ order.status = "cancelled") →
      (cancelOrder s user orderId reason now).1 = s ∧
      (cancelOrder s user orderId reason now).2.code ≠ 200 ∧
      ((order.customer = user.id ∨ order.farmer = some user.id) →
        (cancelOrder s user orderId reason now).2 = .cannotCancel ∧
        (cancelOrder s user orderId reason now).2.code = 400) ∧
      (∀ farmer, order.farmer = some farmer → order.customer ≠ user.id → farmer ≠ user.id →
        (cancelOrder s user orderId reason now).2 =
          .forbidden "Not authorized to cancel this order" ∧
        (cancelOrder s user orderId reason now).2.code = 403)) ∧
    (∀ s' o', cancelOrder s user orderId reason now = (s', .ok o') →
      ∀ (user2 : User) (reason2 : Option String) (now2 : Nat),
        (cancelOrder s' user2 orderId reason2 now2).1 = s' ∧
        (cancelOrder s' user2 orderId reason2 now2).2.code ≠ 200 ∧
        ((o'.customer = user2.id ∨ o'.farmer = some user2.id) →
          (cancelOrder s' user2 orderId reason2 now2).2 = .cannotCancel) ∧
        (∀ farmer, o'.farmer = some farmer → o'.customer ≠ user2.id → farmer ≠ user2.id →
          (cancelOrder s' user2 orderId reason2 now2).2.code = 403)) := by
  have hterm : ∀ (s : Store) (user : User) (reason : Option String) (now : Nat) (order : Order),
      findOrder s.orders orderId = some order →
      (order.status = "delivered" ∨ order.status = "cancelled") →
      (cancelOrder s user orderId reason now).1 = s ∧
      (cancelOrder s user orderId reason now).2.code ≠ 200 ∧
      ((order.customer = user.id ∨ order.farmer = some user.id) →
        (cancelOrder s user orderId reason now).2 = .cannotCancel ∧
        (cancelOrder s user orderId reason now).2.code = 400) ∧
      (∀ farmer, order.farmer = some farmer → order.customer ≠ user.id → farmer ≠ user.id →
        (cancelOrder s user orderId reason now).2 =
          .forbidden "Not authorized to cancel this order" ∧
        (cancelOrder s user orderId reason now).2.code = 403) := by
    intro s user reason now order hfind hst
    have hmem : order.status ∈ terminalStatuses := by
      rcases hst with h | h <;> simp [terminalStatuses, h]
    have hforbidden : ∀ farmer, order.farmer = some farmer → order.customer ≠ user.id →
        farmer ≠ user.id →
        (cancelOrder s user orderId reason now).2 =
          .forbidden "Not authorized to cancel this order" ∧
        (cancelOrder s user orderId reason now).2.code = 403 := by
      intro farmer hfarmer hc hf
      have : cancelOrder s user orderId reason now =
          (s, .forbidden "Not authorized to cancel this order") := by
        simp [cancelOrder, hfind, hc, hfarmer, hf]
      exact ⟨by rw [this], by rw [this]; rfl⟩
    by_cases hparty : order.customer = user.id ∨ order.farmer = some user.id
    · rw [cancelOrder_of_party s user orderId reason now order hfind hparty,
        cancelAuthorized_terminal s user order reason now hmem] at hforbidden ⊢
      exact ⟨rfl, by simp [Response.code], fun _ => ⟨rfl, rfl⟩, hforbidden⟩
    · obtain ⟨h1, h2⟩ := cancelOrder_of_stranger s user orderId reason now order hfind hparty
      refine ⟨h1, ?_, fun h => absurd h hparty, hforbidden⟩
      rcases h2 with h2 | h2 <;> simp [h2, Response.code]
  refine ⟨?_, hterm s user reason now, ?_⟩
  · intro s' o' h
    obtain ⟨order, hfind, hnt, -⟩ := cancelOrder_ok s user orderId reason now s' o' h
    refine ⟨order, hfind, ?_, ?_⟩ <;> intro e <;> simp [terminalStatuses, e] at hnt
  · intro s' o' h user2 reason2 now2
    obtain ⟨order, hfind, -, -, hid, hst, hsave⟩ := cancelOrder_ok s user orderId reason now s' o' h
    have hoid : o'.id = orderId := hid.trans (findOrder_id _ _ _ hfind)
    have hfind' : findOrder s'.orders orderId = some o' := by
      rw [hsave, findOrder_saveOrder, if_pos hoid.symm, hfind]; rfl
    obtain ⟨h1, h2, h3, h4⟩ := hterm s' user2 reason2 now2 o' hfind' (Or.inr hst)
    exact ⟨h1, h2, fun hp => (h3 hp).1, fun farmer hf hc hn => (h4 farmer hf hc hn).2⟩

theorem tomato_cancel_by_buyer :
    cancelOrder tomatoStoreAfter buyer 0 none 2 =
      ({ products := [tomatoes], orders := [tomatoCancelled] }, .ok tomatoCancelled) := by
  simp [cancelOrder, cancelAuthorized, findOrder, tomatoStoreAfter, tomatoOrder, buyer,
    terminalStatuses, restoreInventory, incInventory, tomatoes, saveOrder, tomatoCancelled,
    strOr]
  norm_num

/-- Witness of the amended C6: the accepted cancellation of the scenario's order found it pending; the
buyer cannot cancel the delivered order; and after cancelling the pending order once, the second
cancellation is refused and the store stays as it was. -/
theorem cancelOrder_terminal_witness :
    (∃ order, findOrder tomatoStoreAfter.orders 0 = some order ∧
      order.status ≠ "delivered" ∧ order.status ≠ "cancelled") ∧
    ((cancelOrder deliveredStore buyer 0 none 5).1 = deliveredStore ∧
      (cancelOrder deliveredStore buyer 0 none 5).2 = .cannotCancel) ∧
    ((cancelOrder { products := [tomatoes], orders := [tomatoCancelled] } buyer 0 none 3).1 =
        { products := [tomatoes], orders := [tomatoCancelled] } ∧
      (cancelOrder { products := [tomatoes], orders := [tomatoCancelled] } buyer 0 none 3).2 =
        .cannotCancel) :=
  have h1 := (cancelOrder_terminal deliveredStore buyer 0 none 5).2.1 tomatoDelivered
    (by simp [findOrder, deliveredStore, tomatoDelivered, tomatoOrder]) (Or.inl rfl)
  have h2 := (cancelOrder_terminal tomatoStoreAfter buyer 0 none 2).2.2 _ _
    tomato_cancel_by_buyer buyer none 3
  ⟨(cancelOrder_terminal tomatoStoreAfter buyer 0 none 2).1 _ _ tomato_cancel_by_buyer,
    ⟨h1.1, (h1.2.2.1 (Or.inl rfl)).1⟩, ⟨h2.1, h2.2.2.1 (Or.inl rfl)⟩⟩

theorem freshOrderId_gt (orders : List Order) : ∀ o ∈ orders, o.id < freshOrderId orders := by
  induction orders with
  | nil => simp
  | cons a as ih =>
    intro o ho
    simp only [freshOrderId, List.map_cons, List.foldr_cons] at ih ⊢
    rcases List.mem_cons.1 ho with rfl | h
    · exact lt_of_lt_of_le (Nat.lt_succ_self _) (le_max_left _ _)
    · exact lt_of_lt_of_le (ih o h) (le_max_right _ _)

theorem findOrder_append_fresh (orders : List Order) (o : Order)
    (h : o.id = freshOrderId orders) : findOrder (orders ++ [o]) o.id = some o := by
  unfold findOrder
  rw [List.find?_append]
  have : List.find? (fun x => x.id == o.id) orders = none := by
    rw [List.find?_eq_none]
    intro x hx
    have := freshOrderId_gt orders x hx
    simp only [beq_iff_eq]
    omega
  simp [this]

theorem restoreInventory_incInventory (items : List OrderItem) :
    ∀ (cat : List Product) (id : Nat) (d : ℚ),
      restoreInventory (incInventory cat id d) items =
        incInventory (restoreInventory cat items) id d := by
  induction items with
  | nil => intro cat id d; rfl
  | cons item rest ih =>
    intro cat id d
    simp only [restoreInventory, List.foldl_cons] at ih ⊢
    rw [incInventory_comm, ih]

theorem processItems_restore (items : List ItemRequest) :
    ∀ (cat : List Product) (acc : LoopState) (cat' : List Product) (acc' : LoopState),
      processItems items cat acc = (cat', .ok acc') →
      ∃ added, acc'.orderItems = acc.orderItems ++ added ∧ restoreInventory cat' added = cat := by
  induction items with
  | nil =>
    intro cat acc cat' acc' h
    simp only [processItems, Prod.mk.injEq, Except.ok.injEq] at h
    exact ⟨[], by simp [h.2], by simp [restoreInventory, h.1]⟩
  | cons item rest ih =>
    intro cat acc cat' acc' h
    unfold processItems at h
    cases hf : findById cat item.productId with
    | none => simp [hf] at h
    | some product =>
      simp only [hf] at h
      split at h
      · simp at h
      · obtain ⟨added, h1, h2⟩ := ih _ _ _ _ h
        refine ⟨_ :: added, by simpa using h1, ?_⟩
        simp only [restoreInventory, List.foldl_cons] at h2 ⊢
        have := restoreInventory_incInventory added cat' item.productId item.quantity
        simp only [restoreInventory] at this
        rw [this, h2, incInventory_add]
        simp [incInventory_zero]

theorem createOrder_created (s : Store) (user : User) (req : OrderRequest)
    (orderNumber : String) (s' : Store) (o : Order)
    (h : createOrder s user req orderNumber = (s', .created o)) :
    s'.orders = s.orders ++ [o] ∧ o.id = freshOrderId s.orders ∧ o.customer = user.id ∧
      o.status = "pending" ∧ restoreInventory s'.products o.items = s.products := by
  unfold createOrder at h
  split at h
  · simp at h
  · split at h
    · simp at h
    · split at h
      · next cat r hp =>
        simp only [Prod.mk.injEq] at h
        obtain ⟨-, rfl⟩ := h
        rcases processItems_error _ _ _ _ _ hp with ⟨id, hr⟩ | ⟨nm, av, hr⟩ <;> simp at hr
      · next cat acc hp =>
        simp only [Prod.mk.injEq, Response.created.injEq] at h
        obtain ⟨rfl, rfl⟩ := h
        obtain ⟨added, h1, h2⟩ := processItems_restore _ _ _ _ _ hp
        simp only [List.nil_append] at h1
        exact ⟨rfl, rfl, rfl, rfl, by simpa [h1] using h2⟩

/-- Claim C7. Round trip: when `createOrder` by buyer `B` is answered 201 with order `o`, the
`cancelOrder` of `o` by `B` run next is accepted, marks the order cancelled, and leaves the
catalog exactly as it was before the order was placed (every product, every inventory), however
many line items name the same product. -/
theorem createOrder_cancelOrder_roundtrip (s : Store) (B : User) (req : OrderRequest)
    (orderNumber : String) (s1 : Store) (o : Order) (reason : Option String) (now : Nat)
    (h : createOrder s B req orderNumber = (s1, .created o)) :
    (cancelOrder s1 B o.id reason now).1.products = s.products ∧
    (∀ p, inventoryOf (cancelOrder s1 B o.id reason now).1.products p =
      inventoryOf s.products p) ∧
    ∃ o', (cancelOrder s1 B o.id reason now).2 = .ok o' ∧ o'.status = "cancelled" := by
  obtain ⟨hord, hid, hcust, hst, hrest⟩ := createOrder_created s B req orderNumber s1 o h
  have hfind : findOrder s1.orders o.id = some o := by
    rw [hord]; exact findOrder_append_fresh _ _ hid
  have hprod : (cancelOrder s1 B o.id reason now).1.products = s.products := by
    rw [cancelOrder_of_party s1 B o.id reason now o hfind (Or.inl hcust)]
    simp [cancelAuthorized, terminalStatuses, hst, hcust, hrest]
  refine ⟨hprod, fun p => by rw [hprod], ?_⟩
  rw [cancelOrder_of_party s1 B o.id reason now o hfind (Or.inl hcust)]
  simp [cancelAuthorized, terminalStatuses, hst]

/-- Claim C8. When the order's seller, who is not its customer, cancels an order whose status
is neither `delivered` nor `cancelled`, the request is accepted, the returned and the stored
order have status `cancelled`, and the catalog is unchanged. -/
theorem cancelOrder_by_seller (s : Store) (user : User) (orderId : Nat)
    (reason : Option String) (now : Nat) (order : Order)
    (hfind : findOrder s.orders orderId = some order)
    (hseller : order.farmer = some user.id) (hnotbuyer : order.customer ≠ user.id)
    (hstatus : order.status ≠ "delivered" ∧ order.status ≠ "cancelled") :
    (cancelOrder s user orderId reason now).1.products = s.products ∧
    (∃ o', (cancelOrder s user orderId reason now).2 = .ok o' ∧ o'.status = "cancelled") ∧
    (∃ o', findOrder (cancelOrder s user orderId reason now).1.orders orderId = some o' ∧
      o'.status = "cancelled") := by
  have hnt : order.status ∉ terminalStatuses := by
    simp [terminalStatuses, hstatus.1, hstatus.2]
  rw [cancelOrder_of_party s user orderId reason now order hfind (Or.inr hseller)]
  have hid := findOrder_id _ _ _ hfind
  simp only [cancelAuthorized, hnt, if_false, hnotbuyer]
  refine ⟨?_, ?_, ?_⟩
  · trivial
  · exact ⟨_, rfl, rfl⟩
  · rw [findOrder_saveOrder]
    simp [hid, hfind]

/-- Witness of C7 on the scenario's order: after order and cancellation the tomatoes are
back at 10. -/
theorem createOrder_cancelOrder_roundtrip_witness :
    (cancelOrder tomatoStoreAfter buyer tomatoOrder.id none 2).1.products =
      tomatoStore.products ∧
    inventoryOf (cancelOrder tomatoStoreAfter buyer tomatoOrder.id none 2).1.products 1 =
      inventoryOf tomatoStore.products 1 ∧
    ∃ o', (cancelOrder tomatoStoreAfter buyer tomatoOrder.id none 2).2 = .ok o' ∧
      o'.status = "cancelled" :=
  have h := createOrder_cancelOrder_roundtrip tomatoStore buyer tomatoRequest "ORD1"
    tomatoStoreAfter tomatoOrder none 2 tomato_createOrder
  ⟨h.1, h.2.1 1, h.2.2⟩

/-- Witness of C8: the seller cancels the scenario's pending order; the tomatoes stay at 7. -/
theorem cancelOrder_by_seller_witness :
    (cancelOrder tomatoStoreAfter seller 0 none 2).1.products = tomatoStoreAfter.products ∧
    (∃ o', (cancelOrder tomatoStoreAfter seller 0 none 2).2 = .ok o' ∧
      o'.status = "cancelled") ∧
    (∃ o', findOrder (cancelOrder tomatoStoreAfter seller 0 none 2).1.orders 0 = some o' ∧
      o'.status = "cancelled") :=
  cancelOrder_by_seller tomatoStoreAfter seller 0 none 2 tomatoOrder
    (by simp [findOrder, tomatoStoreAfter, tomatoOrder])
    (by simp [tomatoOrder, seller])
    (by simp [tomatoOrder, seller])
    (by simp [tomatoOrder])

/-! ## Status updates -/

theorem updateStatus_of_seller (s : Store) (user : User) (orderId : Nat) (body : StatusBody)
    (now : Nat) (order : Order) (hfind : findOrder s.orders orderId = some order)
    (hseller : order.farmer = some user.id) (hvalid : body.status ∈ validStatuses) :
    ∃ o', o'.id = order.id ∧ o'.status = body.status ∧
      updateStatus s user orderId body now =
        ({ products := s.products, orders := saveOrder s.orders o' }, .ok o') := by
  simp only [updateStatus, hvalid, hfind, hseller, not_true_eq_false, if_false, ne_eq]
  refine ⟨_, ?_, ?_, rfl⟩ <;> rfl

theorem updateStatus_ok (s : Store) (user : User) (orderId : Nat) (body : StatusBody)
    (now : Nat) (s' : Store) (o' : Order)
    (h : updateStatus s user orderId body now = (s', .ok o')) :
    body.status ∈ validStatuses ∧
      ∃ order, findOrder s.orders orderId = some order ∧ order.farmer = some user.id := by
  unfold updateStatus at h
  split at h
  · simp at h
  · next hv =>
    split at h
    · simp at h
    · next order hfind =>
      split at h
      · simp at h
      · next f hf =>
        split at h
        · simp at h
        · next hne =>
          refine ⟨not_not.1 hv, order, hfind, ?_⟩
          rw [hf, not_not.1 hne]

/-- Claim C9, counterexample. The transition pending → delivered is not in the transition
table, and the seller's `updateStatus` of the pending scenario order to `delivered` is accepted:
the stored order becomes `delivered`. -/
theorem updateStatus_accepts_jump :
    tableAllows "pending" "delivered" = false ∧
    tomatoOrder.status = "pending" ∧
    updateStatus tomatoStoreAfter seller 0 { status := "delivered", notes := none } 1 =
      (deliveredStore, .ok tomatoDelivered) := by
  refine ⟨by decide, rfl, ?_⟩
  simp [updateStatus, validStatuses, findOrder, tomatoStoreAfter, tomatoOrder, seller,
    saveOrder, deliveredStore, tomatoDelivered, strOr]

/-- Claim C9, amended. `updateStatus` enforces no transition table. A request whose new status
is not one of the six enumerated values is answered 400 and leaves the store unchanged; a request
is accepted only with one of the six values; and for an order whose status is neither
`delivered` nor `cancelled`, the seller's request with any of the six values is accepted, in or
out of sequence, and the stored order takes that status. -/
theorem updateStatus_no_table (s : Store) (user : User) (orderId : Nat) (body : StatusBody)
    (now : Nat) :
    (body.status ∉ validStatuses →
      updateStatus s user orderId body now = (s, .validationErrors)) ∧
    (∀ s' o', updateStatus s user orderId body now = (s', .ok o') →
      body.status ∈ validStatuses) ∧
    (∀ order, findOrder s.orders orderId = some order → order.farmer = some user.id →
      order.status ∉ terminalStatuses → body.status ∈ validStatuses →
      ∃ o', (updateStatus s user orderId body now).2 = .ok o' ∧ o'.status = body.status ∧
        findOrder (updateStatus s user orderId body now).1.orders orderId = some o') := by
  refine ⟨?_, ?_, ?_⟩
  · intro h; simp [updateStatus, h]
  · intro s' o' h; exact (updateStatus_ok s user orderId body now s' o' h).1
  · intro order hfind hseller _ hvalid
    obtain ⟨o', hid, hst, h⟩ :=
      updateStatus_of_seller s user orderId body now order hfind hseller hvalid
    rw [h]
    refine ⟨o', rfl, hst, ?_⟩
    simp only [findOrder_saveOrder]
    simp [hid, findOrder_id _ _ _ hfind, hfind]

/-- Witness of the amended C9 on the scenario's pending order. -/
theorem updateStatus_no_table_witness :
    updateStatus tomatoStoreAfter seller 0 { status := "returned", notes := none } 1 =
      (tomatoStoreAfter, .validationErrors) ∧
    ∃ o', (updateStatus tomatoStoreAfter seller 0 { status := "shipped", notes := none } 1).2 =
        .ok o' ∧ o'.status = "shipped" ∧
      findOrder (updateStatus tomatoStoreAfter seller 0
        { status := "shipped", notes := none } 1).1.orders 0 = some o' :=
  ⟨(updateStatus_no_table tomatoStoreAfter seller 0 { status := "returned", notes := none } 1).1
      (by simp [validStatuses]),
    (updateStatus_no_table tomatoStoreAfter seller 0 { status := "shipped", notes := none } 1).2.2
      tomatoOrder
      (by simp [findOrder, tomatoStoreAfter, tomatoOrder])
      (by simp [tomatoOrder, seller])
      (by simp [tomatoOrder, terminalStatuses])
      (by simp [validStatuses])⟩

/-! ## Authorization of status changes -/

/-- Claim C10, counterexample. An account that is not the seller of the scenario's order asks
for the status `processing`, which is not one of the six values: the validator answers 400
before the order is looked up, not 403. The store is unchanged. -/
theorem updateStatus_stranger_invalid :
    findOrder tomatoStoreAfter.orders 0 = some tomatoOrder ∧
    tomatoOrder.farmer ≠ some stranger.id ∧
    updateStatus tomatoStoreAfter stranger 0 { status := "processing", notes := none } 1 =
      (tomatoStoreAfter, .validationErrors) ∧
    (updateStatus tomatoStoreAfter stranger 0
      { status := "processing", notes := none } 1).2.code = 400 ∧
    (updateStatus tomatoStoreAfter stranger 0
      { status := "processing", notes := none } 1).2.code ≠ 403 := by
  have h : updateStatus tomatoStoreAfter stranger 0
      { status := "processing", notes := none } 1 = (tomatoStoreAfter, .validationErrors) := by
    simp +decide [updateStatus, validStatuses]
  refine ⟨by simp [findOrder, tomatoStoreAfter, tomatoOrder],
    by simp [tomatoOrder, stranger], h, ?_, ?_⟩ <;> rw [h] <;> decide

/-- Claim C10, amended. For an existing order with a seller: `updateStatus` is accepted only
from the seller; whatever the request, an account that is not the seller leaves the store
unchanged, and its request is answered 403 when the new status is among the six values; a
request with another status is answered 400, whatever the account. `cancelOrder` of an order
that is neither `delivered` nor `cancelled` is accepted from the buyer and from the seller;
from every other account it is answered 403 and leaves the store (order and inventories)
unchanged. -/
theorem status_change_authorization (s : Store) (user : User) (orderId : Nat) (order : Order)
    (farmer : Nat) (hfind : findOrder s.orders orderId = some order)
    (hseller : order.farmer = some farmer) :
    (∀ body now s' o', updateStatus s user orderId body now = (s', .ok o') →
      user.id = farmer) ∧
    (user.id ≠ farmer → ∀ body now,
      (updateStatus s user orderId body now).1 = s ∧
      (body.status ∈ validStatuses →
        updateStatus s user orderId body now =
          (s, .forbidden "Not authorized to update this order") ∧
        (updateStatus s user orderId body now).2.code = 403)) ∧
    (∀ body now, body.status ∉ validStatuses →
      updateStatus s user orderId body now = (s, .validationErrors) ∧
      (updateStatus s user orderId body now).2.code = 400) ∧
    ((user.id = order.customer ∨ user.id = farmer) → order.status ∉ terminalStatuses →
      ∀ reason now, ∃ o', (cancelOrder s user orderId reason now).2 = .ok o') ∧
    (user.id ≠ order.customer → user.id ≠ farmer → ∀ reason now,
      cancelOrder s user orderId reason now =
        (s, .forbidden "Not authorized to cancel this order") ∧
      (cancelOrder s user orderId reason now).2.code = 403) := by
  refine ⟨?_, ?_, ?_, ?_, ?_⟩
  · intro body now s' o' h
    obtain ⟨-, order', hfind', hs'⟩ := updateStatus_ok s user orderId body now s' o' h
    rw [hfind] at hfind'
    cases hfind'
    rw [hseller] at hs'
    exact (Option.some.inj hs').symm
  · intro hne body now
    have hne' : ¬ farmer = user.id := fun e => hne e.symm
    by_cases hv : body.status ∈ validStatuses
    · have : updateStatus s user orderId body now =
          (s, .forbidden "Not authorized to update this order") := by
        simp [updateStatus, hv, hfind, hseller, hne']
      exact ⟨by rw [this], fun _ => ⟨this, by rw [this]; rfl⟩⟩
    · exact ⟨by simp [updateStatus, hv], fun h => absurd h hv⟩
  · intro body now hv
    have : updateStatus s user orderId body now = (s, .validationErrors) := by
      simp [updateStatus, hv]
    exact ⟨this, by rw [this]; rfl⟩
  · intro hparty hnt reason now
    have hparty' : order.customer = user.id ∨ order.farmer = some user.id := by
      rcases hparty with h | h
      · exact Or.inl h.symm
      · exact Or.inr (by rw [hseller, h])
    rw [cancelOrder_of_party s user orderId reason now order hfind hparty']
    simp [cancelAuthorized, hnt]
  · intro hc hf reason now
    have hc' : ¬ order.customer = user.id := fun e => hc e.symm
    have hf' : ¬ farmer = user.id := fun e => hf e.symm
    have : cancelOrder s user orderId reason now =
        (s, .forbidden "Not authorized to cancel this order") := by
      simp [cancelOrder, hfind, hc', hseller, hf']
    exact ⟨this, by rw [this]; rfl⟩

/-- Witness of the amended C10 on the scenario's pending order and an account that is neither its buyer
nor its seller. -/
theorem status_change_authorization_witness :
    (updateStatus tomatoStoreAfter stranger 0 { status := "confirmed", notes := none } 1 =
        (tomatoStoreAfter, .forbidden "Not authorized to update this order")) ∧
    (cancelOrder tomatoStoreAfter stranger 0 none 1 =
        (tomatoStoreAfter, .forbidden "Not authorized to cancel this order")) ∧
    (∃ o', (cancelOrder tomatoStoreAfter buyer 0 none 1).2 = .ok o') ∧
    (∃ o', (cancelOrder tomatoStoreAfter seller 0 none 1).2 = .ok o') :=
  ⟨(((status_change_authorization tomatoStoreAfter stranger 0 tomatoOrder 7
        (by simp [findOrder, tomatoStoreAfter, tomatoOrder]) rfl).2.1
        (by simp [stranger])
        { status := "confirmed", notes := none } 1).2 (by simp [validStatuses])).1,
    ((status_change_authorization tomatoStoreAfter stranger 0 tomatoOrder 7
        (by simp [findOrder, tomatoStoreAfter, tomatoOrder]) rfl).2.2.2.2
        (by simp [stranger, tomatoOrder]) (by simp [stranger]) none 1).1,
    (status_change_authorization tomatoStoreAfter buyer 0 tomatoOrder 7
        (by simp [findOrder, tomatoStoreAfter, tomatoOrder]) rfl).2.2.2.1
        (Or.inl rfl) (by simp [terminalStatuses, tomatoOrder]) none 1,
    (status_change_authorization tomatoStoreAfter seller 0 tomatoOrder 7
        (by simp [findOrder, tomatoStoreAfter, tomatoOrder]) rfl).2.2.2.1
        (Or.inr rfl) (by simp [terminalStatuses, tomatoOrder]) none 1⟩

/-! ## Rating -/

theorem validRateBody_rating (body : RateBody) (h : validRateBody body = true) :
    ratingInRange body.rating := by
  simp only [validRateBody, Bool.and_eq_true, decide_eq_true_eq] at h
  exact ⟨h.1.1.1, h.1.1.2, h.1.2⟩

theorem rateOrder_invalid (s : Store) (user : User) (orderId : Nat) (body : RateBody)
    (now : Nat) (h : validRateBody body = false) :
    rateOrder s user orderId body now = (s, .validationErrors) := by
  simp [rateOrder, h]

theorem rateOrder_of_buyer (s : Store) (user : User) (orderId : Nat) (body : RateBody)
    (now : Nat) (order : Order) (hfind : findOrder s.orders orderId = some order)
    (hvalid : validRateBody body = true) (hbuyer : order.customer = user.id)
    (hstatus : order.status = "delivered") :
    ∃ o', o'.id = order.id ∧ o'.customer = order.customer ∧ o'.status = order.status ∧
      o'.timeline = order.timeline ∧ o'.items = order.items ∧
      o'.rating = some body.rating ∧ o'.review = body.review ∧ o'.ratedAt = some now ∧
      rateOrder s user orderId body now =
        ({ products := s.products, orders := saveOrder s.orders o' }, .ok o') := by
  simp only [rateOrder, hvalid, hfind, hbuyer, hstatus, ne_eq, not_true_eq_false, if_false,
    Bool.not_true, Bool.false_eq_true]
  refine ⟨_, ?_, ?_, ?_, ?_, ?_, ?_, ?_, ?_, rfl⟩ <;> rfl

theorem rateOrder_ok (s : Store) (user : User) (orderId : Nat) (body : RateBody)
    (now : Nat) (s' : Store) (o' : Order)
    (h : rateOrder s user orderId body now = (s', .ok o')) :
    validRateBody body = true ∧
      ∃ order, findOrder s.orders orderId = some order ∧ order.customer = user.id ∧
        order.status = "delivered" := by
  unfold rateOrder at h
  split at h
  · simp at h
  · next hv =>
    split at h
    · simp at h
    · next order hfind =>
      split at h
      · simp at h
      · next hc =>
        split at h
        · simp at h
        · next hst =>
          exact ⟨by simpa using hv, order, hfind, not_not.1 hc, not_not.1 hst⟩

/-- Claim C11. `rateOrder` is accepted only when the acting account is the order's buyer, the
order is `delivered` and the rating is an integer between 1 and 5. For an existing order, in
every other case the request is not accepted and the store (so the order's rating, review and
ratedAt) is unchanged. A rating that is not an integer between 1 and 5 is answered 400; a
request that passes the validators is answered 403 to an account that is not the buyer, and
400 to the buyer of an order that is not delivered. -/
theorem rateOrder_acceptance (s : Store) (user : User) (orderId : Nat) (body : RateBody)
    (now : Nat) :
    (∀ s' o', rateOrder s user orderId body now = (s', .ok o') →
      ∃ order, findOrder s.orders orderId = some order ∧ order.customer = user.id ∧
        order.status = "delivered" ∧ ratingInRange body.rating) ∧
    (∀ order, findOrder s.orders orderId = some order →
      ¬ (order.customer = user.id ∧ order.status = "delivered" ∧ ratingInRange body.rating) →
      (rateOrder s user orderId body now).1 = s ∧
      (rateOrder s user orderId body now).2.code ≠ 200) ∧
    (¬ ratingInRange body.rating →
      rateOrder s user orderId body now = (s, .validationErrors) ∧
      (rateOrder s user orderId body now).2.code = 400) ∧
    (∀ order, findOrder s.orders orderId = some order → validRateBody body = true →
      order.customer ≠ user.id →
      rateOrder s user orderId body now = (s, .forbidden "Not authorized to rate this order") ∧
      (rateOrder s user orderId body now).2.code = 403) ∧
    (∀ order, findOrder s.orders orderId = some order → validRateBody body = true →
      order.customer = user.id → order.status ≠ "delivered" →
      rateOrder s user orderId body now = (s, .notDelivered) ∧
      (rateOrder s user orderId body now).2.code = 400) := by
  have hinvalid : ¬ ratingInRange body.rating →
      rateOrder s user orderId body now = (s, .validationErrors) := by
    intro hr
    apply rateOrder_invalid
    by_contra hv
    exact hr (validRateBody_rating body (by simpa using hv))
  have hforbidden : ∀ order, findOrder s.orders orderId = some order →
      validRateBody body = true → order.customer ≠ user.id →
      rateOrder s user orderId body now =
        (s, .forbidden "Not authorized to rate this order") := by
    intro order hfind hv hc
    simp [rateOrder, hv, hfind, hc]
  have hnotdel : ∀ order, findOrder s.orders orderId = some order →
      validRateBody body = true → order.customer = user.id → order.status ≠ "delivered" →
      rateOrder s user orderId body now = (s, .notDelivered) := by
    intro order hfind hv hc hst
    simp [rateOrder, hv, hfind, hc, hst]
  refine ⟨?_, ?_, ?_, ?_, ?_⟩
  · intro s' o' h
    obtain ⟨hv, order, hfind, hc, hst⟩ := rateOrder_ok s user orderId body now s' o' h
    exact ⟨order, hfind, hc, hst, validRateBody_rating body hv⟩
  · intro order hfind hnot
    cases hv : validRateBody body with
    | false => rw [rateOrder_invalid s user orderId body now hv]; simp [Response.code]
    | true =>
      by_cases hc : order.customer = user.id
      · by_cases hst : order.status = "delivered"
        · exact absurd ⟨hc, hst, validRateBody_rating body hv⟩ hnot
        · rw [hnotdel order hfind hv hc hst]; simp [Response.code]
      · rw [hforbidden order hfind hv hc]; simp [Response.code]
  · intro hr
    rw [hinvalid hr]; exact ⟨rfl, rfl⟩
  · intro order hfind hv hc
    rw [hforbidden order hfind hv hc]; exact ⟨rfl, rfl⟩
  · intro order hfind hv hc hst
    rw [hnotdel order hfind hv hc hst]; exact ⟨rfl, rfl⟩

/-- Witness of C11: on the pending scenario order the buyer's rating is answered 400 and a
stranger's 403; a rating of 6 is answered 400; the buyer's rating of the delivered order was
accepted for a delivered order of that buyer. -/
theorem rateOrder_acceptance_witness :
    (rateOrder tomatoStoreAfter buyer 0 { rating := 4, review := none } 9 =
        (tomatoStoreAfter, .notDelivered)) ∧
    (rateOrder tomatoStoreAfter stranger 0 { rating := 4, review := none } 9 =
        (tomatoStoreAfter, .forbidden "Not authorized to rate this order")) ∧
    (rateOrder deliveredStore buyer 0 { rating := 6, review := none } 9 =
        (deliveredStore, .validationErrors)) ∧
    ((rateOrder tomatoStoreAfter stranger 0 { rating := 4, review := none } 9).1 =
        tomatoStoreAfter) :=
  have hfind : findOrder tomatoStoreAfter.orders 0 = some tomatoOrder := by
    simp [findOrder, tomatoStoreAfter, tomatoOrder]
  have hvalid : validRateBody { rating := 4, review := none } = true := by
    simp [validRateBody, Rat.isInt]; norm_num
  ⟨((rateOrder_acceptance tomatoStoreAfter buyer 0 { rating := 4, review := none } 9).2.2.2.2
      tomatoOrder hfind hvalid rfl (by simp [tomatoOrder])).1,
    ((rateOrder_acceptance tomatoStoreAfter stranger 0 { rating := 4, review := none } 9).2.2.2.1
      tomatoOrder hfind hvalid (by simp [tomatoOrder, stranger])).1,
    ((rateOrder_acceptance deliveredStore buyer 0 { rating := 6, review := none } 9).2.2.1
      (by simp [ratingInRange]; intro _; norm_num)).1,
    ((rateOrder_acceptance tomatoStoreAfter stranger 0 { rating := 4, review := none } 9).2.1
      tomatoOrder hfind (by simp [tomatoOrder, stranger])).1⟩

/-- Claim C18. For a delivered order and its buyer, two `rateOrder` requests that pass the
validators, run one after the other, are both accepted; after the second the stored order has
the rating and the review of the second request (and its date), while its status, timeline and
items, and the catalog, are as before the first. -/
theorem rateOrder_twice (s : Store) (user : User) (orderId : Nat) (order : Order)
    (first second : RateBody) (now1 now2 : Nat)
    (hfind : findOrder s.orders orderId = some order)
    (hbuyer : order.customer = user.id) (hstatus : order.status = "delivered")
    (hfirst : validRateBody first = true) (hsecond : validRateBody second = true) :
    ∃ s1 o1 s2 o2,
      rateOrder s user orderId first now1 = (s1, .ok o1) ∧
      rateOrder s1 user orderId second now2 = (s2, .ok o2) ∧
      findOrder s2.orders orderId = some o2 ∧
      o2.rating = some second.rating ∧ o2.review = second.review ∧ o2.ratedAt = some now2 ∧
      o2.status = order.status ∧ o2.timeline = order.timeline ∧ o2.items = order.items ∧
      s2.products = s.products := by
  obtain ⟨o1, hid1, hc1, hst1, htl1, hit1, -, -, -, h1⟩ :=
    rateOrder_of_buyer s user orderId first now1 order hfind hfirst hbuyer hstatus
  have hoid : order.id = orderId := findOrder_id _ _ _ hfind
  have hfind1 : findOrder (saveOrder s.orders o1) orderId = some o1 := by
    rw [findOrder_saveOrder, if_pos (by rw [hid1, hoid]), hfind]; rfl
  obtain ⟨o2, hid2, -, hst2, htl2, hit2, hr2, hv2, hd2, h2⟩ :=
    rateOrder_of_buyer { products := s.products, orders := saveOrder s.orders o1 } user orderId
      second now2 o1 hfind1 hsecond (hc1.trans hbuyer)
      (hst1.trans hstatus)
  refine ⟨_, o1, _, o2, h1, h2, ?_, hr2, hv2, hd2, hst2.trans hst1, htl2.trans htl1,
    hit2.trans hit1, rfl⟩
  show findOrder (saveOrder (saveOrder s.orders o1) o2) orderId = some o2
  rw [findOrder_saveOrder, if_pos (by rw [hid2, hid1, hoid]), hfind1]; rfl

/-- Witness of C18: the buyer rates the delivered scenario order 3 with a review, then 5
without one; the stored order ends with rating 5 and no review. -/
theorem rateOrder_twice_witness :
    ∃ s1 o1 s2 o2,
      rateOrder deliveredStore buyer 0 { rating := 3, review := some "fresh" } 8 =
        (s1, .ok o1) ∧
      rateOrder s1 buyer 0 { rating := 5, review := none } 9 = (s2, .ok o2) ∧
      findOrder s2.orders 0 = some o2 ∧
      o2.rating = some 5 ∧ o2.review = none ∧ o2.ratedAt = some 9 ∧
      o2.status = tomatoDelivered.status ∧ o2.timeline = tomatoDelivered.timeline ∧
      o2.items = tomatoDelivered.items ∧ s2.products = deliveredStore.products :=
  rateOrder_twice deliveredStore buyer 0 tomatoDelivered
    { rating := 3, review := some "fresh" } { rating := 5, review := none } 8 9
    (by simp [findOrder, deliveredStore, tomatoDelivered, tomatoOrder])
    rfl rfl
    (by simp [validRateBody, Rat.isInt]; exact ⟨by norm_num, by decide⟩)
    (by simp [validRateBody, Rat.isInt])

/-! ## The order document -/

theorem setAdd_head (farmers : List Nat) (x : Nat) (h : farmers ≠ []) :
    (setAdd farmers x).head? = farmers.head? := by
  unfold setAdd
  split
  · rfl
  · cases farmers with
    | nil => exact absurd rfl h
    | cons a as => rfl

theorem setAdd_ne_nil (farmers : List Nat) (x : Nat) : setAdd farmers x ≠ [] := by
  unfold setAdd
  split
  · next h => intro e; rw [e] at h; simp at h
  · simp

theorem processItems_farmers (items : List ItemRequest) :
    ∀ (cat : List Product) (acc : LoopState) (cat' : List Product) (acc' : LoopState),
      processItems items cat acc = (cat', .ok acc') → acc.farmers ≠ [] →
      acc'.farmers.head? = acc.farmers.head? := by
  induction items with
  | nil =>
    intro cat acc cat' acc' h _
    simp only [processItems, Prod.mk.injEq, Except.ok.injEq] at h
    rw [h.2]
  | cons item rest ih =>
    intro cat acc cat' acc' h hne
    unfold processItems at h
    cases hf : findById cat item.productId with
    | none => simp [hf] at h
    | some product =>
      simp only [hf] at h
      split at h
      · simp at h
      · rw [ih _ _ _ _ h (setAdd_ne_nil _ _)]
        exact setAdd_head _ _ hne

theorem processItems_first_farmer (item : ItemRequest) (rest : List ItemRequest)
    (cat : List Product) (acc : LoopState) (cat' : List Product) (acc' : LoopState)
    (h : processItems (item :: rest) cat acc = (cat', .ok acc')) (hnil : acc.farmers = []) :
    ∃ p, findById cat item.productId = some p ∧ acc'.farmers.head? = some p.farmer := by
  unfold processItems at h
  cases hf : findById cat item.productId with
  | none => simp [hf] at h
  | some product =>
    simp only [hf] at h
    split at h
    · simp at h
    · refine ⟨product, rfl, ?_⟩
      rw [processItems_farmers _ _ _ _ _ h (setAdd_ne_nil _ _), hnil]
      rfl

theorem lineMatches_incInventory (cat : List Product) (id : Nat) (d : ℚ) (it : ItemRequest)
    (oi : OrderItem) (h : lineMatches (incInventory cat id d) it oi) : lineMatches cat it oi := by
  obtain ⟨p, hp, h1, h2, h3, h4, h5⟩ := h
  rw [findById_incInventory] at hp
  cases hf : findById cat it.productId with
  | none => simp [hf] at hp
  | some q =>
    simp only [hf, Option.map_some', Option.some.injEq] at hp
    refine ⟨q, hf, h1, h2, ?_, ?_, h5⟩
    · rw [h3, ← hp]; split <;> rfl
    · rw [h4, ← hp]; split <;> rfl

theorem processItems_lines (items : List ItemRequest) :
    ∀ (cat : List Product) (acc : LoopState) (cat' : List Product) (acc' : LoopState),
      processItems items cat acc = (cat', .ok acc') →
      ∃ added, acc'.orderItems = acc.orderItems ++ added ∧
        List.Forall₂ (lineMatches cat) items added ∧
        acc'.subtotal = acc.subtotal + (added.map (fun oi => oi.total)).sum := by
  induction items with
  | nil =>
    intro cat acc cat' acc' h
    simp only [processItems, Prod.mk.injEq, Except.ok.injEq] at h
    exact ⟨[], by simp [h.2], List.Forall₂.nil, by simp [h.2]⟩
  | cons item rest ih =>
    intro cat acc cat' acc' h
    unfold processItems at h
    cases hf : findById cat item.productId with
    | none => simp [hf] at h
    | some product =>
      simp only [hf] at h
      split at h
      · simp at h
      · obtain ⟨added, h1, h2, h3⟩ := ih _ _ _ _ h
        refine ⟨_ :: added, by simpa using h1, List.Forall₂.cons ?_ ?_, ?_⟩
        · exact ⟨product, hf, rfl, rfl, rfl, rfl, rfl⟩
        · exact h2.imp (fun it oi hm => lineMatches_incInventory _ _ _ it oi hm)
        · rw [h3]; simp only [List.map_cons, List.sum_cons]; ring

theorem createOrder_loop (s : Store) (user : User) (req : OrderRequest)
    (orderNumber : String) (s' : Store) (o : Order)
    (h : createOrder s user req orderNumber = (s', .created o)) :
    ∃ cat acc, req.items ≠ [] ∧
      processItems req.items s.products { subtotal := 0, orderItems := [], farmers := [] } =
        (cat, .ok acc) ∧
      o.items = acc.orderItems ∧ o.subtotal = acc.subtotal ∧ o.farmer = acc.farmers.head? ∧
      o.customer = user.id := by
  unfold createOrder at h
  split at h
  · simp at h
  · next hv =>
    split at h
    · simp at h
    · split at h
      · next cat r hp =>
        simp only [Prod.mk.injEq] at h
        obtain ⟨-, rfl⟩ := h
        rcases processItems_error _ _ _ _ _ hp with ⟨id, hr⟩ | ⟨nm, av, hr⟩ <;> simp at hr
      · next cat acc hp =>
        simp only [Prod.mk.injEq, Response.created.injEq] at h
        obtain ⟨-, rfl⟩ := h
        refine ⟨cat, acc, ?_, hp, rfl, rfl, rfl, rfl⟩
        intro e
        simp [validOrderRequest, e] at hv

/-- Claim C12. When `POST /api/orders` answers 201 with order `o`, the item list is not empty,
the order's farmer is the farmer of the product of the first requested item, whatever the
farmers of the other items, and the stored line items name the requested products, all of them
and in the same order. -/
theorem createOrder_first_farmer (s : Store) (user : User) (req : OrderRequest)
    (orderNumber : String) (s' : Store) (o : Order)
    (h : createOrder s user req orderNumber = (s', .created o)) :
    ∃ first rest p, req.items = first :: rest ∧
      findById s.products first.productId = some p ∧ o.farmer = some p.farmer ∧
      o.items.map (fun oi => oi.product) = req.items.map (fun it => it.productId) ∧
      o.items.length = req.items.length := by
  obtain ⟨cat, acc, hne, hp, hitems, -, hfarmer, -⟩ := createOrder_loop s user req orderNumber s' o h
  obtain ⟨added, h1, h2, -⟩ := processItems_lines _ _ _ _ _ hp
  simp only [List.nil_append] at h1
  have hmap : ∀ (xs : List ItemRequest) (ys : List OrderItem),
      List.Forall₂ (lineMatches s.products) xs ys →
      ys.map (fun oi => oi.product) = xs.map (fun it => it.productId) := by
    intro xs ys hxy
    induction hxy with
    | nil => rfl
    | cons hab _ ih =>
      obtain ⟨p, -, hprod, -⟩ := hab
      simp [hprod, ih]
  cases hreq : req.items with
  | nil => exact absurd hreq hne
  | cons first rest =>
    rw [hreq] at hp h2
    obtain ⟨p, hfp, hhead⟩ := processItems_first_farmer first rest _ _ _ _ hp rfl
    refine ⟨first, rest, p, rfl, hfp, by rw [hfarmer, hhead], ?_, ?_⟩
    · rw [hitems, h1]; exact hmap _ _ h2
    · rw [hitems, h1]; exact h2.length_eq.symm

/-- Claim C13. When `POST /api/orders` answers 201 with order `o`, the stored line items
correspond one to one and in order to the requested items; each has the requested product and
quantity, the unit and the price amount stored for the product (an order changes no price, so
they are those of the catalog before the request as well as at processing time), and
total = price × quantity; and the order's subtotal is the sum of the line totals. -/
theorem createOrder_line_items (s : Store) (user : User) (req : OrderRequest)
    (orderNumber : String) (s' : Store) (o : Order)
    (h : createOrder s user req orderNumber = (s', .created o)) :
    List.Forall₂ (lineMatches s.products) req.items o.items ∧
    o.subtotal = (o.items.map (fun oi => oi.total)).sum := by
  obtain ⟨cat, acc, -, hp, hitems, hsub, -, -⟩ := createOrder_loop s user req orderNumber s' o h
  obtain ⟨added, h1, h2, h3⟩ := processItems_lines _ _ _ _ _ hp
  simp only [List.nil_append] at h1
  simp only [zero_add] at h3
  rw [hitems, hsub, h1]
  exact ⟨h2, h3⟩

theorem market_createOrder :
    createOrder marketStore buyer (orderOf [(1, 2), (2, 1)]) "ORD5" =
      (marketStoreAfter, .created mixedOrder) := by
  simp [createOrder, validOrderRequest, orderOf, marketStore, processItems, findById,
    tomatoes, onions, incInventory, setAdd, freshOrderId, buyer, homeAddress, strOr,
    mixedOrder, deliveryFee, taxRate, marketStoreAfter, toLowerCase]
  norm_num

/-- Witness of C12: tomatoes of farmer 7 and onions of farmer 8 in one request; the order's
farmer is 7 and both lines are kept. -/
theorem createOrder_first_farmer_witness :
    ∃ first rest p, (orderOf [(1, 2), (2, 1)]).items = first :: rest ∧
      findById marketStore.products first.productId = some p ∧
      mixedOrder.farmer = some p.farmer ∧
      mixedOrder.items.map (fun oi => oi.product) =
        (orderOf [(1, 2), (2, 1)]).items.map (fun it => it.productId) ∧
      mixedOrder.items.length = (orderOf [(1, 2), (2, 1)]).items.length :=
  createOrder_first_farmer marketStore buyer (orderOf [(1, 2), (2, 1)]) "ORD5"
    marketStoreAfter mixedOrder market_createOrder

/-- Witness of C13 on the two-producer request. -/
theorem createOrder_line_items_witness :
    List.Forall₂ (lineMatches marketStore.products) (orderOf [(1, 2), (2, 1)]).items
      mixedOrder.items ∧
    mixedOrder.subtotal = (mixedOrder.items.map (fun oi => oi.total)).sum :=
  createOrder_line_items marketStore buyer (orderOf [(1, 2), (2, 1)]) "ORD5"
    marketStoreAfter mixedOrder market_createOrder

theorem strOr_empty (notes : Option String) : strOr notes "" = notes.getD "" := by
  cases notes with
  | none => rfl
  | some v =>
    simp only [strOr, Option.getD_some]
    split
    · next h => exact h.symm
    · rfl

/-- Claim C14. When `updateStatus` is accepted, with reply `o'`: the order's status is the
new status; its timeline is the former timeline followed by exactly one entry, whose status is
the new status, whose date is the date of the request and whose note is the supplied note, or
the empty string when there is none; `o'` is the stored order; its items are unchanged; and
the catalog is unchanged. -/
theorem updateStatus_effect (s : Store) (user : User) (orderId : Nat) (body : StatusBody)
    (now : Nat) (s' : Store) (o' : Order)
    (h : updateStatus s user orderId body now = (s', .ok o')) :
    ∃ order, findOrder s.orders orderId = some order ∧
      o'.status = body.status ∧
      o'.timeline = order.timeline ++
        [{ status := body.status, timestamp := now, notes := body.notes.getD "" }] ∧
      o'.items = order.items ∧
      findOrder s'.orders orderId = some o' ∧
      s'.products = s.products := by
  unfold updateStatus at h
  split at h
  · simp at h
  · split at h
    · simp at h
    · next order hfind =>
      split at h
      · simp at h
      · split at h
        · simp at h
        · simp only [Prod.mk.injEq, Response.ok.injEq] at h
          obtain ⟨rfl, rfl⟩ := h
          refine ⟨order, hfind, rfl, by simp [strOr_empty], rfl, ?_, rfl⟩
          simp only [findOrder_saveOrder]
          simp [findOrder_id _ _ _ hfind, hfind]

theorem tomato_confirm :
    updateStatus tomatoStoreAfter seller 0 { status := "confirmed", notes := some "packed" } 4 =
      (confirmedStore, .ok tomatoConfirmed) := by
  simp [updateStatus, validStatuses, findOrder, tomatoStoreAfter, tomatoOrder, seller,
    saveOrder, strOr, confirmedStore, tomatoConfirmed]

/-- Witness of C14: the seller confirms the pending scenario order with the note `packed`. -/
theorem updateStatus_effect_witness :
    ∃ order, findOrder tomatoStoreAfter.orders 0 = some order ∧
      tomatoConfirmed.status = "confirmed" ∧
      tomatoConfirmed.timeline = order.timeline ++
        [{ status := "confirmed", timestamp := 4, notes := "packed" }] ∧
      tomatoConfirmed.items = order.items ∧
      findOrder confirmedStore.orders 0 = some tomatoConfirmed ∧
      confirmedStore.products = tomatoStoreAfter.products :=
  updateStatus_effect tomatoStoreAfter seller 0
    { status := "confirmed", notes := some "packed" } 4 confirmedStore tomatoConfirmed
    tomato_confirm

/-! ## Validation and role of the ordering account -/

theorem createOrder_no_items (s : Store) (user : User) (req : OrderRequest)
    (orderNumber : String) (h : req.items = []) :
    createOrder s user req orderNumber = (s, .validationErrors) := by
  simp [createOrder, validOrderRequest, h]

/-- Claim C15, evaluation at the failing input. On a catalog with 10 tomatoes, the request for
-3 tomatoes is not answered with a validation error: it is answered 201, one order is stored,
and the tomatoes are raised to 13. A request for 0 tomatoes is answered 201 as well. -/
theorem createOrder_nonpositive_quantity :
    (createOrder tomatoStore buyer (orderOf [(1, -3)]) "ORD6").2.code = 201 ∧
    (createOrder tomatoStore buyer (orderOf [(1, -3)]) "ORD6").1.orders.length = 1 ∧
    inventoryOf tomatoStore.products 1 = some 10 ∧
    inventoryOf (createOrder tomatoStore buyer (orderOf [(1, -3)]) "ORD6").1.products 1 =
      some 13 ∧
    (createOrder tomatoStore buyer (orderOf [(1, 0)]) "ORD7").2.code = 201 := by
  refine ⟨?_, ?_, ?_, ?_, ?_⟩
  · simp [createOrder, validOrderRequest, orderOf, tomatoStore, processItems, findById,
      tomatoes, incInventory, homeAddress]
    norm_num [Response.code]
  · simp [createOrder, validOrderRequest, orderOf, tomatoStore, processItems, findById,
      tomatoes, incInventory, homeAddress]
    norm_num
  · simp [inventoryOf, findById, tomatoStore, tomatoes]
  · simp [createOrder, validOrderRequest, orderOf, tomatoStore, processItems, findById,
      tomatoes, incInventory, homeAddress, inventoryOf]
    norm_num
  · simp [createOrder, validOrderRequest, orderOf, tomatoStore, processItems, findById,
      tomatoes, incInventory, homeAddress]
    norm_num [Response.code]

/-- Claim C16, counterexample. The account `seller` has userType `farmer`, and its request for
3 tomatoes is answered 201: an order whose customer is that account is stored and the tomatoes
go from 10 to 7. -/
theorem createOrder_by_farmer :
    seller.userType = "farmer" ∧
    (createOrder tomatoStore seller tomatoRequest "ORD1").2 =
      .created { tomatoOrder with customer := 7 } ∧
    (createOrder tomatoStore seller tomatoRequest "ORD1").1 =
      { products := [{ tomatoes with inventory := 7 }],
        orders := [{ tomatoOrder with customer := 7 }] } := by
  refine ⟨rfl, ?_, ?_⟩
  · simp [createOrder, validOrderRequest, tomatoRequest, tomatoStore, processItems, findById,
      tomatoes, incInventory, setAdd, freshOrderId, seller, homeAddress, strOr, tomatoOrder,
      deliveryFee, taxRate, toLowerCase]
    norm_num
  · simp [createOrder, validOrderRequest, tomatoRequest, tomatoStore, processItems, findById,
      tomatoes, incInventory, setAdd, freshOrderId, seller, homeAddress, strOr, tomatoOrder,
      deliveryFee, taxRate, toLowerCase]
    norm_num

/-- Claim C16, amended. `createOrder` never reads the role of the authenticated account: the
same request by two accounts with the same id and any two userTypes gives the same reply and
the same store. In particular a farmer account is served exactly as a consumer account. -/
theorem createOrder_ignores_userType (s : Store) (id : Nat) (userType userType' : String)
    (req : OrderRequest) (orderNumber : String) :
    createOrder s { id := id, userType := userType } req orderNumber =
      createOrder s { id := id, userType := userType' } req orderNumber := by
  rfl

/-! ## Concurrent orders -/

theorem runInFlight_replied (n : Nat) (s : Store) (t : InFlight) (r : Response)
    (h : t.reply = some r) : runInFlight n s t = (s, t) := by
  induction n with
  | zero => rfl
  | succ n ih =>
    have hstep : stepInFlight s t = (s, t) := by simp [stepInFlight, h]
    simp only [runInFlight, hstep]
    exact ih

theorem runInFlight_loop (items : List ItemRequest) :
    ∀ (s : Store) (t : InFlight), t.reply = none → t.awaitingInc = false → t.items = items →
      (∀ cat e, processItems items s.products t.acc = (cat, .error e) →
        (runInFlight (2 * items.length + 1) s t).1 = { products := cat, orders := s.orders } ∧
        (runInFlight (2 * items.length + 1) s t).2.reply = some e) ∧
      (∀ cat acc, processItems items s.products t.acc = (cat, .ok acc) →
        runInFlight (2 * items.length + 1) s t =
          saveInFlight { products := cat, orders := s.orders }
            { t with items := [], acc := acc, awaitingInc := false }) := by
  induction items with
  | nil =>
    intro s t hr hi hit
    refine ⟨?_, ?_⟩
    · intro cat e h; simp [processItems] at h
    · intro cat acc h
      simp only [processItems, Prod.mk.injEq, Except.ok.injEq] at h
      obtain ⟨rfl, rfl⟩ := h
      simp only [List.length_nil, Nat.mul_zero, Nat.zero_add, runInFlight, stepInFlight, hr, hit]
      cases t
      simp only at hit hi
      subst hit hi
      rfl
  | cons item rest ih =>
    intro s t hr hi hit
    have hfuel : 2 * (item :: rest).length + 1 = (2 * rest.length + 1) + 1 + 1 := by
      simp only [List.length_cons]; omega
    rw [hfuel]
    cases hf : findById s.products item.productId with
    | none =>
      have hstep : stepInFlight s t =
          (s, { t with reply := some (.productNotFound item.productId) }) := by
        simp [stepInFlight, hr, hit, hi, hf]
      refine ⟨?_, ?_⟩
      · intro cat e h
        simp only [processItems, hf, Prod.mk.injEq, Except.error.injEq] at h
        obtain ⟨rfl, rfl⟩ := h
        simp only [runInFlight, hstep]
        rw [runInFlight_replied _ _ _ _ rfl]
        exact ⟨rfl, rfl⟩
      · intro cat acc h
        simp [processItems, hf] at h
    | some product =>
      by_cases hlt : product.inventory < item.quantity
      · have hstep : stepInFlight s t =
            (s, { t with
                  reply := some (.insufficientInventory product.name product.inventory) }) := by
          simp [stepInFlight, hr, hit, hi, hf, hlt]
        refine ⟨?_, ?_⟩
        · intro cat e h
          simp only [processItems, hf, hlt, if_true, Prod.mk.injEq, Except.error.injEq] at h
          obtain ⟨rfl, rfl⟩ := h
          simp only [runInFlight, hstep]
          rw [runInFlight_replied _ _ _ _ rfl]
          exact ⟨rfl, rfl⟩
        · intro cat acc h
          simp [processItems, hf, hlt] at h
      · have hstep1 : stepInFlight s t =
            (s, { t with
                  awaitingInc := true
                  acc :=
                    { subtotal := t.acc.subtotal + product.price.amount * item.quantity
                      orderItems := t.acc.orderItems ++
                        [{ product := item.productId, quantity := item.quantity,
                           unit := product.price.unit, price := product.price.amount,
                           total := product.price.amount * item.quantity }]
                      farmers := setAdd t.acc.farmers product.farmer } }) := by
          simp [stepInFlight, hr, hit, hi, hf, hlt]
        obtain ⟨ih1, ih2⟩ := ih
          { products := incInventory s.products item.productId (-item.quantity),
            orders := s.orders }
          { t with
            items := rest
            awaitingInc := false
            acc :=
              { subtotal := t.acc.subtotal + product.price.amount * item.quantity
                orderItems := t.acc.orderItems ++
                  [{ product := item.productId, quantity := item.quantity,
                     unit := product.price.unit, price := product.price.amount,
                     total := product.price.amount * item.quantity }]
                farmers := setAdd t.acc.farmers product.farmer } }
          hr rfl rfl
        have hrun : ∀ n, runInFlight (n + 1 + 1) s t =
            runInFlight n
              { products := incInventory s.products item.productId (-item.quantity),
                orders := s.orders }
              { t with
                items := rest
                awaitingInc := false
                acc :=
                  { subtotal := t.acc.subtotal + product.price.amount * item.quantity
                    orderItems := t.acc.orderItems ++
                      [{ product := item.productId, quantity := item.quantity,
                         unit := product.price.unit, price := product.price.amount,
                         total := product.price.amount * item.quantity }]
                    farmers := setAdd t.acc.farmers product.farmer } } := by
          intro n
          simp only [runInFlight, hstep1]
          simp [stepInFlight, hr, hit]
        rw [hrun]
        refine ⟨?_, ?_⟩
        · intro cat e h
          simp only [processItems, hf, hlt, if_false] at h
          exact ih1 cat e h
        · intro cat acc h
          simp only [processItems, hf, hlt, if_false] at h
          exact ih2 cat acc h

/-- A request that is alone in flight does what `createOrder` does: after its
`2 × (number of items) + 1` database operations the store and the reply are those of
`createOrder`. -/
theorem runInFlight_createOrder (s : Store) (user : User) (req : OrderRequest)
    (orderNumber : String) :
    (runInFlight (2 * req.items.length + 1) s (startOrder user req orderNumber)).1 =
      (createOrder s user req orderNumber).1 ∧
    (runInFlight (2 * req.items.length + 1) s (startOrder user req orderNumber)).2.reply =
      some (createOrder s user req orderNumber).2 := by
  cases hv : validOrderRequest req with
  | false =>
    have hreply : (startOrder user req orderNumber).reply = some .validationErrors := by
      simp [startOrder, hv]
    rw [runInFlight_replied _ _ _ _ hreply]
    simp [createOrder, hv, hreply]
  | true =>
    have hreply : (startOrder user req orderNumber).reply = none := by
      simp [startOrder, hv]
    obtain ⟨h1, h2⟩ := runInFlight_loop req.items s (startOrder user req orderNumber)
      hreply rfl rfl
    cases hsa : req.shippingAddress with
    | none => simp [validOrderRequest, hsa] at hv
    | some sa =>
      cases hp : processItems req.items s.products
          { subtotal := 0, orderItems := [], farmers := [] } with
      | mk cat r =>
        cases r with
        | error e =>
          obtain ⟨ha, hb⟩ := h1 cat e hp
          rw [ha, hb]
          simp [createOrder, hv, hsa, hp]
        | ok acc =>
          rw [h2 cat acc hp]
          simp [createOrder, hv, hsa, hp, saveInFlight, startOrder]

/-- Claim C17, evaluation at the failing input. Two requests for 6 of the 10 tomatoes, whose
`findById` both come before either `$inc`: both are answered 201, two orders are stored, and
the tomatoes end at -2. Run one after the other instead, the first is answered 201, the second
is refused with 4 available, and the tomatoes end at 4. -/
theorem concurrent_orders_oversell :
    ((interleave tomatoStore (startOrder buyer (orderOf [(1, 6)]) "ORDA")
        (startOrder stranger (orderOf [(1, 6)]) "ORDB")
        [true, false, true, false, true, false]).2.1.reply.map Response.code = some 201 ∧
      (interleave tomatoStore (startOrder buyer (orderOf [(1, 6)]) "ORDA")
        (startOrder stranger (orderOf [(1, 6)]) "ORDB")
        [true, false, true, false, true, false]).2.2.reply.map Response.code = some 201 ∧
      (interleave tomatoStore (startOrder buyer (orderOf [(1, 6)]) "ORDA")
        (startOrder stranger (orderOf [(1, 6)]) "ORDB")
        [true, false, true, false, true, false]).1.orders.length = 2 ∧
      inventoryOf (interleave tomatoStore (startOrder buyer (orderOf [(1, 6)]) "ORDA")
        (startOrder stranger (orderOf [(1, 6)]) "ORDB")
        [true, false, true, false, true, false]).1.products 1 = some (-2)) ∧
    ((interleave tomatoStore (startOrder buyer (orderOf [(1, 6)]) "ORDA")
        (startOrder stranger (orderOf [(1, 6)]) "ORDB")
        [true, true, true, false]).2.1.reply.map Response.code = some 201 ∧
      (interleave tomatoStore (startOrder buyer (orderOf [(1, 6)]) "ORDA")
        (startOrder stranger (orderOf [(1, 6)]) "ORDB")
        [true, true, true, false]).2.2.reply = some (.insufficientInventory "Tomatoes" 4) ∧
      inventoryOf (interleave tomatoStore (startOrder buyer (orderOf [(1, 6)]) "ORDA")
        (startOrder stranger (orderOf [(1, 6)]) "ORDB")
        [true, true, true, false]).1.products 1 = some 4) := by
  refine ⟨⟨?_, ?_, ?_, ?_⟩, ⟨?_, ?_, ?_⟩⟩ <;>
    simp [interleave, stepInFlight, saveInFlight, startOrder, validOrderRequest, orderOf,
      tomatoStore, findById, tomatoes, incInventory, homeAddress, inventoryOf,
      Response.code] <;>
    norm_num [Response.code, incInventory, findById]

/-! ## Registration -/

theorem register_farmer_fields (lib : AuthLib) (jwtSecret : Option String)
    (users : List Account) (req : RegisterRequest) (now : Nat)
    (hfarmer : req.userType = "farmer")
    (hmissing : noString req.farmName = true ∨ noNumber req.farmSize = true) :
    (register lib jwtSecret users req now).1 = users ∧
    (register lib jwtSecret users req now).2.code = 400 := by
  have hm : (noString req.farmName || noNumber req.farmSize) = true := by
    rcases hmissing with h | h <;> simp [h]
  cases hv : validRegisterRequest lib req with
  | false => simp [register, hv, AuthResponse.code]
  | true =>
    cases hfe : findByEmail users (lib.normalizeEmail req.email) with
    | some a => simp [register, hv, hfe, AuthResponse.code]
    | none => simp [register, hv, hfe, hfarmer, hm, AuthResponse.code]

theorem lengthBetween_ne_empty (s : String) (max : Nat) (h : lengthBetween s 2 max = true) :
    s ≠ "" := by
  intro e
  subst e
  simp [lengthBetween] at h

theorem isTenDigits_ne_empty (s : String) (h : isTenDigits s = true) : s ≠ "" := by
  intro e
  subst e
  simp [isTenDigits] at h

theorem register_consumer (lib : AuthLib) (jwtSecret : Option String)
    (users : List Account) (req : RegisterRequest) (now : Nat)
    (hconsumer : req.userType = "consumer")
    (hvalid : validRegisterRequest lib req = true)
    (hnew : findByEmail users (lib.normalizeEmail req.email) = none)
    (hemail : schemaEmail (lib.normalizeEmail req.email) ≠ "") :
    ∃ user token,
      (register lib jwtSecret users req now).2 = .registered user token ∧
      (register lib jwtSecret users req now).1 =
        users ++ [{ user with password := some (lib.hash req.password) }] ∧
      user.userType = "consumer" ∧ user.farmName = none ∧ user.farmSize = none ∧
      user.crops = [] := by
  have hv := hvalid
  simp only [validRegisterRequest, Bool.and_eq_true, decide_eq_true_eq] at hv
  obtain ⟨⟨⟨⟨⟨⟨⟨⟨h1, h2⟩, -⟩, h4⟩, h5⟩, -⟩, h7⟩, h8⟩, h9⟩ := hv
  have hne : ¬ (req.userType = "farmer") := by rw [hconsumer]; decide
  have hschema : userSchemaValid
      { id := freshAccountId users
        userType := req.userType
        firstName := jsTrim req.firstName
        lastName := jsTrim req.lastName
        email := schemaEmail (lib.normalizeEmail req.email)
        phone := req.phone
        location := req.location
        password := some req.password
        farmName := none
        farmSize := none
        crops := []
        termsAccepted := false
        newsletter := false
        isActive := true
        createdAt := now
        updatedAt := now } = true := by
    simp only [userSchemaValid, Bool.and_eq_true, Bool.or_eq_true, decide_eq_true_eq]
    refine ⟨⟨⟨⟨⟨⟨⟨⟨⟨?_, ?_⟩, ?_⟩, ?_⟩, ?_⟩, h7⟩, h8⟩, h9⟩, h5⟩, Or.inl hne⟩
    · rw [hconsumer]; decide
    · exact lengthBetween_ne_empty _ _ h1
    · exact lengthBetween_ne_empty _ _ h2
    · exact hemail
    · exact isTenDigits_ne_empty _ h4
  simp only [register, hvalid, hnew, hne, false_and, Bool.not_true, if_false,
    Bool.false_eq_true]
  simp only [hschema, Bool.not_true, Bool.false_eq_true, if_false]
  exact ⟨_, _, rfl, rfl, hconsumer, rfl, rfl, rfl⟩

theorem register_farmer (lib : AuthLib) (jwtSecret : Option String)
    (users : List Account) (req : RegisterRequest) (now : Nat)
    (hfarmer : req.userType = "farmer")
    (hvalid : validRegisterRequest lib req = true)
    (hnew : findByEmail users (lib.normalizeEmail req.email) = none)
    (hemail : schemaEmail (lib.normalizeEmail req.email) ≠ "")
    (hname : noString req.farmName = false) (hsize : noNumber req.farmSize = false) :
    ∃ user token,
      (register lib jwtSecret users req now).2 = .registered user token ∧
      (register lib jwtSecret users req now).1 =
        users ++ [{ user with password := some (lib.hash req.password) }] ∧
      user.userType = "farmer" ∧ user.farmName = req.farmName ∧
      user.farmSize = req.farmSize ∧ user.crops = req.crops.getD [] := by
  have hv := hvalid
  simp only [validRegisterRequest, Bool.and_eq_true, decide_eq_true_eq] at hv
  obtain ⟨⟨⟨⟨⟨⟨⟨⟨h1, h2⟩, -⟩, h4⟩, h5⟩, -⟩, h7⟩, h8⟩, h9⟩ := hv
  have hsome : req.farmSize.isSome = true := by
    cases hs : req.farmSize with
    | none => simp [noNumber, hs] at hsize
    | some v => rfl
  have hschema : userSchemaValid
      { id := freshAccountId users
        userType := "farmer"
        firstName := jsTrim req.firstName
        lastName := jsTrim req.lastName
        email := schemaEmail (lib.normalizeEmail req.email)
        phone := req.phone
        location := req.location
        password := some req.password
        farmName := req.farmName
        farmSize := req.farmSize
        crops := req.crops.getD []
        termsAccepted := false
        newsletter := false
        isActive := true
        createdAt := now
        updatedAt := now } = true := by
    simp only [userSchemaValid, Bool.and_eq_true, Bool.or_eq_true, decide_eq_true_eq]
    refine ⟨⟨⟨⟨⟨⟨⟨⟨⟨?_, ?_⟩, ?_⟩, ?_⟩, ?_⟩, h7⟩, h8⟩, h9⟩, h5⟩, Or.inr ?_⟩
    · decide
    · exact lengthBetween_ne_empty _ _ h1
    · exact lengthBetween_ne_empty _ _ h2
    · exact hemail
    · exact isTenDigits_ne_empty _ h4
    · simp [hname, hsome]
  simp only [register, hvalid, hnew, hfarmer, hname, hsize, Bool.or_self, Bool.not_true,
    if_false, Bool.false_eq_true, and_false, if_true]
  simp only [hschema, Bool.not_true, Bool.false_eq_true, if_false]
  exact ⟨_, _, rfl, rfl, rfl, rfl, rfl, rfl⟩

/-- Claim C19, counterexample. A farmer registration with a farm name and a farm size and no
crop list is not rejected: it is answered 201 and the account is created, with an empty crop
list. -/
theorem register_farmer_without_crops :
    farmerWithoutCrops.userType = "farmer" ∧ farmerWithoutCrops.crops = none ∧
    (register sampleLib none [] farmerWithoutCrops 5).2.code = 201 ∧
    (register sampleLib none [] farmerWithoutCrops 5).1.map (fun a => (a.userType, a.crops)) =
      [("farmer", [])] := by
  decide

/-- Claim C19, amended. The route requires of a farmer a farm name and a farm size, not a
crop list. A request with userType `farmer` that lacks the farm name or the farm size is
answered 400 and creates no account. A missing crop list is no cause of rejection: the request
has the same outcome as with an empty crop list, and a farmer request with a farm name and a
farm size that passes the validators, with an email that is not registered yet, is answered 201
and creates the account. A request with userType `consumer` that passes
the validators, with an email that is not registered yet, is answered 201 and creates the
account, whatever its farmer fields, which are not stored. -/
theorem register_role_fields (lib : AuthLib) (jwtSecret : Option String)
    (users : List Account) (req : RegisterRequest) (now : Nat) :
    (req.userType = "farmer" → (noString req.farmName = true ∨ noNumber req.farmSize = true) →
      (register lib jwtSecret users req now).1 = users ∧
      (register lib jwtSecret users req now).2.code = 400) ∧
    (register lib jwtSecret users { req with crops := none } now =
      register lib jwtSecret users { req with crops := some [] } now) ∧
    (req.userType = "farmer" → validRegisterRequest lib req = true →
      findByEmail users (lib.normalizeEmail req.email) = none →
      schemaEmail (lib.normalizeEmail req.email) ≠ "" →
      noString req.farmName = false → noNumber req.farmSize = false →
      ∃ user token,
        (register lib jwtSecret users req now).2 = .registered user token ∧
        (register lib jwtSecret users req now).1 =
          users ++ [{ user with password := some (lib.hash req.password) }] ∧
        user.userType = "farmer" ∧ user.farmName = req.farmName ∧
        user.farmSize = req.farmSize ∧ user.crops = req.crops.getD []) ∧
    (req.userType = "consumer" → validRegisterRequest lib req = true →
      findByEmail users (lib.normalizeEmail req.email) = none →
      schemaEmail (lib.normalizeEmail req.email) ≠ "" →
      ∃ user token,
        (register lib jwtSecret users req now).2 = .registered user token ∧
        (register lib jwtSecret users req now).2.code = 201 ∧
        (register lib jwtSecret users req now).1 =
          users ++ [{ user with password := some (lib.hash req.password) }] ∧
        user.userType = "consumer" ∧ user.farmName = none ∧ user.farmSize = none ∧
        user.crops = []) := by
  refine ⟨register_farmer_fields lib jwtSecret users req now, rfl,
    register_farmer lib jwtSecret users req now, ?_⟩
  intro hc hv hn he
  obtain ⟨user, token, h1, h2, h3⟩ := register_consumer lib jwtSecret users req now hc hv hn he
  exact ⟨user, token, h1, by rw [h1]; rfl, h2, h3⟩

/-- Witness of the amended C19: the test's farmer registration, which has no farm size, is
answered 400 and creates no account; the farmer registration with a farm name, a farm size and
no crop list, and the test's consumer registration, are answered 201. -/
theorem register_role_fields_witness :
    ((register sampleLib none [] testFarmerRequest 5).1 = [] ∧
      (register sampleLib none [] testFarmerRequest 5).2.code = 400) ∧
    (∃ user token,
      (register sampleLib none [] farmerWithoutCrops 5).2 = .registered user token ∧
      (register sampleLib none [] farmerWithoutCrops 5).1 =
        [] ++ [{ user with password := some (sampleLib.hash farmerWithoutCrops.password) }] ∧
      user.userType = "farmer" ∧ user.farmName = farmerWithoutCrops.farmName ∧
      user.farmSize = farmerWithoutCrops.farmSize ∧
      user.crops = farmerWithoutCrops.crops.getD []) ∧
    (∃ user token,
      (register sampleLib none [] testConsumerRequest 5).2 = .registered user token ∧
      (register sampleLib none [] testConsumerRequest 5).2.code = 201 ∧
      (register sampleLib none [] testConsumerRequest 5).1 =
        [] ++ [{ user with password := some (sampleLib.hash testConsumerRequest.password) }] ∧
      user.userType = "consumer" ∧ user.farmName = none ∧ user.farmSize = none ∧
      user.crops = []) :=
  ⟨(register_role_fields sampleLib none [] testFarmerRequest 5).1 rfl (Or.inr rfl),
    (register_role_fields sampleLib none [] farmerWithoutCrops 5).2.2.1 rfl
      (by decide) (by decide) (by decide) (by decide) (by decide),
    (register_role_fields sampleLib none [] testConsumerRequest 5).2.2.2 rfl
      (by decide) (by decide) (by decide)⟩

/-- The sanitizer `trim()` removes a no-break space like any other white space: a first name
made of a no-break space and one letter is one character long after it and is refused by the
validators, whereas a name of two letters around a no-break space is kept whole. -/
theorem register_trims_white_space :
    jsTrim "\u00a0A" = "A" ∧ jsTrim " \t Asha\u00a0\n" = "Asha" ∧
    jsTrim "A\u00a0B" = "A\u00a0B" ∧
    register sampleLib none [] { testConsumerRequest with firstName := "\u00a0A" } 5 =
      ([], .validationFailed) := by
  decide

/-- Claim C20, evaluation at the failing input. The farmer registration of the tests has a
farm name and no farm size. Whatever the libraries, the accounts already registered and the
date, it is answered 400 and creates no account; with the sample libraries it passes the
validators and, no account being registered yet, the reply is the 400
`Farm name and size are required for farmers`. -/
theorem register_test_farmer (lib : AuthLib) (jwtSecret : Option String)
    (users : List Account) (now : Nat) :
    testFarmerRequest.farmName = some "Test Organic Farm" ∧
    (register lib jwtSecret users testFarmerRequest now).1 = users ∧
    (register lib jwtSecret users testFarmerRequest now).2.code = 400 ∧
    validRegisterRequest sampleLib testFarmerRequest = true ∧
    register sampleLib none [] testFarmerRequest 5 = ([], .farmFieldsRequired) := by
  obtain ⟨h1, h2⟩ := register_farmer_fields lib jwtSecret users testFarmerRequest now rfl
    (Or.inr rfl)
  exact ⟨rfl, h1, h2, by decide, by decide⟩

/-! ## Login -/

/-- Claim C21. For a login request that passes the validators: when no active account has the
(normalized) email and the userType, the reply is 401 `Invalid credentials or user type`; when
there is one and the password does not match its stored hash, the reply is 401
`Invalid credentials`; in both cases no token is issued and the collection is unchanged. And a
login is accepted only for an active account of that email and userType whose stored hash
matches the password. -/
theorem login_unauthorized (lib : AuthLib) (jwtSecret : Option String) (users : List Account)
    (req : LoginRequest) (hvalid : validLoginRequest lib req = true) :
    (findActiveAccount users (lib.normalizeEmail req.email) req.userType = none →
      login lib jwtSecret users req = (users, .unauthorized "Invalid credentials or user type") ∧
      (login lib jwtSecret users req).2.code = 401) ∧
    (∀ account stored,
      findActiveAccount users (lib.normalizeEmail req.email) req.userType = some account →
      account.password = some stored → lib.compare req.password stored = false →
      login lib jwtSecret users req = (users, .unauthorized "Invalid credentials") ∧
      (login lib jwtSecret users req).2.code = 401) ∧
    (∀ user token, (login lib jwtSecret users req).2 = .loggedIn user token →
      ∃ account stored,
        findActiveAccount users (lib.normalizeEmail req.email) req.userType = some account ∧
        account.password = some stored ∧ lib.compare req.password stored = true) := by
  refine ⟨?_, ?_, ?_⟩
  · intro h
    have : login lib jwtSecret users req =
        (users, .unauthorized "Invalid credentials or user type") := by
      simp [login, hvalid, h]
    exact ⟨this, by rw [this]; rfl⟩
  · intro account stored h hp hc
    have : login lib jwtSecret users req = (users, .unauthorized "Invalid credentials") := by
      simp [login, hvalid, h, hp, hc]
    exact ⟨this, by rw [this]; rfl⟩
  · intro user token h
    cases hf : findActiveAccount users (lib.normalizeEmail req.email) req.userType with
    | none => simp [login, hvalid, hf] at h
    | some account =>
      cases hp : account.password with
      | none => simp [login, hvalid, hf, hp] at h
      | some stored =>
        cases hc : lib.compare req.password stored with
        | false => simp [login, hvalid, hf, hp, hc] at h
        | true => exact ⟨account, stored, rfl, hp, hc⟩

/-- Witness of C21: the invalid login of the tests on an empty collection, and the test
consumer's login with a wrong password, are answered 401. -/
theorem login_unauthorized_witness :
    (login sampleLib none [] testInvalidLogin =
        ([], .unauthorized "Invalid credentials or user type") ∧
      (login sampleLib none [] testInvalidLogin).2.code = 401) ∧
    (login sampleLib none consumerUsers
        { email := "consumer@test.com", password := "password124", userType := "consumer" } =
        (consumerUsers, .unauthorized "Invalid credentials") ∧
      (login sampleLib none consumerUsers
        { email := "consumer@test.com", password := "password124",
          userType := "consumer" }).2.code = 401) :=
  ⟨(login_unauthorized sampleLib none [] testInvalidLogin (by decide)).1 (by decide),
    (login_unauthorized sampleLib none consumerUsers
      { email := "consumer@test.com", password := "password124", userType := "consumer" }
      (by decide)).2.1
      { id := 0, userType := "consumer", firstName := "Test", lastName := "Consumer",
        email := "consumer@test.com", phone := "9876543211",
        location := { city := "Mumbai", state := "Maharashtra", pincode := "400002" },
        password := some "hash:password123", farmName := none, farmSize := none, crops := [],
        termsAccepted := false, newsletter := false, isActive := true, createdAt := 5,
        updatedAt := 5 }
      "hash:password123" (by decide) rfl (by decide)⟩

/-! ## The `auth` middlewares -/

theorem authReading_userId_generateToken (jwtSecret signingSecret : Option String)
    (users : List Account) (id : Nat) :
    authReading "userId" jwtSecret users (some (generateToken signingSecret id)) =
      .denied "Token is not valid" := by
  unfold authReading
  simp only
  cases hv : jwtVerify jwtSecret (generateToken signingSecret id) with
  | none => rfl
  | some decoded =>
    have hd : decoded = [("id", id)] := by
      unfold jwtVerify at hv
      cases jwtSecret with
      | none => simp at hv
      | some secret =>
        simp only at hv
        split at hv
        · simpa [generateToken] using hv.symm
        · simp at hv
    subst hd
    simp [List.lookup]

/-- Claim C23, evaluation at the failing input. Whatever the secrets, the accounts and the
user id, the token of `generateToken` is refused with 401 `Token is not valid` by the `auth` of
`routes/messages.js` and of `routes/users.js`, which read `decoded.userId` in a payload that
has the field `id`. With `JWT_SECRET` set, the token issued for the registered test consumer is
accepted by the `auth` of `routes/orders.js` and of `routes/products.js`, which set `req.user`
to that account. -/
theorem auth_middlewares_disagree (jwtSecret signingSecret : Option String)
    (users : List Account) (id : Nat) :
    messagesAuth jwtSecret users (some (generateToken signingSecret id)) =
      .denied "Token is not valid" ∧
    usersAuth jwtSecret users (some (generateToken signingSecret id)) =
      .denied "Token is not valid" ∧
    (∃ account, findAccountById consumerUsers 0 = some account ∧
      ordersAuth (some "s3cret") consumerUsers (some (generateToken (some "s3cret") 0)) =
        .authenticated account ∧
      productsAuth (some "s3cret") consumerUsers (some (generateToken (some "s3cret") 0)) =
        .authenticated account ∧
      messagesAuth (some "s3cret") consumerUsers (some (generateToken (some "s3cret") 0)) =
        .denied "Token is not valid") := by
  refine ⟨authReading_userId_generateToken _ _ _ _, authReading_userId_generateToken _ _ _ _,
    ?_⟩
  refine ⟨_, rfl, ?_, ?_, ?_⟩ <;> decide

/-! ## Pagination -/

/-- Claim C24. In the pagination block of `GET /api/orders`, for integers `page`, `total` and
`limit ≥ 1` (so in particular for `page ≥ 1` and `total ≥ 0`): the number of pages is
`ceil(total / limit)`, `hasNext` is the test `page × limit < total`, which holds if and only if
`page` is less than the number of pages, and `hasPrev` is the test `page > 1`. -/
theorem pagination_flags (page limit total : ℤ) (hlimit : 1 ≤ limit) :
    (pagination page limit total).total = Int.ceil ((total : ℚ) / (limit : ℚ)) ∧
    (pagination page limit total).hasNext = decide (page * limit < total) ∧
    (pagination page limit total).hasPrev = decide (page > 1) ∧
    (page * limit < total ↔ page < Int.ceil ((total : ℚ) / (limit : ℚ))) ∧
    ((pagination page limit total).hasNext = true ↔ page < (pagination page limit total).total) ∧
    ((pagination page limit total).hasPrev = true ↔ page > 1) ∧
    (pagination page limit total).current = page := by
  have hl : (0 : ℚ) < (limit : ℚ) := by exact_mod_cast (by omega : (0 : ℤ) < limit)
  have hiff : page * limit < total ↔ page < Int.ceil ((total : ℚ) / (limit : ℚ)) := by
    rw [Int.lt_ceil, lt_div_iff₀ hl]
    constructor
    · intro h; exact_mod_cast h
    · intro h; exact_mod_cast h
  refine ⟨rfl, rfl, rfl, hiff, ?_, ?_, rfl⟩
  · simp only [pagination, decide_eq_true_eq]
    exact hiff
  · simp [pagination]

/-- Witness of C24: 45 orders by pages of 20. Page 2 of 3 has a next and a previous page,
page 3 has no next page, page 1 has no previous page. -/
theorem pagination_flags_witness :
    pagination 2 20 45 = { current := 2, total := 3, hasNext := true, hasPrev := true } ∧
    (pagination 3 20 45).hasNext = false ∧ (pagination 1 20 45).hasPrev = false ∧
    (((2 : ℤ) * 20 < 45) ↔ 2 < Int.ceil (((45 : ℤ) : ℚ) / ((20 : ℤ) : ℚ))) :=
  have h := pagination_flags 2 20 45 (by decide)
  have hceil : Int.ceil (((45 : ℤ) : ℚ) / ((20 : ℤ) : ℚ)) = 3 := by
    rw [Int.ceil_eq_iff]; norm_num
  ⟨by
      have h1 := h.1
      rw [hceil] at h1
      have h2 := h.2.1
      have h3 := h.2.2.1
      have h4 := h.2.2.2.2.2.2
      cases hp : pagination 2 20 45 with
      | mk c t n v =>
        rw [hp] at h1 h2 h3 h4
        simp only at h1 h2 h3 h4
        subst h1 h4
        rw [h2, h3]
        decide,
    by simp [pagination], by simp [pagination], h.2.2.2.1⟩

/-! ## Checkout totals -/

theorem foldl_add_sum {α : Type} (f : α → ℚ) (l : List α) :
    ∀ a : ℚ, l.foldl (fun t x => t + f x) a = a + (l.map f).sum := by
  induction l with
  | nil => intro a; simp
  | cons x xs ih => intro a; simp [List.foldl_cons, ih, add_assoc]

theorem createOrder_totals (s : Store) (user : User) (req : OrderRequest)
    (orderNumber : String) (s' : Store) (o : Order)
    (h : createOrder s user req orderNumber = (s', .created o)) :
    o.subtotal = requestSubtotal s.products req.items ∧
    (∀ it ∈ req.items, (findById s.products it.productId).isSome = true) ∧
    o.deliveryCharge = deliveryFee ∧
    o.total = o.subtotal + deliveryFee + o.subtotal * taxRate := by
  unfold createOrder at h
  split at h
  · simp at h
  · split at h
    · simp at h
    · split at h
      · next cat r hp =>
        simp only [Prod.mk.injEq] at h
        obtain ⟨-, rfl⟩ := h
        rcases processItems_error _ _ _ _ _ hp with ⟨id, hr⟩ | ⟨nm, av, hr⟩ <;> simp at hr
      · next cat acc hp =>
        obtain ⟨h1, h2⟩ := processItems_subtotal _ _ _ _ _ hp
        simp only [Prod.mk.injEq, Response.created.injEq] at h
        obtain ⟨-, rfl⟩ := h
        simp only [zero_add] at h1
        exact ⟨h1, h2, rfl, rfl⟩

/-- Claim C25. For a cart whose item prices are the stored prices of their products, and the
order `POST /api/orders` creates for the items `js/checkout.js` sends for that cart:
`calculateTotals` computes the subtotal, the tax (subtotal × 0.05, which is also the stored
total less subtotal and delivery charge) and the total of the order. -/
theorem checkout_totals_agree (s : Store) (user : User) (req : OrderRequest)
    (orderNumber : String) (s' : Store) (o : Order) (cart : List CartItem)
    (h : createOrder s user req orderNumber = (s', .created o))
    (hitems : req.items = cartOrderItems cart)
    (hprices : ∀ item ∈ cart, ∀ p, findById s.products item.productId = some p →
      item.price = p.price.amount) :
    (calculateTotals cart).subtotal = o.subtotal ∧
    (calculateTotals cart).tax = o.subtotal * taxRate ∧
    (calculateTotals cart).tax = o.total - o.subtotal - o.deliveryCharge ∧
    (calculateTotals cart).total = o.total := by
  obtain ⟨hsub, hfound, hdel, htot⟩ := createOrder_totals s user req orderNumber s' o h
  have hs : (calculateTotals cart).subtotal = o.subtotal := by
    rw [hsub, hitems]
    simp only [calculateTotals, foldl_add_sum, zero_add, requestSubtotal, cartOrderItems,
      List.map_map]
    congr 1
    apply List.map_congr_left
    intro item hitem
    have hf := hfound ⟨item.productId, item.quantity, none, none⟩
      (by rw [hitems]; exact List.mem_map_of_mem _ hitem)
    simp only [Function.comp]
    cases hp : findById s.products item.productId with
    | none => simp [hp] at hf
    | some p => simp [hprices item hitem p hp]
  have ht : (calculateTotals cart).tax = o.subtotal * taxRate := by
    rw [← hs]; simp [calculateTotals, checkoutTaxRate, taxRate]
  refine ⟨hs, ht, ?_, ?_⟩
  · rw [ht, htot, hdel]; ring
  · rw [htot, ← hs]
    simp [calculateTotals, checkoutTaxRate, taxRate, checkoutDeliveryFee, deliveryFee]

/-- Witness of C25 on the scenario: the cart of 3 tomatoes at 40 and the scenario's order. -/
theorem checkout_totals_agree_witness :
    (calculateTotals tomatoCart).subtotal = tomatoOrder.subtotal ∧
    (calculateTotals tomatoCart).tax = tomatoOrder.subtotal * taxRate ∧
    (calculateTotals tomatoCart).tax =
      tomatoOrder.total - tomatoOrder.subtotal - tomatoOrder.deliveryCharge ∧
    (calculateTotals tomatoCart).total = tomatoOrder.total :=
  checkout_totals_agree tomatoStore buyer (orderOf [(1, 3)]) "ORD1" tomatoStoreAfter tomatoOrder
    tomatoCart
    (by
      simp [createOrder, validOrderRequest, orderOf, tomatoStore, processItems, findById,
        tomatoes, incInventory, setAdd, freshOrderId, buyer, homeAddress, strOr, tomatoOrder,
        deliveryFee, taxRate, tomatoStoreAfter, toLowerCase]
      norm_num)
    (by simp [orderOf, cartOrderItems, tomatoCart])
    (by
      intro item hitem p hp
      simp only [tomatoCart, List.mem_singleton] at hitem
      subst hitem
      simp [findById, tomatoStore, tomatoes] at hp
      subst hp
      rfl)

/-! ## The shopping cart -/

theorem addQuantity_ids (items : List CartItem) (productId : Nat) (quantity : ℚ) :
    (addQuantity items productId quantity).map (fun item => item.productId) =
      items.map (fun item => item.productId) := by
  induction items with
  | nil => rfl
  | cons item rest ih =>
    by_cases h : item.productId = productId
    · simp [addQuantity, h]
    · simp [addQuantity, h, ih]

theorem setQuantity_ids (items : List CartItem) (productId : Nat) (quantity : ℚ) :
    (setQuantity items productId quantity).map (fun item => item.productId) =
      items.map (fun item => item.productId) := by
  induction items with
  | nil => rfl
  | cons item rest ih =>
    by_cases h : item.productId = productId
    · simp [setQuantity, h]
    · simp [setQuantity, h, ih]

theorem removeItem_unique (items : List CartItem) (productId : Nat) (h : uniqueIds items) :
    uniqueIds (removeItem items productId) := by
  unfold uniqueIds removeItem at *
  exact (List.filter_sublist _).map _ |>.nodup h

theorem removeItem_of_absent (items : List CartItem) (productId : Nat)
    (h : items.find? (fun item => item.productId == productId) = none) :
    removeItem items productId = items := by
  unfold removeItem
  rw [List.filter_eq_self]
  intro item hitem
  have := List.find?_eq_none.1 h item hitem
  simpa using this

/-- Claim C26. If no two items of the cart have the same productId, this is still so after
`addItem`, `removeItem`, `updateQuantity` and `clearCart`. After `removeItem(id)`, and after
`updateQuantity(id, q)` with `q ≤ 0`, the cart is the former cart without the items of that id:
no item has that id, and the other items are unchanged and in the same order. -/
theorem cart_unique_ids (items : List CartItem) (product : ProductDoc) (id : Nat)
    (quantity : ℚ) (h : uniqueIds items) :
    uniqueIds (addItem items product quantity) ∧
    uniqueIds (removeItem items id) ∧
    uniqueIds (updateQuantity items id quantity) ∧
    uniqueIds (clearCart items) ∧
    (∀ item ∈ removeItem items id, item.productId ≠ id) ∧
    removeItem items id = items.filter (fun item => item.productId ≠ id) ∧
    (quantity ≤ 0 →
      (∀ item ∈ updateQuantity items id quantity, item.productId ≠ id) ∧
      updateQuantity items id quantity = items.filter (fun item => item.productId ≠ id)) := by
  have hfilter : removeItem items id = items.filter (fun item => item.productId ≠ id) := by
    unfold removeItem
    congr 1
    funext item
    by_cases e : item.productId = id <;> simp [e]
  have hremoved : ∀ item ∈ removeItem items id, item.productId ≠ id := by
    intro item hitem
    rw [hfilter] at hitem
    simpa using (List.mem_filter.1 hitem).2
  refine ⟨?_, removeItem_unique items id h, ?_, ?_, hremoved, hfilter, ?_⟩
  · unfold addItem
    cases hf : items.find? (fun item => item.productId == product.id) with
    | some found =>
      simp only
      unfold uniqueIds
      rw [addQuantity_ids]
      exact h
    | none =>
      simp only
      unfold uniqueIds at *
      rw [List.map_append, List.nodup_append]
      refine ⟨h, by simp, ?_⟩
      intro a ha hb
      simp only [List.map_cons, List.map_nil, List.mem_singleton] at hb
      subst hb
      obtain ⟨item, hitem, hid⟩ := List.mem_map.1 ha
      have := List.find?_eq_none.1 hf item hitem
      simp [hid] at this
  · unfold updateQuantity
    cases hf : items.find? (fun item => item.productId == id) with
    | some found =>
      simp only
      split
      · exact removeItem_unique items id h
      · unfold uniqueIds
        rw [setQuantity_ids]
        exact h
    | none => exact h
  · unfold uniqueIds clearCart
    exact List.nodup_nil
  · intro hq
    have hupd : updateQuantity items id quantity = removeItem items id := by
      unfold updateQuantity
      cases hf : items.find? (fun item => item.productId == id) with
      | some found => simp [hq]
      | none => simp only; exact (removeItem_of_absent items id hf).symm
    rw [hupd]
    exact ⟨hremoved, hfilter⟩

/-- Witness of C26 on the cart of 3 tomatoes. -/
theorem cart_unique_ids_witness :
    uniqueIds (addItem tomatoCart tomatoDoc 2) ∧
    uniqueIds (removeItem tomatoCart 1) ∧
    uniqueIds (updateQuantity tomatoCart 1 0) ∧
    uniqueIds (clearCart tomatoCart) ∧
    removeItem tomatoCart 1 = tomatoCart.filter (fun item => item.productId ≠ 1) ∧
    updateQuantity tomatoCart 1 0 = tomatoCart.filter (fun item => item.productId ≠ 1) :=
  have h := cart_unique_ids tomatoCart tomatoDoc 1 0 (by simp [uniqueIds, tomatoCart])
  ⟨h.1, h.2.1, h.2.2.1, h.2.2.2.1, h.2.2.2.2.2.1, (h.2.2.2.2.2.2 (le_refl 0)).2⟩

theorem addQuantity_sums (productId : Nat) (quantity : ℚ) (items : List CartItem) :
    ∀ found, items.find? (fun item => item.productId == productId) = some found →
      ((addQuantity items productId quantity).map (fun item => item.quantity)).sum =
        (items.map (fun item => item.quantity)).sum + quantity ∧
      ((addQuantity items productId quantity).map (fun item => item.price * item.quantity)).sum =
        (items.map (fun item => item.price * item.quantity)).sum + quantity * found.price := by
  induction items with
  | nil => intro found h; simp at h
  | cons item rest ih =>
    intro found h
    by_cases e : item.productId = productId
    · have hfound : found = item := by
        simp [List.find?_cons, e] at h
        exact h.symm
      subst hfound
      simp only [addQuantity, e, if_true, List.map_cons, List.sum_cons]
      constructor <;> ring
    · have hrest : rest.find? (fun item => item.productId == productId) = some found := by
        simpa [List.find?_cons, e] using h
      obtain ⟨h1, h2⟩ := ih found hrest
      simp only [addQuantity, e, if_false, List.map_cons, List.sum_cons, h1, h2]
      constructor <;> ring

/-- Claim C27, counterexample. The cart holds 3 tomatoes at 40, the price kept when they were
added; the tomatoes are now at 50. After `addItem` of 2 more the total is 200, not
120 + 2 × 50 = 220. -/
theorem addItem_keeps_old_price :
    getTotal tomatoCart = 120 ∧ dearerTomatoDoc.price.amount = 50 ∧
    getTotal (addItem tomatoCart dearerTomatoDoc 2) = 200 ∧
    getTotal (addItem tomatoCart dearerTomatoDoc 2) ≠
      getTotal tomatoCart + 2 * dearerTomatoDoc.price.amount := by
  have h1 : getTotal tomatoCart = 120 := by
    simp [getTotal, tomatoCart]; norm_num
  have h2 : getTotal (addItem tomatoCart dearerTomatoDoc 2) = 200 := by
    simp [getTotal, addItem, addQuantity, tomatoCart, dearerTomatoDoc, tomatoDoc, tomatoes]
    norm_num
  refine ⟨h1, rfl, h2, ?_⟩
  rw [h1, h2]
  simp [dearerTomatoDoc]
  norm_num

/-- Claim C27, amended. After `addItem(p, q)` the count of the cart is the previous count plus
`q`, and its total is the previous total plus `q` times the price `addItem` counts: the price
of `p` when `p` is new to the cart, and the price kept in the cart item when an item with the
id of `p` is already in the cart. -/
theorem addItem_count_total (items : List CartItem) (product : ProductDoc) (quantity : ℚ) :
    getCount (addItem items product quantity) = getCount items + quantity ∧
    getTotal (addItem items product quantity) =
      getTotal items + quantity * cartPrice items product := by
  cases hf : items.find? (fun item => item.productId == product.id) with
  | some found =>
    obtain ⟨h1, h2⟩ := addQuantity_sums product.id quantity items found hf
    have hadd : addItem items product quantity = addQuantity items product.id quantity := by
      simp [addItem, hf]
    have hprice : cartPrice items product = found.price := by simp [cartPrice, hf]
    refine ⟨?_, ?_⟩
    · rw [hadd]; simp only [getCount, foldl_add_sum, zero_add]; exact h1
    · rw [hadd, hprice]; simp only [getTotal, foldl_add_sum, zero_add]; exact h2
  | none =>
    have hprice : cartPrice items product = product.price.amount := by simp [cartPrice, hf]
    refine ⟨?_, ?_⟩
    · simp [addItem, hf, getCount, foldl_add_sum]
    · rw [hprice]
      simp [addItem, hf, getTotal, foldl_add_sum]
      ring

/-! ## Product updates -/

theorem findProductDoc_id (products : List ProductDoc) (id : Nat) (p : ProductDoc)
    (h : findProductDoc products id = some p) : p.id = id := by
  have := List.find?_some h
  simpa using this

theorem findProductDoc_replace (products : List ProductDoc) (p' : ProductDoc) (id : Nat) :
    findProductDoc (replaceProductDoc products p') id =
      if id = p'.id then (findProductDoc products id).map (fun _ => p')
      else findProductDoc products id := by
  induction products with
  | nil => simp [findProductDoc, replaceProductDoc]
  | cons a as ih =>
    unfold findProductDoc at ih ⊢
    by_cases ha : a.id = p'.id
    · by_cases hid : id = p'.id
      · subst hid; simp [replaceProductDoc, ha]
      · have h1 : ¬ p'.id = id := fun e => hid e.symm
        have h2 : ¬ a.id = id := fun e => hid (e.symm.trans ha)
        simp [replaceProductDoc, ha, hid, h1, h2]
    · by_cases hid : id = p'.id
      · subst hid; simp [replaceProductDoc, ha, ih]
      · by_cases h2 : a.id = id
        · simp [replaceProductDoc, ha, hid, h2]
        · simp [replaceProductDoc, ha, hid, h2, ih]

theorem updateProduct_cases (products : List ProductDoc) (user : User) (id : Nat)
    (body : ProductUpdate) (p : ProductDoc) (hfind : findProductDoc products id = some p) :
    ((updateProduct products user id body).1 = products ∧
      ∀ q, (updateProduct products user id body).2 ≠ .ok q) ∨
    (p.farmer = user.id ∧
      updateProduct products user id body =
        (replaceProductDoc products (applyProductUpdate p body),
          .ok (applyProductUpdate p body))) := by
  cases hv : validProductUpdate body with
  | false => left; simp [updateProduct, hv]
  | true =>
    by_cases hf : p.farmer = user.id
    · cases ha : productUpdateAccepted body with
      | false => left; simp [updateProduct, hv, hfind, hf, ha]
      | true => right; simp [updateProduct, hv, hfind, hf, ha]
    · left; simp [updateProduct, hv, hfind, hf]

/-- Claim C22, counterexample. An account that is not the farmer of the tomatoes sends a body
with an empty name: the validators answer 400 before the ownership is looked at, not 403. The
product is unchanged. -/
theorem updateProduct_stranger_invalid :
    findProductDoc [tomatoDoc] 1 = some tomatoDoc ∧ tomatoDoc.farmer ≠ stranger.id ∧
    updateProduct [tomatoDoc] stranger 1 emptyNameUpdate = ([tomatoDoc], .validationErrors) ∧
    (updateProduct [tomatoDoc] stranger 1 emptyNameUpdate).2.code = 400 ∧
    (updateProduct [tomatoDoc] stranger 1 emptyNameUpdate).2.code ≠ 403 := by
  have h : updateProduct [tomatoDoc] stranger 1 emptyNameUpdate =
      ([tomatoDoc], .validationErrors) := by
    simp [updateProduct, validProductUpdate, emptyNameUpdate]
  refine ⟨by simp [findProductDoc, tomatoDoc, tomatoes], by simp [tomatoDoc, tomatoes, stranger],
    h, ?_, ?_⟩ <;> rw [h] <;> decide

/-- Claim C22, amended. For an existing product `p`: an account that is not its farmer never
changes the stored products, and its request, when it passes the validators, is answered 403;
a request that does not pass them is answered 400, whatever the account. Whatever
the account and the request, the other products are unchanged, and the stored product `p'` of
that id afterwards has the farmer, the price unit, the currency, the id and the location of
`p`; and each of name, description, category, inventory, images and price amount is as in `p`
when it is absent from the request. When the update is accepted, the account is the farmer,
each of these is the value of the request when present (the name without the white space at
its ends, which the schema trims), and the reply is the stored product. -/
theorem updateProduct_frame (products : List ProductDoc) (user : User) (id : Nat)
    (body : ProductUpdate) (p : ProductDoc) (hfind : findProductDoc products id = some p) :
    (p.farmer ≠ user.id →
      (updateProduct products user id body).1 = products ∧
      (validProductUpdate body = true →
        updateProduct products user id body =
          (products, .forbidden "Not authorized to update this product") ∧
        (updateProduct products user id body).2.code = 403)) ∧
    (validProductUpdate body = false →
      updateProduct products user id body = (products, .validationErrors) ∧
      (updateProduct products user id body).2.code = 400) ∧
    (∀ id', id' ≠ id →
      findProductDoc (updateProduct products user id body).1 id' = findProductDoc products id') ∧
    (∃ p', findProductDoc (updateProduct products user id body).1 id = some p' ∧
      p'.farmer = p.farmer ∧ p'.price.unit = p.price.unit ∧
      p'.price.currency = p.price.currency ∧ p'.id = p.id ∧ p'.location = p.location ∧
      (body.name = none → p'.name = p.name) ∧
      (body.description = none → p'.description = p.description) ∧
      (body.category = none → p'.category = p.category) ∧
      (body.inventory = none → p'.inventory = p.inventory) ∧
      (body.images = none → p'.images = p.images) ∧
      (body.price = none → p'.price.amount = p.price.amount) ∧
      (∀ q, (updateProduct products user id body).2 = .ok q →
        q = p' ∧ p.farmer = user.id ∧
        p'.name = (body.name.map jsTrim).getD p.name ∧
        p'.description = body.description.getD p.description ∧
        p'.category = body.category.getD p.category ∧
        p'.inventory = body.inventory.getD p.inventory ∧
        p'.images = body.images.getD p.images ∧
        p'.price.amount = body.price.getD p.price.amount)) := by
  have hid := findProductDoc_id products id p hfind
  refine ⟨?_, ?_, ?_, ?_⟩
  · intro hne
    cases hv : validProductUpdate body with
    | false => exact ⟨by simp [updateProduct, hv], fun h => by simp at h⟩
    | true =>
      have : updateProduct products user id body =
          (products, .forbidden "Not authorized to update this product") := by
        simp [updateProduct, hv, hfind, hne]
      exact ⟨by rw [this], fun _ => ⟨this, by rw [this]; rfl⟩⟩
  · intro hv
    have : updateProduct products user id body = (products, .validationErrors) := by
      simp [updateProduct, hv]
    exact ⟨this, by rw [this]; rfl⟩
  · intro id' hne
    rcases updateProduct_cases products user id body p hfind with ⟨h, -⟩ | ⟨-, h⟩
    · rw [h]
    · rw [h]
      simp only [findProductDoc_replace]
      have : ¬ id' = (applyProductUpdate p body).id := by
        show ¬ id' = p.id
        rw [hid]; exact hne
      simp [this]
  · rcases updateProduct_cases products user id body p hfind with ⟨h, hno⟩ | ⟨hf, h⟩
    · rw [h]
      exact ⟨p, hfind, rfl, rfl, rfl, rfl, rfl, fun _ => rfl, fun _ => rfl, fun _ => rfl,
        fun _ => rfl, fun _ => rfl, fun _ => rfl, fun q hq => absurd hq (hno q)⟩
    · rw [h]
      refine ⟨applyProductUpdate p body, ?_, rfl, rfl, rfl, rfl, rfl, ?_, ?_, ?_, ?_, ?_, ?_, ?_⟩
      · simp only [findProductDoc_replace]
        have : id = (applyProductUpdate p body).id := by
          show id = p.id
          exact hid.symm
        simp [← this, hfind]
      · intro e; simp [applyProductUpdate, e]
      · intro e; simp [applyProductUpdate, e]
      · intro e; simp [applyProductUpdate, e]
      · intro e; simp [applyProductUpdate, e]
      · intro e; simp [applyProductUpdate, e]
      · intro e; simp [applyProductUpdate, e]
      · intro q hq
        simp only [ProductResponse.ok.injEq] at hq
        exact ⟨hq.symm, hf, rfl, rfl, rfl, rfl, rfl, rfl⟩

/-- Witness of C22: a stranger's price update of the tomatoes is answered 403 and changes
nothing; after the owner's, the tomatoes have kept their farmer, unit, currency, name and
inventory. -/
theorem updateProduct_frame_witness :
    (updateProduct [tomatoDoc] stranger 1 (priceUpdate 45) =
      ([tomatoDoc], .forbidden "Not authorized to update this product")) ∧
    (∃ p', findProductDoc (updateProduct [tomatoDoc] seller 1 (priceUpdate 45)).1 1 = some p' ∧
      p'.farmer = tomatoDoc.farmer ∧ p'.price.unit = tomatoDoc.price.unit ∧
      p'.price.currency = tomatoDoc.price.currency ∧ p'.name = tomatoDoc.name ∧
      p'.inventory = tomatoDoc.inventory) :=
  have hfind : findProductDoc [tomatoDoc] 1 = some tomatoDoc := by
    simp [findProductDoc, tomatoDoc, tomatoes]
  ⟨(((updateProduct_frame [tomatoDoc] stranger 1 (priceUpdate 45) tomatoDoc hfind).1
      (by simp [tomatoDoc, tomatoes, stranger])).2 (by simp [validProductUpdate, priceUpdate])).1,
    match (updateProduct_frame [tomatoDoc] seller 1 (priceUpdate 45) tomatoDoc hfind).2.2.2 with
    | ⟨p', hfnd, hfar, hunit, hcur, _, _, hname, _, _, hinv, _⟩ =>
      ⟨p', hfnd, hfar, hunit, hcur, hname rfl, hinv rfl⟩⟩

/-- The owner renames the tomatoes with white space around the name: the name is stored
without it. A name of white space only passes the validator of the route and is refused by
the schema, which the handler answers with 500, the product being unchanged. -/
theorem updateProduct_trims_name :
    (findProductDoc (updateProduct [tomatoDoc] seller 1 (nameUpdate " Roma ")).1 1).map
      (fun p => p.name) = some "Roma" ∧
    (updateProduct [tomatoDoc] seller 1 (nameUpdate " Roma ")).2.code = 200 ∧
    updateProduct [tomatoDoc] seller 1 (nameUpdate "  ") = ([tomatoDoc], .serverError) := by
  decide

/-! ## Messages -/

theorem mapGet_mapSet {α : Type} (m : List (String × α)) (key key' : String) (value : α) :
    mapGet (mapSet m key value) key' = if key' = key then some value else mapGet m key' := by
  induction m with
  | nil =>
    by_cases h : key' = key
    · subst h; simp [mapGet, mapSet]
    · have h' : ¬ key = key' := fun e => h e.symm
      simp [mapGet, mapSet, h, h']
  | cons e rest ih =>
    unfold mapGet at ih ⊢
    by_cases he : e.1 = key
    · by_cases h : key' = key
      · subst h; simp [mapSet, he]
      · have h' : ¬ key = key' := fun e => h e.symm
        have h2 : ¬ e.1 = key' := fun x => h (x.symm.trans he)
        simp [mapSet, he, h, h', h2]
    · by_cases h : key' = key
      · subst h; simp [mapSet, he, ih]
      · by_cases h2 : e.1 = key'
        · simp [mapSet, he, h, h2]
        · simp [mapSet, he, h, h2, ih]

theorem conversationId_comm (a b : String) : conversationId a b = conversationId b a := by
  unfold conversationId
  by_cases h1 : b.data < a.data
  · have h2 : ¬ a.data < b.data := lt_asymm h1
    simp [h1, h2]
  · by_cases h2 : a.data < b.data
    · simp [h1, h2]
    · have hd : a.data = b.data := le_antisymm (not_lt.1 h1) (not_lt.1 h2)
      have hab : a = b := String.ext hd
      subst hab
      rfl

theorem sendMessage_created (userExists : String → Bool) (st : Messaging)
    (sender recipientId content : String) (now : Nat)
    (hrecipient : recipientId ≠ "") (hcontent : content ≠ "")
    (hexists : userExists recipientId = true) :
    (sendMessage userExists st sender recipientId content now).2 =
      .created { id := toString now, conversationId := conversationId sender recipientId,
                 sender := sender, recipient := recipientId, content := content,
                 timestamp := now, read := false } ∧
    (sendMessage userExists st sender recipientId content now).1.messages =
      mapSet st.messages (conversationId sender recipientId)
        (messagesOf st (conversationId sender recipientId) ++
          [{ id := toString now, conversationId := conversationId sender recipientId,
             sender := sender, recipient := recipientId, content := content,
             timestamp := now, read := false }]) ∧
    (sendMessage userExists st sender recipientId content now).1.conversations =
      mapSet (mapSet st.conversations sender
          (senderSide (conversationsOf st sender) (conversationId sender recipientId)
            recipientId content now))
        recipientId
        (recipientSide
          ((mapGet (mapSet st.conversations sender
            (senderSide (conversationsOf st sender) (conversationId sender recipientId)
              recipientId content now)) recipientId).getD [])
          (conversationId sender recipientId) sender content now) := by
  simp [sendMessage, hrecipient, hcontent, hexists]

theorem messagesOf_sendMessage (userExists : String → Bool) (st : Messaging)
    (sender recipientId content : String) (now : Nat)
    (hrecipient : recipientId ≠ "") (hcontent : content ≠ "")
    (hexists : userExists recipientId = true) :
    messagesOf (sendMessage userExists st sender recipientId content now).1
        (conversationId sender recipientId) =
      messagesOf st (conversationId sender recipientId) ++
        [{ id := toString now, conversationId := conversationId sender recipientId,
           sender := sender, recipient := recipientId, content := content,
           timestamp := now, read := false }] := by
  obtain ⟨-, h, -⟩ :=
    sendMessage_created userExists st sender recipientId content now hrecipient hcontent hexists
  unfold messagesOf at *
  rw [h, mapGet_mapSet]
  simp

theorem messagesOf_startConversation (userExists : String → Bool) (st : Messaging)
    (sender recipientId first : String) (now : Nat)
    (hrecipient : recipientId ≠ "") (hfirst : first ≠ "") (hlength : first.length ≤ 1000)
    (hexists : userExists recipientId = true)
    (hnew : (conversationsOf st sender).find? (fun c => c.otherUserId == recipientId) = none) :
    (startConversation userExists st sender recipientId (some first) now).2 =
      .conversationCreated (conversationId sender recipientId) ∧
    messagesOf (startConversation userExists st sender recipientId (some first) now).1
        (conversationId sender recipientId) =
      messagesOf st (conversationId sender recipientId) ++
        [{ id := toString now, conversationId := conversationId sender recipientId,
           sender := sender, recipient := recipientId, content := first,
           timestamp := now, read := false }] := by
  have hstr : strOr (some first) "" = first := by simp [strOr, hfirst]
  have hvalid : validInitialMessage (some first) = true := by simp [validInitialMessage, hlength]
  constructor
  · simp [startConversation, hrecipient, hvalid, hexists, hnew]
  · simp only [startConversation, hrecipient, hvalid, hexists, hnew, hstr, hfirst, false_or,
      Bool.true_eq_false, Bool.not_true, Bool.false_eq_true, if_false]
    unfold messagesOf
    simp only [mapGet_mapSet, if_true, Option.getD_some]

/-- Claim C28. The conversation id is symmetric in its two participants. So a message from
`a` to `b` followed by a message from `b` to `a`, both accepted, are appended, in that order,
to the one message list of that id, and `getMessages` of that id returns the former messages
followed by these two; likewise when `a` starts the conversation with an initial message and
`b` answers. -/
theorem conversation_symmetric (userExists : String → Bool) (st : Messaging)
    (a b first second reader : String) (now1 now2 : Nat)
    (ha : a ≠ "") (hb : b ≠ "") (hfirst : first ≠ "") (hsecond : second ≠ "")
    (hea : userExists a = true) (heb : userExists b = true) :
    conversationId a b = conversationId b a ∧
    (getMessages
        (sendMessage userExists (sendMessage userExists st a b first now1).1 b a second now2).1
        reader (conversationId a b)).2 =
      messagesOf st (conversationId a b) ++
        [{ id := toString now1, conversationId := conversationId a b, sender := a,
           recipient := b, content := first, timestamp := now1, read := false },
         { id := toString now2, conversationId := conversationId a b, sender := b,
           recipient := a, content := second, timestamp := now2, read := false }] ∧
    (first.length ≤ 1000 →
      (conversationsOf st a).find? (fun c => c.otherUserId == b) = none →
      (getMessages
          (sendMessage userExists (startConversation userExists st a b (some first) now1).1
            b a second now2).1
          reader (conversationId a b)).2 =
        messagesOf st (conversationId a b) ++
          [{ id := toString now1, conversationId := conversationId a b, sender := a,
             recipient := b, content := first, timestamp := now1, read := false },
           { id := toString now2, conversationId := conversationId a b, sender := b,
             recipient := a, content := second, timestamp := now2, read := false }]) := by
  have hcomm := conversationId_comm a b
  have hget : ∀ (s : Messaging) (r c : String), (getMessages s r c).2 = messagesOf s c := by
    intro s r c
    unfold getMessages
    split <;> rfl
  refine ⟨hcomm, ?_, ?_⟩
  · rw [hget]
    have h1 := messagesOf_sendMessage userExists st a b first now1 hb hfirst heb
    have h2 := messagesOf_sendMessage userExists (sendMessage userExists st a b first now1).1
      b a second now2 ha hsecond hea
    rw [← hcomm] at h2
    rw [h2, h1]
    simp
  · intro hlength hnew
    rw [hget]
    obtain ⟨-, h1⟩ :=
      messagesOf_startConversation userExists st a b first now1 hb hfirst hlength heb hnew
    have h2 := messagesOf_sendMessage userExists
      (startConversation userExists st a b (some first) now1).1 b a second now2 ha hsecond hea
    rw [← hcomm] at h2
    rw [h2, h1]
    simp

/-- Witness of C28: `u2` writes to `u1`, who answers; both messages are under `u1_u2`, also
when `u2` starts the conversation with its message. -/
theorem conversation_symmetric_witness :
    conversationId "u2" "u1" = conversationId "u1" "u2" ∧
    conversationId "u2" "u1" = "u1_u2" ∧
    (getMessages
        (sendMessage everyone (sendMessage everyone noMessages "u2" "u1" "hello" 1).1
          "u1" "u2" "hi" 2).1
        "u1" (conversationId "u2" "u1")).2 =
      messagesOf noMessages (conversationId "u2" "u1") ++
        [{ id := toString 1, conversationId := conversationId "u2" "u1", sender := "u2",
           recipient := "u1", content := "hello", timestamp := 1, read := false },
         { id := toString 2, conversationId := conversationId "u2" "u1", sender := "u1",
           recipient := "u2", content := "hi", timestamp := 2, read := false }] ∧
    (getMessages
        (sendMessage everyone
          (startConversation everyone noMessages "u2" "u1" (some "hello") 1).1
          "u1" "u2" "hi" 2).1
        "u1" (conversationId "u2" "u1")).2 =
      messagesOf noMessages (conversationId "u2" "u1") ++
        [{ id := toString 1, conversationId := conversationId "u2" "u1", sender := "u2",
           recipient := "u1", content := "hello", timestamp := 1, read := false },
         { id := toString 2, conversationId := conversationId "u2" "u1", sender := "u1",
           recipient := "u2", content := "hi", timestamp := 2, read := false }] :=
  have h := conversation_symmetric everyone noMessages "u2" "u1" "hello" "hi" "u1" 1 2
    (by decide) (by decide) (by decide) (by decide) rfl rfl
  ⟨h.1, by decide, h.2.1, h.2.2 (by decide) (by decide)⟩

theorem foldl_add_count (l : List Conversation) :
    ∀ a : Nat, l.foldl (fun total conv => total + conv.messageCount) a =
      a + (l.map (fun c => c.messageCount)).sum := by
  induction l with
  | nil => intro a; simp
  | cons x xs ih => intro a; simp [List.foldl_cons, ih, Nat.add_assoc]

theorem touchConversation_count (other : String) (f : Conversation → Conversation) (k : Nat)
    (hf : ∀ c, (f c).messageCount = c.messageCount + k) (l : List Conversation) :
    ∀ found, l.find? (fun c => c.otherUserId == other) = some found →
      ((touchConversation l other f).map (fun c => c.messageCount)).sum =
        (l.map (fun c => c.messageCount)).sum + k := by
  induction l with
  | nil => intro found h; simp at h
  | cons c rest ih =>
    intro found h
    by_cases e : c.otherUserId = other
    · simp only [touchConversation, e, if_true, List.map_cons, List.sum_cons, hf]
      omega
    · have hrest : rest.find? (fun c => c.otherUserId == other) = some found := by
        simpa [List.find?_cons, e] using h
      simp only [touchConversation, e, if_false, List.map_cons, List.sum_cons, ih found hrest]
      omega

theorem senderSide_count (l : List Conversation) (cid recipientId content : String)
    (now : Nat) :
    ((senderSide l cid recipientId content now).map (fun c => c.messageCount)).sum =
      (l.map (fun c => c.messageCount)).sum := by
  unfold senderSide
  cases hf : l.find? (fun c => c.otherUserId == recipientId) with
  | none => simp
  | some found =>
    have h := touchConversation_count recipientId
      (fun c => { c with lastMessage := content, timestamp := now }) 0 (fun c => rfl) l found hf
    simpa using h

theorem recipientSide_count (l : List Conversation) (cid sender content : String)
    (now : Nat) :
    ((recipientSide l cid sender content now).map (fun c => c.messageCount)).sum =
      (l.map (fun c => c.messageCount)).sum + 1 := by
  unfold recipientSide
  cases hf : l.find? (fun c => c.otherUserId == sender) with
  | none => simp
  | some found =>
    simp only
    exact touchConversation_count sender _ 1 (fun c => rfl) l found hf

/-- Claim C29. For distinct users `A` and `B`, an accepted `sendMessage` from `A` to `B` (a
recipient id and a content that are not empty, `B` being a user) is answered 201, raises the
unread count of `B` by exactly 1, leaves the unread count of `A` unchanged, and appends
exactly one message, from `A` to `B` with that content, to the end of the message list of the
conversation of `A` and `B`. -/
theorem sendMessage_unread (userExists : String → Bool) (st : Messaging)
    (A B content : String) (now : Nat) (hAB : A ≠ B) (hB : B ≠ "") (hcontent : content ≠ "")
    (hexists : userExists B = true) :
    (sendMessage userExists st A B content now).2.code = 201 ∧
    unreadCount (sendMessage userExists st A B content now).1 B = unreadCount st B + 1 ∧
    unreadCount (sendMessage userExists st A B content now).1 A = unreadCount st A ∧
    messagesOf (sendMessage userExists st A B content now).1 (conversationId A B) =
      messagesOf st (conversationId A B) ++
        [{ id := toString now, conversationId := conversationId A B, sender := A,
           recipient := B, content := content, timestamp := now, read := false }] := by
  obtain ⟨hr, -, hc⟩ := sendMessage_created userExists st A B content now hB hcontent hexists
  have hBA : ¬ B = A := fun e => hAB e.symm
  refine ⟨by rw [hr]; rfl, ?_, ?_,
    messagesOf_sendMessage userExists st A B content now hB hcontent hexists⟩
  · unfold unreadCount conversationsOf
    rw [hc]
    simp only [mapGet_mapSet, if_true, hBA, if_false, Option.getD_some, foldl_add_count,
      Nat.zero_add]
    exact recipientSide_count _ _ _ _ _
  · unfold unreadCount conversationsOf
    rw [hc]
    simp only [mapGet_mapSet, if_true, hAB, if_false, Option.getD_some, foldl_add_count,
      Nat.zero_add]
    exact senderSide_count _ _ _ _ _

/-- Witness of C29: the first message of `u2` to `u1`. -/
theorem sendMessage_unread_witness :
    (sendMessage everyone noMessages "u2" "u1" "hello" 1).2.code = 201 ∧
    unreadCount (sendMessage everyone noMessages "u2" "u1" "hello" 1).1 "u1" =
      unreadCount noMessages "u1" + 1 ∧
    unreadCount (sendMessage everyone noMessages "u2" "u1" "hello" 1).1 "u2" =
      unreadCount noMessages "u2" ∧
    messagesOf (sendMessage everyone noMessages "u2" "u1" "hello" 1).1
        (conversationId "u2" "u1") =
      messagesOf noMessages (conversationId "u2" "u1") ++
        [{ id := toString 1, conversationId := conversationId "u2" "u1", sender := "u2",
           recipient := "u1", content := "hello", timestamp := 1, read := false }] :=
  sendMessage_unread everyone noMessages "u2" "u1" "hello" 1 (by decide) (by decide)
    (by decide) rfl

end AgriConnect
